import Mathlib

/-!
# SURE 3D interest points: `sure_estimator.hpp`

A shallow embedding of `src/include/sure/impl/sure_estimator.hpp` and the
properties of its specification.

## Numbers

The source computes in `float`.  The embedding keeps the IEEE special values
that the source relies on (`NaN`, `+INFINITY`, `-INFINITY`: comparisons with
`NaN` are false, `0/0` is `NaN`, `x/0` is infinite) and computes exactly, in
`ℚ`, on finite values: rounding and overflow of finite values are not
modelled, and zero has no sign (a zero divisor counts as `+0`).  The library
functions `sqrt` and `exp` are exact on the special values and are parameters
on finite values.  `getNodeFromPosition` and the mean shift iteration, where
rounding and overflow change the result, are embedded a second time in the
namespace `binary32`, with every operation rounded to binary32.

## Pointers

An `OctreeNode*` is a natural number, the heap is a function from these to
node records, and the sampling map holds such numbers.  A histogram pointer of
a node is an optional histogram that the node owns.

## Collaborators

The octree, the histogram class, the feature descriptor, the eigen solver and
the constants live outside the source file; the structure `Externals` collects
them as parameters, and every theorem holds for all of them.

## Loops

A loop of the source is a recursive function over the list it scans, with the
loop variables as accumulators (`break` and `continue` are the branches that
stop or skip), or a fold of its body over that list.
-/

namespace sure

/-! ## Floating point values -/

/-- A `float`: not-a-number, the two infinities, or a finite value. -/
inductive Flt where
  | nan
  | ninf
  | pinf
  | fin (q : ℚ)
  deriving DecidableEq

namespace Flt

instance : Inhabited Flt := ⟨fin 0⟩

/-- Unary minus. -/
def neg : Flt → Flt
  | nan => nan
  | ninf => pinf
  | pinf => ninf
  | fin q => fin (-q)

/-- The function `fabs`. -/
def abs : Flt → Flt
  | nan => nan
  | ninf => pinf
  | pinf => pinf
  | fin q => fin (if q < 0 then -q else q)

/-- Addition: opposite infinities add to `NaN`. -/
def add : Flt → Flt → Flt
  | nan, _ => nan
  | _, nan => nan
  | fin a, fin b => fin (a + b)
  | pinf, ninf => nan
  | ninf, pinf => nan
  | pinf, _ => pinf
  | ninf, _ => ninf
  | fin _, pinf => pinf
  | fin _, ninf => ninf

/-- Subtraction, `a - b = a + (-b)`. -/
def sub (a b : Flt) : Flt := add a (neg b)

/-- An infinity times a finite value: `NaN` for zero, else by sign. -/
def infTimes (inf : Flt) (b : ℚ) : Flt :=
  if b = 0 then nan else if 0 < b then inf else neg inf

/-- Multiplication: infinity times zero is `NaN`. -/
def mul : Flt → Flt → Flt
  | nan, _ => nan
  | _, nan => nan
  | fin a, fin b => fin (a * b)
  | pinf, pinf => pinf
  | pinf, ninf => ninf
  | ninf, pinf => ninf
  | ninf, ninf => pinf
  | pinf, fin b => infTimes pinf b
  | ninf, fin b => infTimes ninf b
  | fin a, pinf => infTimes pinf a
  | fin a, ninf => infTimes ninf a

/-- Division: `0/0` and `inf/inf` are `NaN`, a non-zero value over zero is
infinite, a finite value over an infinity is zero. -/
def div : Flt → Flt → Flt
  | nan, _ => nan
  | _, nan => nan
  | fin a, fin b =>
    if b = 0 then (if a = 0 then nan else if 0 < a then pinf else ninf)
    else fin (a / b)
  | fin _, pinf => fin 0
  | fin _, ninf => fin 0
  | pinf, fin b => if 0 ≤ b then pinf else ninf
  | ninf, fin b => if 0 ≤ b then ninf else pinf
  | pinf, pinf => nan
  | pinf, ninf => nan
  | ninf, pinf => nan
  | ninf, ninf => nan

/-- The comparison `a < b`; false when an operand is `NaN`. -/
def lt : Flt → Flt → Bool
  | nan, _ => false
  | _, nan => false
  | fin a, fin b => decide (a < b)
  | ninf, ninf => false
  | ninf, _ => true
  | pinf, _ => false
  | fin _, pinf => true
  | fin _, ninf => false

/-- The comparison `a <= b`; false when an operand is `NaN`. -/
def le : Flt → Flt → Bool
  | nan, _ => false
  | _, nan => false
  | fin a, fin b => decide (a ≤ b)
  | ninf, _ => true
  | pinf, pinf => true
  | pinf, _ => false
  | fin _, pinf => true
  | fin _, ninf => false

/-- The comparison `a > b`. -/
def gt (a b : Flt) : Bool := lt b a

/-- The comparison `a >= b`. -/
def ge (a b : Flt) : Bool := le b a

/-- The comparison `a == b`; false when an operand is `NaN`. -/
def feq : Flt → Flt → Bool
  | nan, _ => false
  | _, nan => false
  | a, b => decide (a = b)

/-- The comparison `a != b`; true when an operand is `NaN`. -/
def fne (a b : Flt) : Bool := !(feq a b)

/-- The test `isnan`. -/
def isNaN : Flt → Bool
  | nan => true
  | _ => false

/-- The test `std::isfinite`. -/
def isFinite : Flt → Bool
  | fin _ => true
  | _ => false

end Flt

/-! ## Vectors -/

/-- An `Eigen::Vector3f`, also used for `OctreePosition` (`p[0]`, `p[1]`,
`p[2]`). -/
structure Vector3f where
  x : Flt
  y : Flt
  z : Flt
  deriving DecidableEq

/-- A position of the octree, three floats. -/
abbrev OctreePosition := Vector3f

namespace Vector3f

/-- The zero vector, `Eigen::Vector3f::Zero()`. -/
def zero : Vector3f := ⟨Flt.fin 0, Flt.fin 0, Flt.fin 0⟩

instance : Inhabited Vector3f := ⟨zero⟩

/-- The product `a.dot(b)`. -/
def dot (a b : Vector3f) : Flt :=
  Flt.add (Flt.add (Flt.mul a.x b.x) (Flt.mul a.y b.y)) (Flt.mul a.z b.z)

/-- All three components negated. -/
def neg (a : Vector3f) : Vector3f := ⟨Flt.neg a.x, Flt.neg a.y, Flt.neg a.z⟩

/-- Componentwise difference. -/
def sub (a b : Vector3f) : Vector3f :=
  ⟨Flt.sub a.x b.x, Flt.sub a.y b.y, Flt.sub a.z b.z⟩

/-- Componentwise sum. -/
def add (a b : Vector3f) : Vector3f :=
  ⟨Flt.add a.x b.x, Flt.add a.y b.y, Flt.add a.z b.z⟩

/-- A vector times a scalar. -/
def scale (a : Vector3f) (s : Flt) : Vector3f :=
  ⟨Flt.mul a.x s, Flt.mul a.y s, Flt.mul a.z s⟩

end Vector3f

/-! ## `orientateNormal` -/

/-- The reference point a probe of `orientateNormal` uses at loop index
`index` (lines 87 to 99). -/
def farPoint (index : Nat) : Vector3f :=
  { x := if index % 2 = 0 then Flt.fin 1000 else Flt.fin 0
    y := if (index / 2) % 2 = 0 then Flt.fin 1000 else Flt.fin 0
    z := if index % 4 = 0 then Flt.fin 1000 else Flt.fin 0 }

/-- The `while` loop of `orientateNormal` (lines 85 to 102), from the loop
index and the current `dotProduct`; it returns the final `dotProduct`.  The first argument bounds the number of iterations: the guard
`index < 7` allows at most `7 - index` of them. -/
def orientateLoop (normal : Vector3f) : Nat → Nat → Flt → Flt
  | 0, _, dotProduct => dotProduct
  | fuel + 1, index, dotProduct =>
    if Flt.lt (Flt.abs dotProduct) (Flt.fin (1 / 10)) && decide (index < 7) then
      orientateLoop normal fuel (index + 1) (normal.dot (farPoint index))
    else dotProduct

/-- The function `sure::orientateNormal(normal, point)`: the normal it leaves in
`normal`. -/
def orientateNormal (normal point : Vector3f) : Vector3f :=
  let dotProduct := orientateLoop normal 7 0 (normal.dot point)
  if Flt.lt dotProduct (Flt.fin 0) then normal.neg else normal

/-- An `Eigen::Matrix3f`, entry `mij` in row `i` and column `j`. -/
structure Matrix3f where
  m00 : Flt
  m01 : Flt
  m02 : Flt
  m10 : Flt
  m11 : Flt
  m12 : Flt
  m20 : Flt
  m21 : Flt
  m22 : Flt
  deriving DecidableEq

namespace Matrix3f

/-- The zero matrix, `Eigen::Matrix3f::Zero()`. -/
def zero : Matrix3f :=
  ⟨Flt.fin 0, Flt.fin 0, Flt.fin 0, Flt.fin 0, Flt.fin 0, Flt.fin 0, Flt.fin 0, Flt.fin 0,
    Flt.fin 0⟩

instance : Inhabited Matrix3f := ⟨zero⟩

/-- The outer product `a * b.transpose()`. -/
def outer (a b : Vector3f) : Matrix3f :=
  ⟨Flt.mul a.x b.x, Flt.mul a.x b.y, Flt.mul a.x b.z,
   Flt.mul a.y b.x, Flt.mul a.y b.y, Flt.mul a.y b.z,
   Flt.mul a.z b.x, Flt.mul a.z b.y, Flt.mul a.z b.z⟩

/-- Every entry combined with the matching entry of another matrix. -/
def zipWith (f : Flt → Flt → Flt) (a b : Matrix3f) : Matrix3f :=
  ⟨f a.m00 b.m00, f a.m01 b.m01, f a.m02 b.m02,
   f a.m10 b.m10, f a.m11 b.m11, f a.m12 b.m12,
   f a.m20 b.m20, f a.m21 b.m21, f a.m22 b.m22⟩

/-- A function applied to every entry. -/
def map (f : Flt → Flt) (a : Matrix3f) : Matrix3f :=
  ⟨f a.m00, f a.m01, f a.m02, f a.m10, f a.m11, f a.m12, f a.m20, f a.m21, f a.m22⟩

/-- Entrywise sum. -/
def add (a b : Matrix3f) : Matrix3f := zipWith Flt.add a b

/-- Entrywise difference. -/
def sub (a b : Matrix3f) : Matrix3f := zipWith Flt.sub a b

/-- A matrix times a scalar. -/
def scale (a : Matrix3f) (s : Flt) : Matrix3f := map (fun e => Flt.mul e s) a

/-- A scalar times a matrix. -/
def smul (s : Flt) (a : Matrix3f) : Matrix3f := map (fun e => Flt.mul s e) a

/-- A matrix divided by a scalar. -/
def divScalar (a : Matrix3f) (s : Flt) : Matrix3f := map (fun e => Flt.div e s) a

/-- The list of the nine entries, row by row. -/
def entries (a : Matrix3f) : List Flt :=
  [a.m00, a.m01, a.m02, a.m10, a.m11, a.m12, a.m20, a.m21, a.m22]

end Matrix3f

/-! ## Data model -/

/-- The enumeration `sure::OctreeValue::NodeStatus`, the state of a node in the
search for maxima. -/
inductive NodeStatus where
  | MAXIMUM_NOT_CALCULATED
  | MAXIMUM_NOT_POSSIBLE
  | MAXIMUM_POSSIBLE
  | MAXIMUM_FOUND
  | ARTIFICIAL
  | BACKGROUND
  deriving DecidableEq

/-- The state of a node's normal (`statusOfNormal`). -/
inductive NormalStatus where
  | NORMAL_NOT_CALCULATED
  | NORMAL_STABLE
  | NORMAL_UNSTABLE
  deriving DecidableEq

/-- The record `sure::OctreeValue`, the statistics of a cell.  `H` is the type
of a `sure::NormalHistogram`; the two histogram pointers are `none` when null
and hold the histogram they own otherwise. -/
structure OctreeValue (H : Type) where
  summedPos : Vector3f
  summedSquares : Matrix3f
  numberOfPoints : Nat
  statusOfMaximum : NodeStatus
  statusOfNormal : NormalStatus
  normal : Vector3f
  entropy : Flt
  cornerness3D : Flt
  normalHistogram : Option H
  entropyHistogram : Option H
  pointCloudIndex : Int
  colorR : Flt
  colorG : Flt
  colorB : Flt

/-- The record `sure::OctreeNode`, as far as the estimator reads it. -/
structure OctreeNode (H : Type) where
  value : OctreeValue H
  closestPosition : OctreePosition
  minPosition : OctreePosition
  maxPosition : OctreePosition
  numPoints : Nat
  depth : Nat

/-- The heap of octree nodes: what each `OctreeNode*` points to. -/
abbrev Heap (H : Type) := Nat → OctreeNode H

/-- The entropy measures, `sure::Configuration::EntropyMode`. -/
inductive EntropyMode where
  | NORMALS
  | CROSSPRODUCTS_ALL_NORMALS_WITH_MAIN_NORMAL
  | CROSSPRODUCTS_ALL_NORMALS_PAIRWISE
  deriving DecidableEq

/-- The record `sure::Configuration`, as far as the estimator reads it. -/
structure Configuration where
  samplingLevel : Nat
  normalSamplingLevel : Nat
  normalScale : Flt
  normalScaleRadius : Flt
  histogramRadius : Flt
  histogramSize : Flt
  samplingRate : Flt
  minimumEntropy : Flt
  minimumCornerness3D : Flt
  featureInfluenceRadius : Flt
  entropyMode : EntropyMode
  histogramWeightMethod : Nat
  improvedLocalization : Bool
  limitOctreeResolution : Bool
  minimumOctreeVolumeSize : Flt
  ignoreBackgroundDetections : Bool
  additionalPointsOnDepthBorders : Bool

/-- The record `sure::Feature`, a keypoint.  `D` is the type of its descriptor
payload. -/
structure Feature (D : Type) where
  point : Vector3f
  normal : Vector3f
  entropy : Flt
  cornerness3D : Flt
  colorR : Flt
  colorG : Flt
  colorB : Flt
  radius : Flt
  pointCloudIndex : Int
  descriptor : D

/-- What the estimator calls and `sure_estimator.hpp` does not define: the
octree queries, the histogram class, the eigen solver of PCL, the library
functions on finite values and the constants.  The octree queries depend on the
cell geometry only, which no pass of the estimator changes; the aggregate query
may read the heap. -/
structure Externals (H D : Type) where
  /-- The constant `sure::MINIMUM_POINTS_FOR_NORMAL`. -/
  MINIMUM_POINTS_FOR_NORMAL : Nat
  /-- The constant `sure::OCTREE_MINIMUM_VOLUME_SIZE`. -/
  OCTREE_MINIMUM_VOLUME_SIZE : Flt
  /-- The query `octree->root->getAllNodesInVolumeOnSamplingDepth(list, min, max, level, false)`:
  the list it fills. -/
  getAllNodesInVolumeOnSamplingDepth : OctreePosition → OctreePosition → Nat → List Nat
  /-- The query `octree->getValueAndCountInVolume(value, count, min, max, minResolution)`, from
  the value passed in: the value and the count it leaves. -/
  getValueAndCountInVolume :
    Heap H → OctreeValue H → OctreePosition → OctreePosition → Flt → OctreeValue H × Nat
  /-- The query `octree->getValueInVolume(min, max)`. -/
  getValueInVolume : Heap H → OctreePosition → OctreePosition → OctreeValue H
  /-- The method `OctreeNode::inRegion(pos)`. -/
  inRegion : OctreeNode H → OctreePosition → Bool
  /-- The solver `pcl::eigen33(mat, eigenValue, eigenVector)`: smallest eigenvalue and its
  eigenvector. -/
  eigen33 : Matrix3f → Flt × Vector3f
  /-- The solver `pcl::eigen33(mat, eigenVectors, eigenValues)`: the eigenvalues, indices 0 to
  2. -/
  eigen33Values : Matrix3f → Vector3f
  /-- The method `Eigen::Vector3f::normalize`. -/
  normalize : Vector3f → Vector3f
  /-- The function `sqrt` on a finite value that is not negative. -/
  sqrtQ : ℚ → ℚ
  /-- The function `exp` on a finite value. -/
  expQ : ℚ → ℚ
  /-- What `histogramAllocator.allocate()` returns. -/
  allocate : H
  /-- The method `NormalHistogram::clear`. -/
  clear : H → H
  /-- The operator `+=` of `NormalHistogram`. -/
  merge : H → H → H
  /-- The method `NormalHistogram::insertCrossProduct(ref, sec, weightMethod)`. -/
  insertCrossProduct : H → Vector3f → Vector3f → Nat → H
  /-- The method `NormalHistogram::calculateHistogram(normal, count)`. -/
  calculateHistogram : H → Vector3f → Nat → H
  /-- The method `NormalHistogram::calculateEntropy`. -/
  calculateEntropy : H → H
  /-- The member `NormalHistogram::entropy`. -/
  entropy : H → Flt
  /-- The method `Feature::calculateDescriptor(nodes)`: the payload it leaves. -/
  calculateDescriptor : Feature D → List (OctreeNode H) → D
  /-- A default-constructed `sure::OctreeValue`. -/
  defaultValue : OctreeValue H
  /-- A default-constructed `sure::Feature`. -/
  defaultFeature : Feature D
  /-- The default of the parameter `minResolution` of `calculateNormal`. -/
  defaultMinResolution : Flt
  /-- The accessors `r()`, `g()`, `b()` of `sure::OctreeValue`. -/
  rgb : OctreeValue H → Vector3f

/-- The state of a `sure::SURE_Estimator` that the functions below read and
write. -/
structure SURE_Estimator (H D : Type) where
  heap : Heap H
  octreeMap : List (List Nat)
  features : List (Feature D)
  config : Configuration
  sensor_origin : Vector3f

/-- The function `sqrt`: exact on the special values, `sqrtQ` on finite values
that are not negative. -/
def Flt.sqrt (sqrtQ : ℚ → ℚ) : Flt → Flt
  | Flt.nan => Flt.nan
  | Flt.ninf => Flt.nan
  | Flt.pinf => Flt.pinf
  | Flt.fin q => if q < 0 then Flt.nan else Flt.fin (sqrtQ q)

/-- The function `exp`: exact on the special values, `expQ` on finite values. -/
def Flt.exp (expQ : ℚ → ℚ) : Flt → Flt
  | Flt.nan => Flt.nan
  | Flt.ninf => Flt.fin 0
  | Flt.pinf => Flt.pinf
  | Flt.fin q => Flt.fin (expQ q)

/-- The conversion `(float) count`. -/
def Flt.ofNat (n : Nat) : Flt := Flt.fin (n : ℚ)

/-- The node a pointer points to, with a new maximum status. -/
def OctreeNode.setStatusOfMaximum {H : Type} (n : OctreeNode H) (s : NodeStatus) :
    OctreeNode H :=
  { n with value := { n.value with statusOfMaximum := s } }

/-- The box corner `position - radius`, coordinate by coordinate. -/
def boxMin (position : OctreePosition) (radius : Flt) : OctreePosition :=
  ⟨Flt.sub position.x radius, Flt.sub position.y radius, Flt.sub position.z radius⟩

/-- The box corner `position + radius`, coordinate by coordinate. -/
def boxMax (position : OctreePosition) (radius : Flt) : OctreePosition :=
  ⟨Flt.add position.x radius, Flt.add position.y radius, Flt.add position.z radius⟩

/-! ## `calculateCornerness` -/

section
variable {H D : Type}

/-- The first loop of `calculateCornerness` (lines 41 to 52): the
entropy-weighted sum of the positions and the sum of the weights, over the nodes
whose entropy is not zero. -/
def cornernessSums : List (OctreeNode H) → Vector3f × Flt → Vector3f × Flt
  | [], acc => acc
  | n :: rest, (mean, sumWeight) =>
    if Flt.fne n.value.entropy (Flt.fin 0) then
      cornernessSums rest
        (⟨Flt.add mean.x (Flt.mul n.value.entropy n.closestPosition.x),
          Flt.add mean.y (Flt.mul n.value.entropy n.closestPosition.y),
          Flt.add mean.z (Flt.mul n.value.entropy n.closestPosition.z)⟩,
         Flt.add sumWeight n.value.entropy)
    else cornernessSums rest (mean, sumWeight)

/-- The second loop of `calculateCornerness` (lines 61 to 71): the weighted sum
of the outer products of the offsets from the mean. -/
def cornernessCov (mean : Vector3f) : List (OctreeNode H) → Matrix3f → Matrix3f
  | [], covMatrix => covMatrix
  | n :: rest, covMatrix =>
    if Flt.fne n.value.entropy (Flt.fin 0) then
      let direction : Vector3f :=
        ⟨Flt.sub mean.x n.closestPosition.x, Flt.sub mean.y n.closestPosition.y,
          Flt.sub mean.z n.closestPosition.z⟩
      cornernessCov mean rest
        (covMatrix.add (Matrix3f.smul n.value.entropy (Matrix3f.outer direction direction)))
    else cornernessCov mean rest covMatrix

/-- The function `sure::calculateCornerness(nodes)`. -/
def calculateCornerness (ext : Externals H D) (nodes : List (OctreeNode H)) : Flt :=
  let sums := cornernessSums nodes (Vector3f.zero, Flt.fin 0)
  let sumWeight := sums.2
  if Flt.gt sumWeight (Flt.fin 0) then
    let mean : Vector3f :=
      ⟨Flt.div sums.1.x sumWeight, Flt.div sums.1.y sumWeight, Flt.div sums.1.z sumWeight⟩
    let covMatrix := (cornernessCov mean nodes Matrix3f.zero).divScalar sumWeight
    let eigenValues := ext.eigen33Values covMatrix
    Flt.div eigenValues.x eigenValues.z
  else Flt.pinf

/-! ## Normals -/

/-- Modelled from the spec: the helper `sure::is_finite` on a matrix is not
part of the source file; the covariance is rejected "if any entry is
non-finite". -/
def is_finite (m : Matrix3f) : Bool := m.entries.all Flt.isFinite

/-- What the core `calculateNormal` leaves: its return value, the value record,
the array `normal` and the histogram it was passed. -/
structure NormalOutcome (H : Type) where
  success : Bool
  value : OctreeValue H
  normal : Vector3f
  histogram : Option H

/-- The matrix the core `calculateNormal` hands to the eigen solver (lines 421
to 439). -/
def normalMatrix (value : OctreeValue H) (count : Nat) : Matrix3f :=
  let inv := Flt.div (Flt.fin 1) (Flt.ofNat count)
  let summedSquares := value.summedSquares.scale inv
  let summedPosition := value.summedPos.scale inv
  let summedSquares := summedSquares.sub (Matrix3f.outer summedPosition summedPosition)
  summedSquares.scale inv

/-- The core `calculateNormal(value, count, normal, pos, histogram)` (lines 415
to 472). -/
def calculateNormalCore (ext : Externals H D) (sensor_origin : Vector3f)
    (value : OctreeValue H) (count : Nat) (normal : Vector3f) (pos : Vector3f)
    (histogram : Option H) : NormalOutcome H :=
  if ext.MINIMUM_POINTS_FOR_NORMAL ≤ count then
    let summedSquares := normalMatrix value count
    if !(is_finite summedSquares) then ⟨false, value, normal, histogram⟩
    else
      let eigenVector := (ext.eigen33 summedSquares).2
      if Flt.isFinite eigenVector.x && Flt.isFinite eigenVector.y
          && Flt.isFinite eigenVector.z then
        let eigenVector := ext.normalize eigenVector
        let orientationVec := sensor_origin.sub pos
        let eigenVector := orientateNormal eigenVector orientationVec
        let histogram := histogram.map (fun h => ext.calculateHistogram h eigenVector count)
        ⟨true, { value with statusOfNormal := NormalStatus.NORMAL_STABLE }, eigenVector,
          histogram⟩
      else ⟨false, value, Vector3f.zero, histogram⟩
  else ⟨false, value, normal, histogram⟩

/-- The variant `calculateNormal(OctreeNode* node)` (lines 478 to 482): the
value, the normal and the histogram passed on all live in the node. -/
def calculateNormalInNode (ext : Externals H D) (sensor_origin : Vector3f)
    (node : OctreeNode H) : Bool × OctreeNode H :=
  let r := calculateNormalCore ext sensor_origin node.value node.numPoints node.value.normal
    node.closestPosition node.value.normalHistogram
  (r.success,
    { node with value := { r.value with normal := r.normal, normalHistogram := r.histogram } })

/-- The variant `calculateNormal(OctreeNode* node, float radius, float
minResolution)` (lines 490 to 514), on the node a pointer points to. -/
def calculateNormalRadius (ext : Externals H D) (sensor_origin : Vector3f) (heap : Heap H)
    (node : Nat) (radius minResolution : Flt) : Bool × Heap H :=
  let n := heap node
  let minPosition := boxMin n.closestPosition radius
  let maxPosition := boxMax n.closestPosition radius
  let vc := ext.getValueAndCountInVolume heap ext.defaultValue minPosition maxPosition
    minResolution
  let r := calculateNormalCore ext sensor_origin vc.1 vc.2 n.value.normal n.closestPosition
    n.value.normalHistogram
  if r.success then
    (true, Function.update heap node
      { n with value := { n.value with normal := r.normal, normalHistogram := r.histogram,
                                       statusOfNormal := r.value.statusOfNormal } })
  else
    (false, Function.update heap node
      { n with value := { n.value with normal := r.normal, normalHistogram := r.histogram,
                                       statusOfNormal := NormalStatus.NORMAL_UNSTABLE } })

/-- The variant `calculateNormal(const Eigen::Vector3f& position, float radius,
Eigen::Vector3f& normal, float minResolution)` (lines 546 to 574): the return
value and the normal it leaves. -/
def calculateNormalAt (ext : Externals H D) (sensor_origin : Vector3f) (heap : Heap H)
    (position : Vector3f) (radius minResolution : Flt) : Bool × Vector3f :=
  let minPosition := boxMin position radius
  let maxPosition := boxMax position radius
  let value := { ext.defaultValue with statusOfMaximum := NodeStatus.ARTIFICIAL }
  let vc := ext.getValueAndCountInVolume heap value minPosition maxPosition minResolution
  let r := calculateNormalCore ext sensor_origin vc.1 vc.2 vc.1.normal position none
  if r.success then (true, r.normal) else (false, Vector3f.zero)

/-! ## Features -/

/-- The method `createDescriptor(feature)` (lines 1024 to 1045). -/
def createDescriptor (ext : Externals H D) (est : SURE_Estimator H D) (feature : Feature D) :
    Feature D :=
  let normal := (calculateNormalAt ext est.sensor_origin est.heap feature.point
    est.config.histogramRadius ext.defaultMinResolution).2
  let feature := { feature with normal := normal }
  let minPosition := boxMin feature.point est.config.histogramRadius
  let maxPosition := boxMax feature.point est.config.histogramRadius
  let value := ext.getValueInVolume est.heap minPosition maxPosition
  let color := ext.rgb value
  let feature := { feature with colorR := color.x, colorG := color.y, colorB := color.z }
  let nodes := (ext.getAllNodesInVolumeOnSamplingDepth minPosition maxPosition
    est.config.normalSamplingLevel).map est.heap
  let feature := { feature with descriptor := ext.calculateDescriptor feature nodes }
  { feature with cornerness3D := calculateCornerness ext nodes }

/-- The method `createFeature(OctreeNode* node)` (lines 959 to 973). -/
def createFeature (ext : Externals H D) (est : SURE_Estimator H D) (node : Nat) : Feature D :=
  let n := est.heap node
  let newFeature : Feature D :=
    { ext.defaultFeature with
      pointCloudIndex := n.value.pointCloudIndex
      entropy := n.value.entropy
      point := n.closestPosition
      radius := est.config.histogramRadius }
  createDescriptor ext est newFeature

end

/-! ## `getNodeFromPosition` -/

section
variable {H D : Type}

/-- The nodes of one level of the sampling map, `octreeMap[level]`. -/
def SURE_Estimator.levelNodes (est : SURE_Estimator H D) (level : Nat) : List Nat :=
  est.octreeMap.getD level []

/-- The first loop of `getNodeFromPosition` (lines 193 to 199): the first node
of the level that contains the position. -/
def firstInRegion (ext : Externals H D) (heap : Heap H) (pos : OctreePosition) :
    List Nat → Option Nat
  | [] => none
  | i :: rest => if ext.inRegion (heap i) pos then some i else firstInRegion ext heap pos rest

/-- The squared distance of line 202, exact on finite values;
`binary32.squaredDistance` is the same expression with every operation rounded. -/
def squaredDistance (pos c : OctreePosition) : Flt :=
  Flt.add
    (Flt.add (Flt.mul (Flt.sub pos.x c.x) (Flt.sub pos.x c.x))
      (Flt.mul (Flt.sub pos.y c.y) (Flt.sub pos.y c.y)))
    (Flt.mul (Flt.sub pos.z c.z) (Flt.sub pos.z c.z))

/-- The second loop of `getNodeFromPosition` (lines 200 to 208), from the
current `closest` and `bestDistance`. -/
def closestLoop (heap : Heap H) (pos : OctreePosition) :
    List Nat → Option Nat × Flt → Option Nat × Flt
  | [], acc => acc
  | i :: rest, (closest, bestDistance) =>
    let distance := squaredDistance pos (heap i).closestPosition
    if Flt.lt distance bestDistance then closestLoop heap pos rest (some i, distance)
    else closestLoop heap pos rest (closest, bestDistance)

/-- The method `getNodeFromPosition(pos, level)` (lines 184 to 210); `none` is
the null pointer. -/
def getNodeFromPosition (ext : Externals H D) (est : SURE_Estimator H D) (pos : OctreePosition)
    (level : Nat) : Option Nat :=
  let level := if level = 0 then est.config.samplingLevel else level
  match firstInRegion ext est.heap pos (est.levelNodes level) with
  | some i => some i
  | none => (closestLoop est.heap pos (est.levelNodes level) (none, Flt.pinf)).1

/-! ## `extractFeature` -/

/-- The cornerness that the first loop of `extractFeature` computes for the node
`i` (lines 795 to 806), from its neighbours within `histogramRadius`. -/
def cornernessAt (ext : Externals H D) (config : Configuration) (heap : Heap H) (i : Nat) :
    Flt :=
  let minPosition := boxMin (heap i).closestPosition config.histogramRadius
  let maxPosition := boxMax (heap i).closestPosition config.histogramRadius
  let neighbours :=
    ext.getAllNodesInVolumeOnSamplingDepth minPosition maxPosition config.samplingLevel
  calculateCornerness ext (neighbours.map heap)

/-- The node with `value.cornerness3D` overwritten. -/
def OctreeNode.setCornerness3D (n : OctreeNode H) (c : Flt) : OctreeNode H :=
  { n with value := { n.value with cornerness3D := c } }

/-- One iteration of the first loop of `extractFeature` (lines 780 to 815), on
the node `i` of the sampling map. -/
def extractThresholdStep (ext : Externals H D) (config : Configuration) (heap : Heap H)
    (i : Nat) : Heap H :=
  let currentNode := heap i
  if currentNode.value.statusOfMaximum = NodeStatus.ARTIFICIAL
      ∨ currentNode.value.statusOfMaximum = NodeStatus.BACKGROUND then heap
  else if Flt.lt currentNode.value.entropy config.minimumEntropy then
    Function.update heap i (currentNode.setStatusOfMaximum NodeStatus.MAXIMUM_NOT_POSSIBLE)
  else if currentNode.value.statusOfMaximum = NodeStatus.MAXIMUM_NOT_CALCULATED
      ∧ Flt.gt config.minimumCornerness3D (Flt.fin 0) = true then
    let cornerness3D := cornernessAt ext config heap i
    let currentNode := currentNode.setCornerness3D cornerness3D
    if Flt.lt cornerness3D config.minimumCornerness3D then
      Function.update heap i (currentNode.setStatusOfMaximum NodeStatus.MAXIMUM_NOT_POSSIBLE)
    else
      Function.update heap i (currentNode.setStatusOfMaximum NodeStatus.MAXIMUM_POSSIBLE)
  else heap

/-- The first loop of `extractFeature` (lines 778 to 816) over the nodes of the
sampling level. -/
def extractThreshold (ext : Externals H D) (config : Configuration) (heap : Heap H)
    (nodes : List Nat) : Heap H :=
  nodes.foldl (extractThresholdStep ext config) heap

/-- The inner loop of the second stage (lines 839 to 856), over the neighbours
of the node `current`: it demotes `current` at the first neighbour other than
itself that is already a maximum, or that is a possible maximum of strictly
greater entropy, and stops there. -/
def suppressLoop (heap : Heap H) (current : Nat) (referenceEntropy : Flt) :
    List Nat → Heap H
  | [] => heap
  | nb :: rest =>
    if nb = current then suppressLoop heap current referenceEntropy rest
    else if (heap nb).value.statusOfMaximum = NodeStatus.MAXIMUM_FOUND then
      Function.update heap current
        ((heap current).setStatusOfMaximum NodeStatus.MAXIMUM_NOT_POSSIBLE)
    else if (heap nb).value.statusOfMaximum = NodeStatus.MAXIMUM_POSSIBLE
        ∧ Flt.gt (heap nb).value.entropy referenceEntropy = true then
      Function.update heap current
        ((heap current).setStatusOfMaximum NodeStatus.MAXIMUM_NOT_POSSIBLE)
    else suppressLoop heap current referenceEntropy rest

/-- The neighbours the second stage gathers around a node (lines 828 to 835). -/
def influenceNeighbours (ext : Externals H D) (est : SURE_Estimator H D) (i : Nat) : List Nat :=
  ext.getAllNodesInVolumeOnSamplingDepth
    (boxMin (est.heap i).closestPosition est.config.featureInfluenceRadius)
    (boxMax (est.heap i).closestPosition est.config.featureInfluenceRadius)
    est.config.samplingLevel

/-- One iteration of the second loop of `extractFeature` (lines 820 to 863), on
the node `i` of the sampling map. -/
def extractSuppressStep (ext : Externals H D) (est : SURE_Estimator H D) (i : Nat) :
    SURE_Estimator H D :=
  let currentNode := est.heap i
  if currentNode.value.statusOfMaximum ≠ NodeStatus.MAXIMUM_POSSIBLE then est
  else
    let neighbours := influenceNeighbours ext est i
    let heap := suppressLoop est.heap i currentNode.value.entropy neighbours
    if (heap i).value.statusOfMaximum = NodeStatus.MAXIMUM_POSSIBLE then
      let est : SURE_Estimator H D :=
        { est with
          heap := Function.update heap i ((heap i).setStatusOfMaximum NodeStatus.MAXIMUM_FOUND) }
      { est with features := est.features ++ [createFeature ext est i] }
    else { est with heap := heap }

/-- The estimator after the first loop of `extractFeature`. -/
def SURE_Estimator.thresholded (est : SURE_Estimator H D) (ext : Externals H D) :
    SURE_Estimator H D :=
  { est with
    heap := extractThreshold ext est.config est.heap (est.levelNodes est.config.samplingLevel) }

/-- The method `extractFeature()` (lines 768 to 865). -/
def extractFeature (ext : Externals H D) (est : SURE_Estimator H D) : SURE_Estimator H D :=
  let nodes := est.levelNodes est.config.samplingLevel
  nodes.foldl (extractSuppressStep ext) (est.thresholded ext)

/-! ## `localizeFeatureWithMeanShift` -/

/-- The first inner loop of an iteration (lines 912 to 926): sum of the
entropies, sum of their squares and number of the nodes that are not
artificial. -/
def meanShiftSums (heap : Heap H) : List Nat → Flt × Flt × Nat → Flt × Flt × Nat
  | [], acc => acc
  | i :: rest, (summedMean, summedSquares, count) =>
    if (heap i).value.statusOfMaximum = NodeStatus.ARTIFICIAL then
      meanShiftSums heap rest (summedMean, summedSquares, count)
    else
      meanShiftSums heap rest
        (Flt.add summedMean (heap i).value.entropy,
         Flt.add summedSquares (Flt.mul (heap i).value.entropy (heap i).value.entropy),
         count + 1)

/-- The kernel weight of lines 936 and 937,
`exp(-0.5f*(entropyDifference*entropyDifference) / (standardDeviation*standardDeviation))`. -/
def kernelWeight (ext : Externals H D) (mean standardDeviation entropy : Flt) : Flt :=
  let entropyDifference := Flt.sub mean entropy
  Flt.exp ext.expQ
    (Flt.div (Flt.mul (Flt.fin (-1 / 2)) (Flt.mul entropyDifference entropyDifference))
      (Flt.mul standardDeviation standardDeviation))

/-- The second inner loop of an iteration (lines 933 to 938): the weighted sum
of the positions and the sum of the weights, over all nodes of the list. -/
def meanShiftShift (ext : Externals H D) (heap : Heap H) (mean standardDeviation : Flt) :
    List Nat → OctreePosition × Flt → OctreePosition × Flt
  | [], acc => acc
  | i :: rest, (shiftedPosition, summedShift) =>
    let w := kernelWeight ext mean standardDeviation (heap i).value.entropy
    meanShiftShift ext heap mean standardDeviation rest
      (shiftedPosition.add ((heap i).closestPosition.scale w), Flt.add summedShift w)

/-- The `standardDeviation` of an iteration (lines 931 and 932), from the sums of
the first loop: `sqrt(fabs(summedSquares - (1.f/float(count)) * summedMean^2))`,
exact on finite values; `binary32.meanShiftDeviation` is the same expression with
every operation rounded. -/
def meanShiftDeviation (ext : Externals H D) (sums : Flt × Flt × Nat) : Flt :=
  let summedMean := Flt.mul sums.1 sums.1
  Flt.sqrt ext.sqrtQ
    (Flt.abs (Flt.sub sums.2.1 (Flt.mul (Flt.div (Flt.fin 1) (Flt.ofNat sums.2.2)) summedMean)))

/-- The update of one iteration from the list of nodes the query returned (lines
910 to 951): the position of the feature after it.  The operators `*` and `+=`
of `OctreePosition` act coordinate by coordinate. -/
def meanShiftUpdate (ext : Externals H D) (heap : Heap H) (listOfNodes : List Nat)
    (point : Vector3f) : Vector3f :=
  let sums := meanShiftSums heap listOfNodes (Flt.fin 0, Flt.fin 0, 0)
  let count := sums.2.2
  if 0 < count then
    let mean := Flt.div sums.1 (Flt.ofNat count)
    let standardDeviation := meanShiftDeviation ext sums
    let acc := meanShiftShift ext heap mean standardDeviation listOfNodes
      (Vector3f.zero, Flt.fin 0)
    let summedShift := acc.2
    let shiftedPosition :=
      if Flt.fne summedShift (Flt.fin 0) then acc.1.scale (Flt.div (Flt.fin 1) summedShift)
      else acc.1
    if !(Flt.isNaN shiftedPosition.x) && !(Flt.isNaN shiftedPosition.y)
        && !(Flt.isNaN shiftedPosition.z) then shiftedPosition
    else point
  else point

/-- The nodes an iteration gathers around the position of the feature (lines 900
to 908), within `searchRadius = histogramRadius` at the sampling level. -/
def meanShiftNeighbours (ext : Externals H D) (est : SURE_Estimator H D) (point : Vector3f) :
    List Nat :=
  ext.getAllNodesInVolumeOnSamplingDepth (boxMin point est.config.histogramRadius)
    (boxMax point est.config.histogramRadius) est.config.samplingLevel

/-- One iteration of the mean shift (lines 897 to 951) on the position of a
feature. -/
def meanShiftIteration (ext : Externals H D) (est : SURE_Estimator H D) (point : Vector3f) :
    Vector3f :=
  meanShiftUpdate ext est.heap (meanShiftNeighbours ext est point) point

/-- The loop over the iterations (line 895). -/
def meanShiftIterations (ext : Externals H D) (est : SURE_Estimator H D) :
    Nat → Vector3f → Vector3f
  | 0, point => point
  | k + 1, point => meanShiftIterations ext est k (meanShiftIteration ext est point)

/-- The body of the loop over the features (lines 887 to 954). -/
def localizeFeature (ext : Externals H D) (est : SURE_Estimator H D) (iterations : Nat)
    (feature : Feature D) : Feature D :=
  if Flt.fne feature.radius est.config.histogramRadius then feature
  else
    createDescriptor ext est
      { feature with point := meanShiftIterations ext est iterations feature.point }

/-- The method `localizeFeatureWithMeanShift(iterations)` (lines 869 to 957). -/
def localizeFeatureWithMeanShift (ext : Externals H D) (est : SURE_Estimator H D)
    (iterations : Nat) : SURE_Estimator H D :=
  { est with features := est.features.map (localizeFeature ext est iterations) }

end

/-- The estimator after the write `node->value.statusOfMaximum = s` through the
pointer `i`. -/
def SURE_Estimator.withStatus {H D : Type} (est : SURE_Estimator H D) (i : Nat)
    (s : NodeStatus) : SURE_Estimator H D :=
  { est with heap := Function.update est.heap i ((est.heap i).setStatusOfMaximum s) }

/-! ## Entropy -/

section
variable {H D : Type}

/-- The histogram a node's `entropyHistogram` points to after lines 646 to 653:
its own one cleared, or a newly allocated one. -/
def freshEntropyHistogram (ext : Externals H D) (node : OctreeNode H) : H :=
  match node.value.entropyHistogram with
  | some h => ext.clear h
  | none => ext.allocate

/-- The neighbours an entropy measure gathers around a node (lines 655 to 662),
within `histogramRadius` at the normal sampling level. -/
def histogramNeighbours (ext : Externals H D) (config : Configuration) (heap : Heap H)
    (treenode : Nat) : List Nat :=
  ext.getAllNodesInVolumeOnSamplingDepth
    (boxMin (heap treenode).closestPosition config.histogramRadius)
    (boxMax (heap treenode).closestPosition config.histogramRadius)
    config.normalSamplingLevel

/-- The node with its entropy histogram replaced by the given one after
`calculateEntropy()`, and its entropy read from it (lines 672 and 673). -/
def storeEntropy (ext : Externals H D) (heap : Heap H) (treenode : Nat) (histogram : H) :
    Heap H :=
  let h := ext.calculateEntropy histogram
  Function.update heap treenode
    { heap treenode with
      value := { (heap treenode).value with
        entropyHistogram := some h
        entropy := ext.entropy h } }

/-- The loop of `calculateNormalEntropy` (lines 664 to 670): the normal
histograms of the stable neighbours are added to the entropy histogram. -/
def mergeNormalHistograms (ext : Externals H D) (heap : Heap H) : List Nat → H → H
  | [], histogram => histogram
  | n :: rest, histogram =>
    match (heap n).value.normalHistogram with
    | some g =>
      if (heap n).value.statusOfNormal = NormalStatus.NORMAL_STABLE then
        mergeNormalHistograms ext heap rest (ext.merge histogram g)
      else mergeNormalHistograms ext heap rest histogram
    | none => mergeNormalHistograms ext heap rest histogram

/-- The method `calculateNormalEntropy(treenode)` (lines 639 to 674). -/
def calculateNormalEntropy (ext : Externals H D) (config : Configuration) (heap : Heap H)
    (treenode : Nat) : Heap H :=
  let histogram := freshEntropyHistogram ext (heap treenode)
  let listOfNodes := histogramNeighbours ext config heap treenode
  storeEntropy ext heap treenode (mergeNormalHistograms ext heap listOfNodes histogram)

/-- The loop of `calculateCrossProductEntropy` (lines 711 to 718): the cross
product of the reference normal and the normal of every stable neighbour that
has a normal histogram is inserted. -/
def insertReferenceCrossProducts (ext : Externals H D) (config : Configuration) (heap : Heap H)
    (refNormal : Vector3f) : List Nat → H → H
  | [], histogram => histogram
  | n :: rest, histogram =>
    if (heap n).value.statusOfNormal = NormalStatus.NORMAL_STABLE
        ∧ (heap n).value.normalHistogram.isSome = true then
      insertReferenceCrossProducts ext config heap refNormal rest
        (ext.insertCrossProduct histogram refNormal (heap n).value.normal
          config.histogramWeightMethod)
    else insertReferenceCrossProducts ext config heap refNormal rest histogram

/-- The method `calculateCrossProductEntropy(treenode)` (lines 676 to 721): it
returns early, before it touches the entropy histogram, when the normal of the
node cannot be calculated. -/
def calculateCrossProductEntropy (ext : Externals H D) (config : Configuration)
    (sensor_origin : Vector3f) (heap : Heap H) (treenode : Nat) : Heap H :=
  let r := calculateNormalRadius ext sensor_origin heap treenode config.histogramRadius
    ext.defaultMinResolution
  if r.1 then
    let heap := r.2
    let refNormal := (heap treenode).value.normal
    let histogram := freshEntropyHistogram ext (heap treenode)
    let listOfNodes := histogramNeighbours ext config heap treenode
    storeEntropy ext heap treenode
      (insertReferenceCrossProducts ext config heap refNormal listOfNodes histogram)
  else r.2

/-- The inner loop of `calculatePairwiseCrossProductEntropy` (lines 752 to 760)
for one first node. -/
def insertPairsWith (ext : Externals H D) (config : Configuration) (heap : Heap H)
    (first : Nat) : List Nat → H → H
  | [], histogram => histogram
  | n :: rest, histogram =>
    if (heap first).value.statusOfNormal = NormalStatus.NORMAL_STABLE
        ∧ (heap n).value.statusOfNormal = NormalStatus.NORMAL_STABLE then
      insertPairsWith ext config heap first rest
        (ext.insertCrossProduct histogram (heap first).value.normal (heap n).value.normal
          config.histogramWeightMethod)
    else insertPairsWith ext config heap first rest histogram

/-- The outer loop of `calculatePairwiseCrossProductEntropy` (lines 750 to 761):
every node with every later node of the list. -/
def insertPairwiseCrossProducts (ext : Externals H D) (config : Configuration)
    (heap : Heap H) : List Nat → H → H
  | [], histogram => histogram
  | n :: rest, histogram =>
    insertPairwiseCrossProducts ext config heap rest
      (insertPairsWith ext config heap n rest histogram)

/-- The method `calculatePairwiseCrossProductEntropy(treenode)` (lines 724 to
764). -/
def calculatePairwiseCrossProductEntropy (ext : Externals H D) (config : Configuration)
    (heap : Heap H) (treenode : Nat) : Heap H :=
  let histogram := freshEntropyHistogram ext (heap treenode)
  let listOfNodes := histogramNeighbours ext config heap treenode
  storeEntropy ext heap treenode
    (insertPairwiseCrossProducts ext config heap listOfNodes histogram)

/-- The body of the loop of `calculateEntropy` (lines 620 to 635). -/
def calculateEntropyStep (ext : Externals H D) (config : Configuration)
    (sensor_origin : Vector3f) (heap : Heap H) (i : Nat) : Heap H :=
  if 0 < (heap i).numPoints then
    match config.entropyMode with
    | EntropyMode.NORMALS => calculateNormalEntropy ext config heap i
    | EntropyMode.CROSSPRODUCTS_ALL_NORMALS_WITH_MAIN_NORMAL =>
      calculateCrossProductEntropy ext config sensor_origin heap i
    | EntropyMode.CROSSPRODUCTS_ALL_NORMALS_PAIRWISE =>
      calculatePairwiseCrossProductEntropy ext config heap i
  else heap

/-- The method `calculateEntropy()` (lines 612 to 637). -/
def calculateEntropy (ext : Externals H D) (est : SURE_Estimator H D) : SURE_Estimator H D :=
  { est with
    heap := (est.levelNodes est.config.samplingLevel).foldl
      (calculateEntropyStep ext est.config est.sensor_origin) est.heap }

end

/-! ## Notions used in the statements -/

section
variable {H D : Type}

/-- No neighbour other than `current` demotes it: none is a maximum already and
none is a possible maximum of strictly greater entropy. -/
def Unsuppressed (heap : Heap H) (current : Nat) (referenceEntropy : Flt)
    (neighbours : List Nat) : Prop :=
  ∀ nb ∈ neighbours, nb ≠ current →
    (heap nb).value.statusOfMaximum ≠ NodeStatus.MAXIMUM_FOUND ∧
    ¬ ((heap nb).value.statusOfMaximum = NodeStatus.MAXIMUM_POSSIBLE ∧
        Flt.gt (heap nb).value.entropy referenceEntropy = true)

/-- What relates an estimator `est` to the estimator `est0` it was reached from
by steps of stage 2: only statuses and the feature list differ, a status
changes only from Possible to Found or NotPossible, and a node that became Found
has no other neighbour of strictly greater entropy that is Found or Possible. -/
structure SuppressInv (ext : Externals H D) (est0 est : SURE_Estimator H D) : Prop where
  config : est.config = est0.config
  octreeMap : est.octreeMap = est0.octreeMap
  entropy : ∀ n, (est.heap n).value.entropy = (est0.heap n).value.entropy
  closestPosition : ∀ n, (est.heap n).closestPosition = (est0.heap n).closestPosition
  pointCloudIndex :
    ∀ n, (est.heap n).value.pointCloudIndex = (est0.heap n).value.pointCloudIndex
  status : ∀ n,
    (est.heap n).value.statusOfMaximum = (est0.heap n).value.statusOfMaximum ∨
      ((est0.heap n).value.statusOfMaximum = NodeStatus.MAXIMUM_POSSIBLE ∧
        ((est.heap n).value.statusOfMaximum = NodeStatus.MAXIMUM_FOUND ∨
          (est.heap n).value.statusOfMaximum = NodeStatus.MAXIMUM_NOT_POSSIBLE))
  greater : ∀ i, (est0.heap i).value.statusOfMaximum ≠ NodeStatus.MAXIMUM_FOUND →
    (est.heap i).value.statusOfMaximum = NodeStatus.MAXIMUM_FOUND →
    ∀ nb ∈ influenceNeighbours ext est0 i, nb ≠ i →
      Flt.gt (est0.heap nb).value.entropy (est0.heap i).value.entropy = true →
      (est.heap nb).value.statusOfMaximum ≠ NodeStatus.MAXIMUM_FOUND ∧
        (est.heap nb).value.statusOfMaximum ≠ NodeStatus.MAXIMUM_POSSIBLE

/-- The features a run of `extractFeature` appends to the feature list. -/
def appendedFeatures (ext : Externals H D) (est : SURE_Estimator H D) : List (Feature D) :=
  (extractFeature ext est).features.drop est.features.length

end

section
variable {H D : Type}

end

section
variable {H D : Type}

/-- The number of nodes of a list that are not artificial, the `count` of a mean
shift iteration. -/
def contributing (heap : Heap H) : List Nat → Nat
  | [] => 0
  | i :: rest =>
    if (heap i).value.statusOfMaximum = NodeStatus.ARTIFICIAL then contributing heap rest
    else contributing heap rest + 1

end

section
variable {H D : Type}

/-- The second loop of a mean shift iteration as the specification words it:
artificial nodes are left out of the weighted centroid too. -/
def meanShiftShiftNonArtificial (ext : Externals H D) (heap : Heap H)
    (mean standardDeviation : Flt) : List Nat → OctreePosition × Flt → OctreePosition × Flt
  | [], acc => acc
  | i :: rest, (shiftedPosition, summedShift) =>
    if (heap i).value.statusOfMaximum = NodeStatus.ARTIFICIAL then
      meanShiftShiftNonArtificial ext heap mean standardDeviation rest
        (shiftedPosition, summedShift)
    else
      let w := kernelWeight ext mean standardDeviation (heap i).value.entropy
      meanShiftShiftNonArtificial ext heap mean standardDeviation rest
        (shiftedPosition.add ((heap i).closestPosition.scale w), Flt.add summedShift w)

/-- The update of one iteration as the specification words it: the position
moves to the kernel-weighted centroid of the nodes that are not artificial. -/
def meanShiftUpdateNonArtificial (ext : Externals H D) (heap : Heap H)
    (listOfNodes : List Nat) (point : Vector3f) : Vector3f :=
  let sums := meanShiftSums heap listOfNodes (Flt.fin 0, Flt.fin 0, 0)
  let count := sums.2.2
  if 0 < count then
    let mean := Flt.div sums.1 (Flt.ofNat count)
    let standardDeviation := meanShiftDeviation ext sums
    let acc := meanShiftShiftNonArtificial ext heap mean standardDeviation listOfNodes
      (Vector3f.zero, Flt.fin 0)
    let summedShift := acc.2
    let shiftedPosition :=
      if Flt.fne summedShift (Flt.fin 0) then acc.1.scale (Flt.div (Flt.fin 1) summedShift)
      else acc.1
    if !(Flt.isNaN shiftedPosition.x) && !(Flt.isNaN shiftedPosition.y)
        && !(Flt.isNaN shiftedPosition.z) then shiftedPosition
    else point
  else point

end

section
variable {H D : Type}

/-- A histogram that was populated from scratch: it starts as a newly allocated
or a cleared histogram, and only merges and insertions follow. -/
inductive Populated (ext : Externals H D) : H → Prop where
  | allocate : Populated ext ext.allocate
  | clear (h : H) : Populated ext (ext.clear h)
  | merge (h g : H) : Populated ext h → Populated ext (ext.merge h g)
  | insertCrossProduct (h : H) (a b : Vector3f) (w : Nat) :
      Populated ext h → Populated ext (ext.insertCrossProduct h a b w)

/-- The node owns an entropy histogram that was populated from scratch and on
which `calculateEntropy()` was run, and the entropy of the node is the entropy
of that histogram. -/
def EntropyPopulated (ext : Externals H D) (node : OctreeNode H) : Prop :=
  ∃ h, Populated ext h ∧
    node.value.entropyHistogram = some (ext.calculateEntropy h) ∧
    node.value.entropy = ext.entropy (ext.calculateEntropy h)

end

/-! ## Concrete data for the examples -/

/-- A value record for the examples: no points, no histograms. -/
def exampleValue (entropy : Flt) (status : NodeStatus) : OctreeValue Unit :=
  { summedPos := Vector3f.zero
    summedSquares := Matrix3f.zero
    numberOfPoints := 0
    statusOfMaximum := status
    statusOfNormal := NormalStatus.NORMAL_NOT_CALCULATED
    normal := Vector3f.zero
    entropy := entropy
    cornerness3D := Flt.fin 0
    normalHistogram := none
    entropyHistogram := none
    pointCloudIndex := 0
    colorR := Flt.fin 0
    colorG := Flt.fin 0
    colorB := Flt.fin 0 }

/-- A node for the examples, at `(x, 0, 0)` with the given entropy and status. -/
def exampleNode (x : ℚ) (entropy : Flt) (status : NodeStatus) : OctreeNode Unit :=
  { value := exampleValue entropy status
    closestPosition := ⟨Flt.fin x, Flt.fin 0, Flt.fin 0⟩
    minPosition := ⟨Flt.fin x, Flt.fin 0, Flt.fin 0⟩
    maxPosition := ⟨Flt.fin x, Flt.fin 0, Flt.fin 0⟩
    numPoints := 1
    depth := 0 }

/-- A feature for the examples. -/
def exampleFeature : Feature Unit :=
  { point := Vector3f.zero
    normal := Vector3f.zero
    entropy := Flt.fin 0
    cornerness3D := Flt.fin 0
    colorR := Flt.fin 0
    colorG := Flt.fin 0
    colorB := Flt.fin 0
    radius := Flt.fin 0
    pointCloudIndex := 0
    descriptor := () }

/-- The collaborators for the examples, around a given region query: an
aggregate query that finds no point, a solver that answers with the `z` axis,
unit histograms. -/
def exampleExternals (query : OctreePosition → OctreePosition → Nat → List Nat) :
    Externals Unit Unit :=
  { MINIMUM_POINTS_FOR_NORMAL := 3
    OCTREE_MINIMUM_VOLUME_SIZE := Flt.fin 1
    getAllNodesInVolumeOnSamplingDepth := query
    getValueAndCountInVolume := fun _ value _ _ _ => (value, 0)
    getValueInVolume := fun _ _ _ => exampleValue (Flt.fin 0) NodeStatus.ARTIFICIAL
    inRegion := fun _ _ => false
    eigen33 := fun _ => (Flt.fin 0, ⟨Flt.fin 0, Flt.fin 0, Flt.fin 1⟩)
    eigen33Values := fun _ => ⟨Flt.fin 1, Flt.fin 1, Flt.fin 1⟩
    normalize := fun v => v
    sqrtQ := fun q => q
    expQ := fun _ => 1
    allocate := ()
    clear := fun _ => ()
    merge := fun _ _ => ()
    insertCrossProduct := fun _ _ _ _ => ()
    calculateHistogram := fun _ _ _ => ()
    calculateEntropy := fun _ => ()
    entropy := fun _ => Flt.fin 0
    calculateDescriptor := fun _ _ => ()
    defaultValue := exampleValue (Flt.fin 0) NodeStatus.MAXIMUM_NOT_CALCULATED
    defaultFeature := exampleFeature
    defaultMinResolution := Flt.fin 1
    rgb := fun _ => Vector3f.zero }

/-- A configuration for the examples: sampling level 1, all radii 1, the two
thresholds as given. -/
def exampleConfiguration (minimumEntropy minimumCornerness3D : Flt) : Configuration :=
  { samplingLevel := 1
    normalSamplingLevel := 1
    normalScale := Flt.fin 1
    normalScaleRadius := Flt.fin 1
    histogramRadius := Flt.fin 1
    histogramSize := Flt.fin 1
    samplingRate := Flt.fin 1
    minimumEntropy := minimumEntropy
    minimumCornerness3D := minimumCornerness3D
    featureInfluenceRadius := Flt.fin 1
    entropyMode := EntropyMode.NORMALS
    histogramWeightMethod := 0
    improvedLocalization := false
    limitOctreeResolution := false
    minimumOctreeVolumeSize := Flt.fin 1
    ignoreBackgroundDetections := false
    additionalPointsOnDepthBorders := false }

/-- An estimator for the examples: the nodes of the list sit on the heap at
their list index and form level 1 of the sampling map in the given order. -/
def exampleEstimator (nodes : List (OctreeNode Unit)) (order : List Nat)
    (minimumEntropy minimumCornerness3D : Flt) : SURE_Estimator Unit Unit :=
  { heap := fun i => nodes.getD i (exampleNode 0 (Flt.fin 0) NodeStatus.ARTIFICIAL)
    octreeMap := [[], order]
    features := []
    config := exampleConfiguration minimumEntropy minimumCornerness3D
    sensor_origin := Vector3f.zero }

/-- The region query of the examples, for nodes `0, 1, ..., n - 1` that sit at
`x = 0, 1, ..., n - 1` on the `x` axis: the nodes whose `x` lies in the box. -/
def lineQuery (n : Nat) (minPosition maxPosition : OctreePosition) (_level : Nat) : List Nat :=
  (List.range n).filter (fun k =>
    Flt.le minPosition.x (Flt.fin (k : ℚ)) && Flt.le (Flt.fin (k : ℚ)) maxPosition.x)

/-- Three possible maxima in a row, of entropies 3, 2 and 1, scanned in this
order; each is a neighbour of the next. -/
def chainEstimator : SURE_Estimator Unit Unit :=
  exampleEstimator
    [exampleNode 0 (Flt.fin 3) NodeStatus.MAXIMUM_POSSIBLE,
     exampleNode 1 (Flt.fin 2) NodeStatus.MAXIMUM_POSSIBLE,
     exampleNode 2 (Flt.fin 1) NodeStatus.MAXIMUM_POSSIBLE] [0, 1, 2] (Flt.fin 0) (Flt.fin 0)

/-- A single node whose entropy is `NaN`, not yet classified; the entropy
threshold is `1/2` and the cornerness threshold `1/10`. -/
def nanEstimator : SURE_Estimator Unit Unit :=
  exampleEstimator [exampleNode 0 Flt.nan NodeStatus.MAXIMUM_NOT_CALCULATED] [0]
    (Flt.fin (1 / 2)) (Flt.fin (1 / 10))

/-- A single node of entropy 1, not yet classified, with entropy threshold 0 and
no cornerness threshold (`minimumCornerness3D = 0`). -/
def plainEstimator : SURE_Estimator Unit Unit :=
  exampleEstimator [exampleNode 0 (Flt.fin 1) NodeStatus.MAXIMUM_NOT_CALCULATED] [0]
    (Flt.fin 0) (Flt.fin 0)

/-- The region query of the examples for nodes `0, 1, ...` that sit on the `x`
axis at the given coordinates: the nodes whose `x` lies in the box. -/
def boxQuery (xs : List ℚ) (minPosition maxPosition : OctreePosition) (_level : Nat) :
    List Nat :=
  (List.range xs.length).filter (fun k =>
    Flt.le minPosition.x (Flt.fin (xs.getD k 0)) && Flt.le (Flt.fin (xs.getD k 0)) maxPosition.x)

/-- Two nodes of equal entropy 1 at `x = 0` and `x = 1`. -/
def tieEstimator : SURE_Estimator Unit Unit :=
  exampleEstimator
    [exampleNode 0 (Flt.fin 1) NodeStatus.MAXIMUM_POSSIBLE,
     exampleNode 1 (Flt.fin 1) NodeStatus.MAXIMUM_POSSIBLE] [0, 1] (Flt.fin 0) (Flt.fin 0)

/-- Two sampled nodes at `x = 0` and `x = 1/2`, of entropies 0 and 2, and an
artificial node at `x = 2`, of entropy 0. -/
def artificialEstimator : SURE_Estimator Unit Unit :=
  exampleEstimator
    [exampleNode 0 (Flt.fin 0) NodeStatus.MAXIMUM_NOT_POSSIBLE,
     exampleNode (1 / 2) (Flt.fin 2) NodeStatus.MAXIMUM_FOUND,
     exampleNode 2 (Flt.fin 0) NodeStatus.ARTIFICIAL] [0, 1, 2] (Flt.fin 0) (Flt.fin 0)

/-- A single node with one point and no entropy histogram, in the reference
cross-product mode. -/
def crossProductEstimator : SURE_Estimator Unit Unit :=
  { plainEstimator with
    config :=
      { plainEstimator.config with
        entropyMode := EntropyMode.CROSSPRODUCTS_ALL_NORMALS_WITH_MAIN_NORMAL } }

/-! ## The whole instance: storage, input and lifecycle -/

/-- A point of the input cloud, `PointT`: coordinates and packed colour. -/
structure PointT where
  x : Flt
  y : Flt
  z : Flt
  rgb : Flt
  deriving DecidableEq

/-- A `pcl::InterestPoint`. -/
structure InterestPoint where
  x : Flt
  y : Flt
  z : Flt
  strength : Flt
  deriving DecidableEq

/-- The cloud that `getInterestPoints` returns: its points and its header. -/
structure InterestPointCloud where
  points : List InterestPoint
  header : Nat
  deriving DecidableEq

/-- The arena of octree nodes, `OctreeAllocator`: its capacity and the number of
nodes handed out; `new OctreeAllocator(size)` is an arena of that capacity with
no node handed out. -/
structure OctreeAllocator where
  capacity : Nat
  used : Nat
  deriving DecidableEq

/-- Modelled from the spec: the class of the member `histogramAllocator` is not
part of the source file; the histogram pool has a size, which `reset(size)`
sets, and a number of histograms handed out, which `reset` and `clear` set to
zero. -/
structure HistogramAllocator where
  size : Flt
  used : Nat
  deriving DecidableEq

/-- The argument of one call of `addPoint` on the octree: the point with its
statistics, and the volume size when the resolution is limited (the call
`octree->root->addPoint(point, volumeSize)` of line 268, else the call
`octree->addPoint(point)` of line 272). -/
structure AddCall where
  position : OctreePosition
  summedPos : Vector3f
  summedSquares : Matrix3f
  numberOfPoints : Nat
  statusOfMaximum : NodeStatus
  color : Vector3f
  volumeSize : Option Flt
  deriving DecidableEq

/-- The index, `Octree`, as the estimator drives it: the arguments of its
constructor and the insertions made so far, in order.  What the tree makes of
them is outside the source file. -/
structure Octree where
  maximum : OctreePosition
  origin : OctreePosition
  minimumVolumeSize : Flt
  calls : List AddCall
  deriving DecidableEq

/-- What the lifecycle and the construction of the index call and
`sure_estimator.hpp` does not define. -/
structure IndexExternals (H : Type) where
  /-- The constant `sure::OCTREE_INITIAL_SIZE`. -/
  OCTREE_INITIAL_SIZE : Flt
  /-- The constant `sure::OCTREE_ACCURACY_SETOFF`. -/
  OCTREE_ACCURACY_SETOFF : Flt
  /-- The constant `sure::PERCENTAGE_OF_NORMAL_HISTOGRAMS`. -/
  PERCENTAGE_OF_NORMAL_HISTOGRAMS : Flt
  /-- A default-constructed `sure::Configuration`. -/
  defaultConfiguration : Configuration
  /-- The default of the parameter `status` of `insertPointInOctree`. -/
  defaultInsertStatus : NodeStatus
  /-- The function `sure::convertPCLRGBtoFloatRGB(rgb, r, g, b)`. -/
  convertPCLRGBtoFloatRGB : Flt → Vector3f
  /-- The depth of the node that `addPoint` returns on the tree built so far, `none` for a null
  pointer. -/
  addPointDepth : Octree → AddCall → Option Nat
  /-- The points that `rangeImage.addPointsOnBorders(volumeSize, histogramSize, addedPoints)`
  leaves in `addedPoints`, from the input, the selector and the list passed in. -/
  addPointsOnBorders :
    (Nat → PointT) → List Nat → Flt → Flt → List PointT → List PointT
  /-- The nodes and the sampling map that `algorithm::downsampleOcTree(*octree, false, depth)`
  yields. -/
  downsampleOcTree : Octree → Nat → Heap H × List (List Nat)

/-- A `sure::SURE_Estimator` with all its members: the part the passes read and
write, the index and its storage, and the input (`input_`, `indices_`). -/
structure SURE_Instance (H D : Type) extends SURE_Estimator H D where
  octree : Option Octree
  octreeDepth : Nat
  octreeSize : Nat
  octreeNodeSizeByDepth : List Flt
  addedPoints : List PointT
  rangeImage : Bool
  currentOctreeSize : Nat
  octreeAllocator : Option OctreeAllocator
  histogramAllocator : HistogramAllocator
  points : Nat → PointT
  indices : List Nat
  header : Nat

section
variable {H D : Type}

/-- The method `reset()` (lines 117 to 132). -/
def reset (ix : IndexExternals H) (inst : SURE_Instance H D) : SURE_Instance H D :=
  { inst with
    octree := none
    octreeDepth := 0
    octreeNodeSizeByDepth := []
    config := ix.defaultConfiguration
    features := []
    rangeImage := false
    octreeMap := []
    addedPoints := [] }

/-- The method `resize(size)` (lines 138 to 152). -/
def resize (ix : IndexExternals H) (inst : SURE_Instance H D) (size : Nat) :
    SURE_Instance H D :=
  let inst := reset ix inst
  if size ≠ inst.currentOctreeSize ∧ 0 < size then
    { inst with
      currentOctreeSize := size
      octreeAllocator := some ⟨size, 0⟩
      histogramAllocator :=
        ⟨Flt.mul (Flt.ofNat size) ix.PERCENTAGE_OF_NORMAL_HISTOGRAMS, 0⟩ }
  else inst

/-- The method `getInterestPoints()` (lines 212 to 228), a `const` method. -/
def getInterestPoints (inst : SURE_Instance H D) : InterestPointCloud :=
  { points := inst.features.map (fun f =>
      { x := f.point.x, y := f.point.y, z := f.point.z, strength := f.entropy })
    header := inst.header }

end

/-! ## Building the index -/

section
variable {H D : Type}

/-- The function `std::max` on floats: the second argument when the first is
smaller, else the first. -/
def Flt.max (a b : Flt) : Flt := if Flt.lt a b then b else a

/-- The argument that `insertPointInOctree(p, status)` hands to `addPoint` (lines
245 to 273). -/
def insertCall (ix : IndexExternals H) (config : Configuration) (sensor_origin : Vector3f)
    (p : PointT) (status : NodeStatus) : AddCall :=
  let position : OctreePosition := ⟨p.x, p.y, p.z⟩
  { position := position
    summedPos := position
    summedSquares :=
      ⟨Flt.mul p.x p.x, Flt.mul p.x p.y, Flt.mul p.x p.z,
       Flt.mul p.x p.y, Flt.mul p.y p.y, Flt.mul p.y p.z,
       Flt.mul p.x p.z, Flt.mul p.y p.z, Flt.mul p.z p.z⟩
    numberOfPoints := 1
    statusOfMaximum := status
    color := ix.convertPCLRGBtoFloatRGB p.rgb
    volumeSize :=
      if config.limitOctreeResolution then
        some (Flt.max config.minimumOctreeVolumeSize
          (Flt.mul ix.OCTREE_ACCURACY_SETOFF (squaredDistance sensor_origin position)))
      else none }

/-- The method `insertPointInOctree(p, status)` (lines 239 to 279), on the index
and the member `octreeDepth`. -/
def insertPointInOctree (ix : IndexExternals H) (config : Configuration)
    (sensor_origin : Vector3f) (tree : Octree × Nat) (p : PointT) (status : NodeStatus) :
    Octree × Nat :=
  let call := insertCall ix config sensor_origin p status
  let octreeDepth :=
    match ix.addPointDepth tree.1 call with
    | some depth => Nat.max tree.2 depth
    | none => tree.2
  ({ tree.1 with calls := tree.1.calls ++ [call] }, octreeDepth)

/-- The loop of `buildOctree` over the index selector (lines 312 to 319): a
selected point is inserted when its three coordinates are finite. -/
def insertSelected (ix : IndexExternals H) (config : Configuration) (sensor_origin : Vector3f)
    (points : Nat → PointT) : List Nat → Octree × Nat → Octree × Nat
  | [], tree => tree
  | index :: rest, tree =>
    let point := points index
    if Flt.isFinite point.x && Flt.isFinite point.y && Flt.isFinite point.z then
      insertSelected ix config sensor_origin points rest
        (insertPointInOctree ix config sensor_origin tree point ix.defaultInsertStatus)
    else insertSelected ix config sensor_origin points rest tree

/-- The loop of `continueDepthBorders` (lines 358 to 361): every added point is
inserted as artificial. -/
def insertArtificial (ix : IndexExternals H) (config : Configuration)
    (sensor_origin : Vector3f) : List PointT → Octree × Nat → Octree × Nat
  | [], tree => tree
  | p :: rest, tree =>
    insertArtificial ix config sensor_origin rest
      (insertPointInOctree ix config sensor_origin tree p NodeStatus.ARTIFICIAL)

/-- The average node size of one level of the sampling map (lines 344 to 349). -/
def averageNodeSize (heap : Heap H) (nodes : List Nat) : Flt :=
  Flt.div
    (nodes.foldl (fun avgVolumeSize j =>
      Flt.add avgVolumeSize (Flt.sub (heap j).maxPosition.x (heap j).minPosition.x)) (Flt.fin 0))
    (Flt.ofNat nodes.length)

/-- The method `resampleOctreeSamplingMap()` (lines 334 to 352), for the index
`tree`. -/
def resampleOctreeSamplingMap (ix : IndexExternals H) (inst : SURE_Instance H D)
    (tree : Octree) : SURE_Instance H D :=
  let sampled := ix.downsampleOcTree tree inst.octreeDepth
  let levels := List.range (inst.octreeDepth + 1)
  { inst with
    heap := sampled.1
    octreeMap := sampled.2
    octreeSize := (levels.map (fun level => (sampled.2.getD level []).length)).sum
    octreeNodeSizeByDepth :=
      levels.map (fun level => averageNodeSize sampled.1 (sampled.2.getD level [])) }

/-- The method `buildOctree()` (lines 281 to 331). -/
def buildOctree (ext : Externals H D) (ix : IndexExternals H) (inst : SURE_Instance H D) :
    SURE_Instance H D :=
  let allocator := inst.octreeAllocator.map (fun a => { a with used := 0 })
  let maximum : OctreePosition :=
    ⟨ix.OCTREE_INITIAL_SIZE, ix.OCTREE_INITIAL_SIZE, ix.OCTREE_INITIAL_SIZE⟩
  let octree : Octree :=
    { maximum := maximum, origin := Vector3f.zero
      minimumVolumeSize := ext.OCTREE_MINIMUM_VOLUME_SIZE, calls := [] }
  let rangeImage :=
    if inst.config.ignoreBackgroundDetections || inst.config.additionalPointsOnDepthBorders
    then true else inst.rangeImage
  let tree := insertSelected ix inst.config inst.sensor_origin inst.points inst.indices
    (octree, 0)
  let addedPoints :=
    if inst.config.additionalPointsOnDepthBorders then
      ix.addPointsOnBorders inst.points inst.indices inst.config.minimumOctreeVolumeSize
        inst.config.histogramSize inst.addedPoints
    else inst.addedPoints
  let tree :=
    if inst.config.additionalPointsOnDepthBorders then
      insertArtificial ix inst.config inst.sensor_origin addedPoints tree
    else tree
  let inst : SURE_Instance H D :=
    { inst with
      octreeAllocator := allocator
      octree := some tree.1
      octreeDepth := tree.2
      rangeImage := rangeImage
      addedPoints := addedPoints }
  resampleOctreeSamplingMap ix inst tree.1

/-! ## `calculateNormals` -/

/-- The body of the loop of `calculateNormals` (lines 379 to 394). -/
def calculateNormalsStep (ext : Externals H D) (config : Configuration)
    (sensor_origin : Vector3f) (inNode : Bool) (heap : Heap H) (i : Nat) : Heap H :=
  if (heap i).value.statusOfNormal ≠ NormalStatus.NORMAL_NOT_CALCULATED then heap
  else
    let heap : Heap H :=
      if (heap i).value.normalHistogram.isNone then
        Function.update heap i
          { heap i with value := { (heap i).value with normalHistogram := some ext.allocate } }
      else heap
    if inNode then
      Function.update heap i (calculateNormalInNode ext sensor_origin (heap i)).2
    else
      (calculateNormalRadius ext sensor_origin heap i config.normalScaleRadius
        ext.OCTREE_MINIMUM_VOLUME_SIZE).2

/-- The method `calculateNormals()` (lines 369 to 396).  An access to
`octreeNodeSizeByDepth` beyond its end, undefined in the source, reads 0. -/
def calculateNormals (ext : Externals H D) (inst : SURE_Instance H D) : SURE_Instance H D :=
  let inNode := Flt.lt inst.config.normalScale
    (inst.octreeNodeSizeByDepth.getD inst.config.normalSamplingLevel (Flt.fin 0))
  { inst with
    heap := (inst.levelNodes inst.config.normalSamplingLevel).foldl
      (calculateNormalsStep ext inst.config inst.sensor_origin inNode) inst.heap }

end

/-! ## Notions used in the statements on normals and cornerness -/

section
variable {H D : Type}

/-- The covariance as the specification words it:
`(1/n) * SumProducts - mean * mean^T` with `mean = summedPos / n`, where
`SumProducts` is the row-major matrix `summedSquares`. -/
def covariance (value : OctreeValue H) (n : Nat) : Matrix3f :=
  let mean : Vector3f :=
    ⟨Flt.div value.summedPos.x (Flt.ofNat n), Flt.div value.summedPos.y (Flt.ofNat n),
      Flt.div value.summedPos.z (Flt.ofNat n)⟩
  (Matrix3f.smul (Flt.div (Flt.fin 1) (Flt.ofNat n)) value.summedSquares).sub
    (Matrix3f.outer mean mean)

/-- The core estimation of a normal succeeds on the statistics `value` of `count`
points: there are enough points, the matrix handed to the eigen solver is finite
and so is the eigenvector that the solver returns. -/
def CoreSucceeds (ext : Externals H D) (value : OctreeValue H) (count : Nat) : Prop :=
  ext.MINIMUM_POINTS_FOR_NORMAL ≤ count ∧
  is_finite (normalMatrix value count) = true ∧
  (Flt.isFinite (ext.eigen33 (normalMatrix value count)).2.x = true ∧
    Flt.isFinite (ext.eigen33 (normalMatrix value count)).2.y = true ∧
    Flt.isFinite (ext.eigen33 (normalMatrix value count)).2.z = true)

/-- The normal that a successful core estimation leaves for a node at `pos`: the
eigenvector of the solver, normalized and oriented towards the sensor. -/
def orientedNormal (ext : Externals H D) (sensor_origin : Vector3f) (value : OctreeValue H)
    (count : Nat) (pos : Vector3f) : Vector3f :=
  orientateNormal (ext.normalize (ext.eigen33 (normalMatrix value count)).2)
    (sensor_origin.sub pos)

/-- The statistics and the count that the radius variant of `calculateNormal`
aggregates around a node (lines 493 to 505). -/
def aggregateAround (ext : Externals H D) (heap : Heap H) (node : Nat)
    (radius minResolution : Flt) : OctreeValue H × Nat :=
  ext.getValueAndCountInVolume heap ext.defaultValue
    (boxMin (heap node).closestPosition radius) (boxMax (heap node).closestPosition radius)
    minResolution

end

section
variable {H D : Type}

/-- The sum of the weights that the first loop of `calculateCornerness` leaves
in `sumWeight` (lines 41 to 52). -/
def cornernessWeight (nodes : List (OctreeNode H)) : Flt :=
  (cornernessSums nodes (Vector3f.zero, Flt.fin 0)).2

/-- The matrix that `calculateCornerness` hands to the eigen solver when the sum
of the weights is positive (lines 53 to 72): the entropy-weighted covariance of
the positions. -/
def cornernessCovariance (nodes : List (OctreeNode H)) : Matrix3f :=
  let sums := cornernessSums nodes (Vector3f.zero, Flt.fin 0)
  let mean : Vector3f :=
    ⟨Flt.div sums.1.x sums.2, Flt.div sums.1.y sums.2, Flt.div sums.1.z sums.2⟩
  (cornernessCov mean nodes Matrix3f.zero).divScalar sums.2

end

section
variable {H D : Type}

/-- The cornerness that `createDescriptor` stores in the Feature made of the
node `i` (lines 1028 to 1044): that of the nodes of the normal sampling level
within `histogramRadius` of the position of the node. -/
def featureCornerness (ext : Externals H D) (config : Configuration) (heap : Heap H)
    (i : Nat) : Flt :=
  calculateCornerness ext
    ((ext.getAllNodesInVolumeOnSamplingDepth
      (boxMin (heap i).closestPosition config.histogramRadius)
      (boxMax (heap i).closestPosition config.histogramRadius)
      config.normalSamplingLevel).map heap)

/-- Where a node that is Possible after steps of stage 1 comes from: it was
Possible before, or it was NotCalculated, a cornerness threshold is configured
and the cornerness of its neighbourhood on the sampling level is not below
it. -/
def PossibleOrigin (ext : Externals H D) (config : Configuration) (heap0 heap : Heap H)
    (j : Nat) : Prop :=
  (∀ n, (heap n).value.entropy = (heap0 n).value.entropy) ∧
  (∀ n, (heap n).closestPosition = (heap0 n).closestPosition) ∧
  ((heap j).value.statusOfMaximum = NodeStatus.MAXIMUM_NOT_CALCULATED →
    (heap0 j).value.statusOfMaximum = NodeStatus.MAXIMUM_NOT_CALCULATED) ∧
  ((heap j).value.statusOfMaximum = NodeStatus.MAXIMUM_POSSIBLE →
    (heap0 j).value.statusOfMaximum = NodeStatus.MAXIMUM_POSSIBLE ∨
    ((heap0 j).value.statusOfMaximum = NodeStatus.MAXIMUM_NOT_CALCULATED ∧
      Flt.gt config.minimumCornerness3D (Flt.fin 0) = true ∧
      Flt.lt (cornernessAt ext config heap0 j) config.minimumCornerness3D = false))

end

section
variable {H D : Type}

/-- The test of lines 315 to 318 of `buildOctree` on a selected point: its three
coordinates are finite. -/
def finitePoint (p : PointT) : Bool :=
  Flt.isFinite p.x && Flt.isFinite p.y && Flt.isFinite p.z

/-- The insertions that `buildOctree` makes for the entries of the index
selector, in selector order: one for each entry whose point has three finite
coordinates, with the default status. -/
def selectorInsertions (ix : IndexExternals H) (inst : SURE_Instance H D) : List AddCall :=
  (inst.indices.filter (fun index => finitePoint (inst.points index))).map
    (fun index => insertCall ix inst.config inst.sensor_origin (inst.points index)
      ix.defaultInsertStatus)

/-- The insertions that `continueDepthBorders` makes for a list of added points:
one for each, as Artificial. -/
def borderInsertions (ix : IndexExternals H) (inst : SURE_Instance H D)
    (addedPoints : List PointT) : List AddCall :=
  addedPoints.map
    (fun p => insertCall ix inst.config inst.sensor_origin p NodeStatus.ARTIFICIAL)

end

/-! ## More concrete data for the examples -/

/-- Statistics of four points whose only non-zero sum is the sum of the squares
of `x`, 16. -/
def squareValue : OctreeValue Unit :=
  { exampleValue (Flt.fin 0) NodeStatus.MAXIMUM_NOT_CALCULATED with
    summedSquares := { Matrix3f.zero with m00 := Flt.fin 16 } }

/-- An instance for the examples around an estimator: no index built yet, an
arena of five nodes of which three are handed out, and the given average node
sizes by depth. -/
def exampleInstance (est : SURE_Estimator Unit Unit) (nodeSizes : List Flt) :
    SURE_Instance Unit Unit :=
  { toSURE_Estimator := est
    octree := none
    octreeDepth := 1
    octreeSize := 0
    octreeNodeSizeByDepth := nodeSizes
    addedPoints := []
    rangeImage := false
    currentOctreeSize := 5
    octreeAllocator := some ⟨5, 3⟩
    histogramAllocator := ⟨Flt.fin 1, 2⟩
    points := fun _ => ⟨Flt.fin 0, Flt.fin 0, Flt.fin 0, Flt.fin 0⟩
    indices := []
    header := 0 }

/-- A node of four points at the origin whose sum of the squares of `x` has
overflowed to `+INFINITY`; its normal is not calculated yet and holds
`(0, 0, 1)`. -/
def overflowNode : OctreeNode Unit :=
  { exampleNode 0 (Flt.fin 0) NodeStatus.MAXIMUM_NOT_CALCULATED with
    numPoints := 4
    value :=
      { exampleValue (Flt.fin 0) NodeStatus.MAXIMUM_NOT_CALCULATED with
        summedSquares := { Matrix3f.zero with m00 := Flt.pinf }
        numberOfPoints := 4
        normal := ⟨Flt.fin 0, Flt.fin 0, Flt.fin 1⟩ } }

/-- A node of four points at the origin with finite statistics (the sum of the
squares of `x` is 16); its normal is not calculated yet and holds `(0, 0, 1)`. -/
def squareNode : OctreeNode Unit :=
  { exampleNode 0 (Flt.fin 0) NodeStatus.MAXIMUM_NOT_CALCULATED with
    numPoints := 4
    value := { squareValue with numberOfPoints := 4, normal := ⟨Flt.fin 0, Flt.fin 0, Flt.fin 1⟩ } }

/-- The collaborators of the examples with an aggregate query that answers with
the statistics and the number of points of node 0. -/
def nodeStatsExternals : Externals Unit Unit :=
  { exampleExternals (lineQuery 1) with
    getValueAndCountInVolume := fun heap _ _ _ _ => ((heap 0).value, (heap 0).numPoints) }

/-- The collaborators of `nodeStatsExternals` with a solver that answers with an
eigenvector whose first component is `NaN`. -/
def nanSolverExternals : Externals Unit Unit :=
  { nodeStatsExternals with
    eigen33 := fun _ => (Flt.fin 0, ⟨Flt.nan, Flt.fin 0, Flt.fin 1⟩) }

/-- An instance with the single node `node` on normal sampling level 1, whose
average node size on that level is `nodeSize`; `normalScale` is 1. -/
def normalsInstance (node : OctreeNode Unit) (nodeSize : Flt) : SURE_Instance Unit Unit :=
  exampleInstance (exampleEstimator [node] [0] (Flt.fin 0) (Flt.fin 0))
    [Flt.fin 4, nodeSize]

/-- The collaborators of the examples with an eigen solver that is exact on the
zero matrix: its three eigenvalues are 0. -/
def zeroSolverExternals : Externals Unit Unit :=
  { exampleExternals (lineQuery 1) with
    eigen33Values := fun m =>
      if m = Matrix3f.zero then ⟨Flt.fin 0, Flt.fin 0, Flt.fin 0⟩
      else ⟨Flt.fin 1, Flt.fin 1, Flt.fin 1⟩ }

/-- The region query of the examples for nodes on several levels: the nodes
`0, 1, ...` sit on the `x` axis at the coordinates `xs` and on the levels
`levels`; the answer is the nodes of the level asked for whose `x` lies in the
box. -/
def levelQuery (xs : List ℚ) (levels : List Nat) (minPosition maxPosition : OctreePosition)
    (level : Nat) : List Nat :=
  (boxQuery xs minPosition maxPosition level).filter (fun k => levels.getD k 0 = level)

/-- The collaborators of the examples over the two-level query, with an eigen
solver that is exact on the matrices whose only non-zero entry is a
non-negative `m00`: the eigenvalues in ascending order are `0, 0, m00`. -/
def twoLevelExternals : Externals Unit Unit :=
  { exampleExternals (levelQuery [0, -1 / 2, 1 / 2] [1, 2, 2]) with
    eigen33Values := fun m => ⟨Flt.fin 0, Flt.fin 0, m.m00⟩ }

/-- One node of entropy 0 at the origin on sampling level 1, not yet classified,
and two nodes of entropy 1 at `x = -1/2` and `x = 1/2` on the normal sampling
level 2; the entropy threshold is 0 and the cornerness threshold `1/10`. -/
def twoLevelEstimator : SURE_Estimator Unit Unit :=
  { heap := fun i =>
      [exampleNode 0 (Flt.fin 0) NodeStatus.MAXIMUM_NOT_CALCULATED,
       exampleNode (-1 / 2) (Flt.fin 1) NodeStatus.MAXIMUM_NOT_CALCULATED,
       exampleNode (1 / 2) (Flt.fin 1) NodeStatus.MAXIMUM_NOT_CALCULATED].getD i
        (exampleNode 0 (Flt.fin 0) NodeStatus.ARTIFICIAL)
    octreeMap := [[], [0], [1, 2]]
    features := []
    config := { exampleConfiguration (Flt.fin 0) (Flt.fin (1 / 10)) with normalSamplingLevel := 2 }
    sensor_origin := Vector3f.zero }

/-- The collaborators of the lifecycle for the examples: a tree that puts every
point on depth 1, no border points, an empty sampling map. -/
def exampleIndexExternals : IndexExternals Unit :=
  { OCTREE_INITIAL_SIZE := Flt.fin 100
    OCTREE_ACCURACY_SETOFF := Flt.fin 1
    PERCENTAGE_OF_NORMAL_HISTOGRAMS := Flt.fin (1 / 2)
    defaultConfiguration := exampleConfiguration (Flt.fin 0) (Flt.fin 0)
    defaultInsertStatus := NodeStatus.MAXIMUM_NOT_CALCULATED
    convertPCLRGBtoFloatRGB := fun _ => Vector3f.zero
    addPointDepth := fun _ _ => some 1
    addPointsOnBorders := fun _ _ _ _ added => added
    downsampleOcTree := fun _ _ =>
      (fun _ => exampleNode 0 (Flt.fin 0) NodeStatus.ARTIFICIAL, [[], []]) }

/-- An instance whose input has the three selected points `(0, 0, 0)`,
`(NaN, 0, 0)` and `(1, 0, 0)`, selected in this order. -/
def nanPointInstance : SURE_Instance Unit Unit :=
  { exampleInstance plainEstimator [] with
    points := fun index =>
      if index = 1 then ⟨Flt.nan, Flt.fin 0, Flt.fin 0, Flt.fin 0⟩
      else if index = 2 then ⟨Flt.fin 1, Flt.fin 0, Flt.fin 0, Flt.fin 0⟩
      else ⟨Flt.fin 0, Flt.fin 0, Flt.fin 0, Flt.fin 0⟩
    indices := [0, 1, 2] }

/-! ## Notions and data for the statements on suppression, pairs and the mean shift -/

/-- The two nodes of `tieEstimator` with the sampling map in the other order. -/
def tieEstimatorReversed : SURE_Estimator Unit Unit :=
  exampleEstimator
    [exampleNode 0 (Flt.fin 1) NodeStatus.MAXIMUM_POSSIBLE,
     exampleNode 1 (Flt.fin 1) NodeStatus.MAXIMUM_POSSIBLE] [1, 0] (Flt.fin 0) (Flt.fin 0)

section
variable {H D : Type}

/-- Every element of a list paired with every later element, in the order in
which two nested loops `i < j` over the list meet the pairs. -/
def orderedPairs : List Nat → List (Nat × Nat)
  | [] => []
  | n :: rest => rest.map (fun m => (n, m)) ++ orderedPairs rest

/-- The nodes of a list whose normal is Stable, in list order. -/
def stableNodes (heap : Heap H) (l : List Nat) : List Nat :=
  l.filter (fun n => decide ((heap n).value.statusOfNormal = NormalStatus.NORMAL_STABLE))

/-- One call of `insertCrossProduct` for each pair of a list, in list order, with
the normal of the first node as reference and that of the second as second
normal. -/
def insertPairs (ext : Externals H D) (config : Configuration) (heap : Heap H)
    (pairs : List (Nat × Nat)) (histogram : H) : H :=
  pairs.foldl (fun h p => ext.insertCrossProduct h (heap p.1).value.normal
    (heap p.2).value.normal config.histogramWeightMethod) histogram

end

section
variable {H D : Type}

/-- What a Feature takes over from the node it is made of: position, entropy
and point cloud index, and the support radius. -/
def Feature.key (f : Feature D) : Vector3f × Flt × Int × Flt :=
  (f.point, f.entropy, f.pointCloudIndex, f.radius)

/-- What `createFeature` copies into the Feature of the node `j` (lines 965 to
970): position, entropy and point cloud index of the node, and
`config.histogramRadius`. -/
def nodeKey (est : SURE_Estimator H D) (j : Nat) : Vector3f × Flt × Int × Flt :=
  ((est.heap j).closestPosition, (est.heap j).value.entropy,
    (est.heap j).value.pointCloudIndex, est.config.histogramRadius)

/-- The nodes of the sampling level that are Found, in sampling-map order. -/
def foundNodes (est : SURE_Estimator H D) : List Nat :=
  (est.levelNodes est.config.samplingLevel).filter
    (fun n => decide ((est.heap n).value.statusOfMaximum = NodeStatus.MAXIMUM_FOUND))

end

/-! ## Notions used in the statements on the kernel of the mean shift -/

/-- The number a float holds when it is finite, and 0 otherwise. -/
def Flt.toRat : Flt → ℚ
  | Flt.fin q => q
  | _ => 0

section
variable {H D : Type}

/-- The entropies of the contributing neighbours of a mean shift iteration, the
nodes of the list that are not artificial, in list order. -/
def contributingEntropies (heap : Heap H) (l : List Nat) : List ℚ :=
  (l.filter (fun i =>
    decide ((heap i).value.statusOfMaximum ≠ NodeStatus.ARTIFICIAL))).map
    (fun i => Flt.toRat (heap i).value.entropy)

/-- The mean `(1/n) * Sum_i e_i` of a list of values. -/
def listMean (qs : List ℚ) : ℚ := qs.sum / qs.length

/-- The variance `(1/n) * Sum_i (e_i - mean)^2` of a list of values, in the
words of the specification. -/
def listVariance (qs : List ℚ) : ℚ :=
  (qs.map (fun q => (q - listMean qs) * (q - listMean qs))).sum / qs.length

/-- The value `|Sum e_i^2 - (Sum e_i)^2 / n|` of a list of values. -/
def sigmaSq (qs : List ℚ) : ℚ :=
  |(qs.map (fun q => q * q)).sum - qs.sum * qs.sum / qs.length|

/-- The argument of `sqrt` in line 931, from the sums of the first loop:
`fabs(summedSquares - (1.f/float(count)) * summedMean^2)`. -/
def meanShiftRadicand (sums : Flt × Flt × Nat) : Flt :=
  Flt.abs (Flt.sub sums.2.1
    (Flt.mul (Flt.div (Flt.fin 1) (Flt.ofNat sums.2.2)) (Flt.mul sums.1 sums.1)))

end

/-- The collaborators of the examples over four nodes at
`x = 0, 1/2, 1, 3/2`, with a square root that is exact on 0, 1 and 4. -/
def exactRootExternals : Externals Unit Unit :=
  { exampleExternals (boxQuery [0, 1 / 2, 1, 3 / 2]) with
    sqrtQ := fun q => if q = 4 then 2 else q }

/-- Four sampled nodes at `x = 0, 1/2, 1, 3/2` with the entropies 0, 0, 2 and
2. -/
def spreadEstimator : SURE_Estimator Unit Unit :=
  exampleEstimator
    [exampleNode 0 (Flt.fin 0) NodeStatus.MAXIMUM_NOT_POSSIBLE,
     exampleNode (1 / 2) (Flt.fin 0) NodeStatus.MAXIMUM_NOT_POSSIBLE,
     exampleNode 1 (Flt.fin 2) NodeStatus.MAXIMUM_NOT_POSSIBLE,
     exampleNode (3 / 2) (Flt.fin 2) NodeStatus.MAXIMUM_NOT_POSSIBLE] [0, 1, 2, 3]
    (Flt.fin 0) (Flt.fin 0)

section
variable {H D : Type}

end

/-! ## Binary32 arithmetic

The definitions above compute on finite values without rounding.  Where the
rounding and the overflow of the type `float` decide what the program does, the
functions are embedded a second time below, under the same names in the
namespace `binary32`, with every arithmetic operation rounded to binary32:
round to nearest, ties to even, gradual underflow, overflow to an infinity.
Signed zeros are not distinguished. -/

/-- The power `2^k` for an integer exponent. -/
def pow2 (k : Int) : ℚ :=
  if 0 ≤ k then ((2 ^ k.toNat : Nat) : ℚ) else 1 / ((2 ^ (-k).toNat : Nat) : ℚ)

/-- The number of halvings that take `n` below 2, the integer part of its binary
logarithm for `n >= 1`; the first argument bounds the number of steps. -/
def log2Loop : Nat → Nat → Nat
  | 0, _ => 0
  | fuel + 1, n => if n < 2 then 0 else log2Loop fuel (n / 2) + 1

/-- The exponent `e` with `2^e <= a / b < 2^(e+1)`, for positive `a` and `b`. -/
def binaryExponent (a b : Nat) : Int :=
  let e0 : Int := (log2Loop a a : Int) - (log2Loop b b : Int)
  if (if 0 ≤ e0 then decide (2 ^ e0.toNat * b ≤ a) else decide (b ≤ a * 2 ^ (-e0).toNat))
  then e0 else e0 - 1

/-- The binary32 value of the positive rational `a / b`.  With `e` its binary
exponent, not below the smallest normal exponent -126, the value is the multiple
of the spacing `2^(e-23)` nearest to `a / b`, the even multiple on a tie, and
`+INFINITY` if that multiple is `2^128` or more. -/
def roundPositive (a b : Nat) : Flt :=
  let sh : Int := max (binaryExponent a b) (-126) - 23
  let num : Nat := if 0 ≤ sh then a else a * 2 ^ (-sh).toNat
  let den : Nat := if 0 ≤ sh then b * 2 ^ sh.toNat else b
  let n := num / den
  let r := num % den
  let n := if den < 2 * r ∨ (2 * r = den ∧ n % 2 = 1) then n + 1 else n
  if 0 ≤ sh ∧ 2 ^ 128 ≤ n * 2 ^ sh.toNat then Flt.pinf else Flt.fin ((n : ℚ) * pow2 sh)

/-- The binary32 value of a rational number. -/
def roundBinary32 (q : ℚ) : Flt :=
  if q = 0 then Flt.fin 0
  else if 0 < q then roundPositive q.num.natAbs q.den
  else Flt.neg (roundPositive q.num.natAbs q.den)

/-- The result of an operation as a `float`: the exact result rounded to
binary32; `NaN` and the infinities stay. -/
def Flt.binary32 : Flt → Flt
  | Flt.fin q => roundBinary32 q
  | x => x

/-- The sum `a + b` of two floats. -/
def binary32.add (a b : Flt) : Flt := Flt.binary32 (Flt.add a b)

/-- The difference `a - b` of two floats. -/
def binary32.sub (a b : Flt) : Flt := Flt.binary32 (Flt.sub a b)

/-- The product `a * b` of two floats. -/
def binary32.mul (a b : Flt) : Flt := Flt.binary32 (Flt.mul a b)

/-- The quotient `a / b` of two floats. -/
def binary32.div (a b : Flt) : Flt := Flt.binary32 (Flt.div a b)

/-- The conversion `float(count)`. -/
def binary32.ofNat (n : Nat) : Flt := Flt.binary32 (Flt.ofNat n)

/-- The function `sqrt` with its value stored in a `float`. -/
def binary32.sqrt (sqrtQ : ℚ → ℚ) (a : Flt) : Flt := Flt.binary32 (Flt.sqrt sqrtQ a)

/-- The function `exp` with its value taken as a `float`. -/
def binary32.exp (expQ : ℚ → ℚ) (a : Flt) : Flt := Flt.binary32 (Flt.exp expQ a)

section
variable {H D : Type}

/-- The squared distance of line 202, in binary32: three differences, three
products and two sums, each rounded. -/
def binary32.squaredDistance (pos c : OctreePosition) : Flt :=
  binary32.add
    (binary32.add
      (binary32.mul (binary32.sub pos.x c.x) (binary32.sub pos.x c.x))
      (binary32.mul (binary32.sub pos.y c.y) (binary32.sub pos.y c.y)))
    (binary32.mul (binary32.sub pos.z c.z) (binary32.sub pos.z c.z))

/-- The second loop of `getNodeFromPosition` (lines 200 to 208) in binary32,
from the current `closest` and `bestDistance`. -/
def binary32.closestLoop (heap : Heap H) (pos : OctreePosition) :
    List Nat → Option Nat × Flt → Option Nat × Flt
  | [], acc => acc
  | i :: rest, (closest, bestDistance) =>
    let distance := binary32.squaredDistance pos (heap i).closestPosition
    if Flt.lt distance bestDistance then binary32.closestLoop heap pos rest (some i, distance)
    else binary32.closestLoop heap pos rest (closest, bestDistance)

/-- The method `getNodeFromPosition(pos, level)` (lines 184 to 210) in binary32;
`none` is the null pointer. -/
def binary32.getNodeFromPosition (ext : Externals H D) (est : SURE_Estimator H D)
    (pos : OctreePosition) (level : Nat) : Option Nat :=
  let level := if level = 0 then est.config.samplingLevel else level
  match firstInRegion ext est.heap pos (est.levelNodes level) with
  | some i => some i
  | none => (binary32.closestLoop est.heap pos (est.levelNodes level) (none, Flt.pinf)).1

/-- The first inner loop of a mean shift iteration (lines 912 to 926) in
binary32: sum of the entropies, sum of their squares and number of the nodes
that are not artificial. -/
def binary32.meanShiftSums (heap : Heap H) : List Nat → Flt × Flt × Nat → Flt × Flt × Nat
  | [], acc => acc
  | i :: rest, (summedMean, summedSquares, count) =>
    if (heap i).value.statusOfMaximum = NodeStatus.ARTIFICIAL then
      binary32.meanShiftSums heap rest (summedMean, summedSquares, count)
    else
      binary32.meanShiftSums heap rest
        (binary32.add summedMean (heap i).value.entropy,
         binary32.add summedSquares
           (binary32.mul (heap i).value.entropy (heap i).value.entropy),
         count + 1)

/-- The argument of `exp` in lines 936 and 937, in binary32:
`-0.5f*(entropyDifference*entropyDifference) / (standardDeviation*standardDeviation)`. -/
def binary32.kernelArgument (mean standardDeviation entropy : Flt) : Flt :=
  let entropyDifference := binary32.sub mean entropy
  binary32.div
    (binary32.mul (Flt.fin (-1 / 2)) (binary32.mul entropyDifference entropyDifference))
    (binary32.mul standardDeviation standardDeviation)

/-- The kernel weight of lines 936 and 937, in binary32. -/
def binary32.kernelWeight (ext : Externals H D) (mean standardDeviation entropy : Flt) : Flt :=
  binary32.exp ext.expQ (binary32.kernelArgument mean standardDeviation entropy)

/-- The second inner loop of an iteration (lines 933 to 938) in binary32: the
weighted sum of the positions and the sum of the weights, over all nodes of the
list. -/
def binary32.meanShiftShift (ext : Externals H D) (heap : Heap H)
    (mean standardDeviation : Flt) :
    List Nat → OctreePosition × Flt → OctreePosition × Flt
  | [], acc => acc
  | i :: rest, (shiftedPosition, summedShift) =>
    let w := binary32.kernelWeight ext mean standardDeviation (heap i).value.entropy
    binary32.meanShiftShift ext heap mean standardDeviation rest
      (⟨binary32.add shiftedPosition.x (binary32.mul (heap i).closestPosition.x w),
        binary32.add shiftedPosition.y (binary32.mul (heap i).closestPosition.y w),
        binary32.add shiftedPosition.z (binary32.mul (heap i).closestPosition.z w)⟩,
       binary32.add summedShift w)

/-- The `standardDeviation` of an iteration (lines 931 and 932) in binary32, from
the sums of the first loop:
`sqrt(fabs(summedSquares - ((1.f/float(count)) * summedMean)))` after
`summedMean = summedMean*summedMean`. -/
def binary32.meanShiftDeviation (ext : Externals H D) (sums : Flt × Flt × Nat) : Flt :=
  let summedMean := binary32.mul sums.1 sums.1
  binary32.sqrt ext.sqrtQ
    (Flt.abs (binary32.sub sums.2.1
      (binary32.mul (binary32.div (Flt.fin 1) (binary32.ofNat sums.2.2)) summedMean)))

/-- The update of one iteration from the list of nodes the query returned (lines
910 to 951) in binary32: the position of the feature after it.  The operators
`*` and `+=` of `OctreePosition` act coordinate by coordinate. -/
def binary32.meanShiftUpdate (ext : Externals H D) (heap : Heap H) (listOfNodes : List Nat)
    (point : Vector3f) : Vector3f :=
  let sums := binary32.meanShiftSums heap listOfNodes (Flt.fin 0, Flt.fin 0, 0)
  let count := sums.2.2
  if 0 < count then
    let mean := binary32.div sums.1 (binary32.ofNat count)
    let standardDeviation := binary32.meanShiftDeviation ext sums
    let acc := binary32.meanShiftShift ext heap mean standardDeviation listOfNodes
      (Vector3f.zero, Flt.fin 0)
    let summedShift := acc.2
    let shiftedPosition : Vector3f :=
      if Flt.fne summedShift (Flt.fin 0) then
        ⟨binary32.mul acc.1.x (binary32.div (Flt.fin 1) summedShift),
          binary32.mul acc.1.y (binary32.div (Flt.fin 1) summedShift),
          binary32.mul acc.1.z (binary32.div (Flt.fin 1) summedShift)⟩
      else acc.1
    if !(Flt.isNaN shiftedPosition.x) && !(Flt.isNaN shiftedPosition.y)
        && !(Flt.isNaN shiftedPosition.z) then shiftedPosition
    else point
  else point

/-- The nodes an iteration gathers around the position of the feature (lines 900
to 908) in binary32, within `searchRadius = histogramRadius` at the sampling
level. -/
def binary32.meanShiftNeighbours (ext : Externals H D) (est : SURE_Estimator H D)
    (point : Vector3f) : List Nat :=
  ext.getAllNodesInVolumeOnSamplingDepth
    ⟨binary32.sub point.x est.config.histogramRadius,
      binary32.sub point.y est.config.histogramRadius,
      binary32.sub point.z est.config.histogramRadius⟩
    ⟨binary32.add point.x est.config.histogramRadius,
      binary32.add point.y est.config.histogramRadius,
      binary32.add point.z est.config.histogramRadius⟩
    est.config.samplingLevel

/-- One iteration of the mean shift (lines 897 to 951) on the position of a
feature, in binary32. -/
def binary32.meanShiftIteration (ext : Externals H D) (est : SURE_Estimator H D)
    (point : Vector3f) : Vector3f :=
  binary32.meanShiftUpdate ext est.heap (binary32.meanShiftNeighbours ext est point) point

end

/-! ## Data for the examples in binary32 -/

/-- A positive, increasing stand-in for `exp` on the rationals, with the value 1
at 0. -/
def rationalExp (x : ℚ) : ℚ := if x ≤ 0 then 1 / (1 - x) else 1 + x

/-- The binary32 value of the square root at the arguments at which the examples
take it: `0`, `1`, `2^-22` and `2^-25`. -/
def tableSqrt (q : ℚ) : ℚ :=
  if q = 1 / 33554432 then 11863283 / 68719476736
  else if q = 1 / 4194304 then 1 / 2048
  else q

/-- The collaborators of the examples around a region query, with the stand-in
`rationalExp` for `exp` and the table `tableSqrt` for `sqrt`. -/
def roundingExternals (query : OctreePosition → OctreePosition → Nat → List Nat) :
    Externals Unit Unit :=
  { exampleExternals query with
    sqrtQ := tableSqrt
    expQ := rationalExp }

/-- The binary32 number nearest to `0.3`, the literal `0.3f`. -/
def threeTenths : ℚ := 5033165 / 16777216

/-- Three sampled nodes at `x = 0, 1/2, 1` with the same entropy `0.3f`. -/
def equalEntropyEstimator : SURE_Estimator Unit Unit :=
  exampleEstimator
    [exampleNode 0 (Flt.fin threeTenths) NodeStatus.MAXIMUM_NOT_POSSIBLE,
     exampleNode (1 / 2) (Flt.fin threeTenths) NodeStatus.MAXIMUM_NOT_POSSIBLE,
     exampleNode 1 (Flt.fin threeTenths) NodeStatus.MAXIMUM_NOT_POSSIBLE] [0, 1, 2]
    (Flt.fin 0) (Flt.fin 0)

/-- Two sampled nodes at `x = 1` and `x = 2` with the entropies 1 and
`1 + 2^-22`, two binary32 numbers. -/
def nearEntropyEstimator : SURE_Estimator Unit Unit :=
  exampleEstimator
    [exampleNode 1 (Flt.fin 1) NodeStatus.MAXIMUM_NOT_POSSIBLE,
     exampleNode 2 (Flt.fin (4194305 / 4194304)) NodeStatus.MAXIMUM_NOT_POSSIBLE] [0, 1]
    (Flt.fin 0) (Flt.fin 0)

/-- Three sampled nodes at `x = 0, 1, 2` with the entropies 1, `1 + 7/8192` and
`1 + 8/8192`, three binary32 numbers. -/
def closeEntropyEstimator : SURE_Estimator Unit Unit :=
  exampleEstimator
    [exampleNode 0 (Flt.fin 1) NodeStatus.MAXIMUM_NOT_POSSIBLE,
     exampleNode 1 (Flt.fin (8199 / 8192)) NodeStatus.MAXIMUM_NOT_POSSIBLE,
     exampleNode 2 (Flt.fin (1025 / 1024)) NodeStatus.MAXIMUM_NOT_POSSIBLE] [0, 1, 2]
    (Flt.fin 0) (Flt.fin 0)

/-! # Theorems -/

/-! ## Orientation of normals -/

theorem Flt.neg_mul_left (a b : Flt) : Flt.mul (Flt.neg a) b = Flt.neg (Flt.mul a b) := by
  cases a <;> cases b <;> simp [Flt.mul, Flt.neg, Flt.infTimes]
  all_goals split_ifs <;> first
    | rfl
    | (exfalso; linarith)
    | (exfalso; rename_i h0 h1 h2; exact h0 (le_antisymm (not_lt.mp h2) (not_lt.mp h1)))

theorem Flt.neg_add_neg (a b : Flt) :
    Flt.add (Flt.neg a) (Flt.neg b) = Flt.neg (Flt.add a b) := by
  cases a <;> cases b <;> simp [Flt.add, Flt.neg]
  ring

theorem Vector3f.dot_neg_left (a b : Vector3f) : (a.neg).dot b = Flt.neg (a.dot b) := by
  simp [Vector3f.dot, Vector3f.neg, Flt.neg_mul_left, Flt.neg_add_neg]

theorem Flt.lt_abs_eq_false_of_ge (d t : Flt) (h : Flt.ge (Flt.abs d) t = true) :
    Flt.lt (Flt.abs d) t = false := by
  cases d <;> cases t <;> simp_all [Flt.ge, Flt.le, Flt.lt, Flt.abs]

/-- When the first dot product is not ambiguous the loop body never runs. -/
theorem orientateLoop_of_ge (normal : Vector3f) (fuel index : Nat) (d : Flt)
    (h : Flt.ge (Flt.abs d) (Flt.fin (1 / 10)) = true) :
    orientateLoop normal fuel index d = d := by
  cases fuel with
  | zero => rfl
  | succ n =>
    have h2 := Flt.lt_abs_eq_false_of_ge d _ h
    rw [orientateLoop, h2]
    rfl

theorem Flt.gt_zero_of_abs_ge (d : Flt) (h : Flt.ge (Flt.abs d) (Flt.fin (1 / 10)) = true)
    (hn : Flt.lt d (Flt.fin 0) = false) : Flt.gt d (Flt.fin 0) = true := by
  cases d <;> simp_all [Flt.ge, Flt.le, Flt.lt, Flt.abs, Flt.gt]
  rename_i q
  split_ifs at h with hq
  · linarith
  · linarith

theorem Flt.gt_zero_neg_of_lt (d : Flt) (h : Flt.lt d (Flt.fin 0) = true) :
    Flt.gt (Flt.neg d) (Flt.fin 0) = true := by
  cases d <;> simp_all [Flt.lt, Flt.gt, Flt.neg]

/-- C5: for every normal `n` and reference vector `v` whose dot product has
magnitude at least 0.1, `orientateNormal` negates all three components when
`n . v < 0` and leaves `n` unchanged otherwise; the result is `n` or `-n` and
its dot product with `v` is strictly positive. -/
theorem orientateNormal_unambiguous (n v : Vector3f)
    (h : Flt.ge (Flt.abs (n.dot v)) (Flt.fin (1 / 10)) = true) :
    (Flt.lt (n.dot v) (Flt.fin 0) = true → orientateNormal n v = n.neg) ∧
    (Flt.lt (n.dot v) (Flt.fin 0) = false → orientateNormal n v = n) ∧
    (orientateNormal n v = n ∨ orientateNormal n v = n.neg) ∧
    Flt.gt ((orientateNormal n v).dot v) (Flt.fin 0) = true := by
  have hloop := orientateLoop_of_ge n 7 0 (n.dot v) h
  have hneg : Flt.lt (n.dot v) (Flt.fin 0) = true → orientateNormal n v = n.neg := by
    intro hlt
    simp [orientateNormal, hloop, hlt]
  have hpos : Flt.lt (n.dot v) (Flt.fin 0) = false → orientateNormal n v = n := by
    intro hlt
    simp [orientateNormal, hloop, hlt]
  refine ⟨hneg, hpos, ?_, ?_⟩
  · cases hlt : Flt.lt (n.dot v) (Flt.fin 0)
    · exact Or.inl (hpos hlt)
    · exact Or.inr (hneg hlt)
  · cases hlt : Flt.lt (n.dot v) (Flt.fin 0)
    · rw [hpos hlt]
      exact Flt.gt_zero_of_abs_ge _ h hlt
    · rw [hneg hlt, Vector3f.dot_neg_left]
      exact Flt.gt_zero_neg_of_lt _ hlt

/-- Witness of C5: the normal `(0,0,-1)` seen from `(0,0,2)` is turned to
`(0,0,1)`. -/
theorem orientateNormal_unambiguous_witness :
    Flt.ge (Flt.abs ((Vector3f.mk (Flt.fin 0) (Flt.fin 0) (Flt.fin (-1))).dot
        (Vector3f.mk (Flt.fin 0) (Flt.fin 0) (Flt.fin 2)))) (Flt.fin (1 / 10)) = true ∧
    Flt.gt ((orientateNormal (Vector3f.mk (Flt.fin 0) (Flt.fin 0) (Flt.fin (-1)))
        (Vector3f.mk (Flt.fin 0) (Flt.fin 0) (Flt.fin 2))).dot
        (Vector3f.mk (Flt.fin 0) (Flt.fin 0) (Flt.fin 2))) (Flt.fin 0) = true :=
  have h : Flt.ge (Flt.abs ((Vector3f.mk (Flt.fin 0) (Flt.fin 0) (Flt.fin (-1))).dot
      (Vector3f.mk (Flt.fin 0) (Flt.fin 0) (Flt.fin 2)))) (Flt.fin (1 / 10)) = true := by
    norm_num [Vector3f.dot, Flt.mul, Flt.add, Flt.abs, Flt.ge, Flt.le]
  ⟨h, (orientateNormal_unambiguous _ _ h).2.2.2⟩

theorem orientateLoop_probe_up (fuel : Nat) (d : Flt)
    (h : Flt.lt (Flt.abs d) (Flt.fin (1 / 10)) = true) :
    orientateLoop ⟨Flt.fin 0, Flt.fin 0, Flt.fin 1⟩ (fuel + 2) 0 d = Flt.fin 1000 := by
  rw [orientateLoop, h]
  norm_num [orientateLoop, Vector3f.dot, farPoint, Flt.mul, Flt.add, Flt.abs, Flt.lt]

theorem orientateLoop_probe_down (fuel : Nat) (d : Flt)
    (h : Flt.lt (Flt.abs d) (Flt.fin (1 / 10)) = true) :
    orientateLoop ⟨Flt.fin 0, Flt.fin 0, Flt.fin (-1)⟩ (fuel + 2) 0 d = Flt.fin (-1000) := by
  rw [orientateLoop, h]
  norm_num [orientateLoop, Vector3f.dot, farPoint, Flt.mul, Flt.add, Flt.abs, Flt.lt]

/-- The dot product of a plane normal `(0,0,s)` with a reference vector, when it
is a number: the `x` and `y` offsets are finite and the product is `s * z`. -/
theorem dot_plane_normal (s : ℚ) (v : Vector3f)
    (hd : (Vector3f.mk (Flt.fin 0) (Flt.fin 0) (Flt.fin s)).dot v ≠ Flt.nan) :
    (Vector3f.mk (Flt.fin 0) (Flt.fin 0) (Flt.fin s)).dot v = Flt.mul (Flt.fin s) v.z := by
  obtain ⟨vx, vy, vz⟩ := v
  cases vx <;> cases vy <;> cases vz <;>
    simp_all [Vector3f.dot, Flt.mul, Flt.add, Flt.infTimes, Flt.neg]
  all_goals split_ifs <;> simp_all [Flt.add, Flt.neg]

theorem Flt.lt_zero_one_mul (z : Flt) (hz : Flt.gt z (Flt.fin 0) = true) :
    Flt.lt (Flt.mul (Flt.fin 1) z) (Flt.fin 0) = false := by
  cases z with
  | nan => rfl
  | ninf => simp [Flt.gt, Flt.lt] at hz
  | pinf => norm_num [Flt.mul, Flt.infTimes, Flt.lt]
  | fin q =>
    simp only [Flt.gt, Flt.lt, decide_eq_true_eq] at hz
    simp only [Flt.mul, Flt.lt, one_mul, decide_eq_false_iff_not, not_lt]
    exact le_of_lt hz

theorem Flt.lt_zero_neg_one_mul (z : Flt) (hz : Flt.gt z (Flt.fin 0) = true) :
    Flt.lt (Flt.mul (Flt.fin (-1)) z) (Flt.fin 0) = true := by
  cases z with
  | nan => simp [Flt.gt, Flt.lt] at hz
  | ninf => simp [Flt.gt, Flt.lt] at hz
  | pinf => norm_num [Flt.mul, Flt.infTimes, Flt.lt, Flt.neg]
  | fin q =>
    simp only [Flt.gt, Flt.lt, decide_eq_true_eq] at hz
    simp only [Flt.mul, Flt.lt, decide_eq_true_eq]
    linarith

theorem orientateNormal_eq (n v : Vector3f) :
    orientateNormal n v =
      if Flt.lt (orientateLoop n 7 0 (n.dot v)) (Flt.fin 0) then n.neg else n := rfl

/-- C6: for the candidate normals `(0,0,1)` and `(0,0,-1)` of the plane `z = 0`
and every reference vector with strictly positive `z` whose first dot product is
at least 0.1 in magnitude or ambiguous (below 0.1 in magnitude),
`orientateNormal` returns `(0,0,1)`. -/
theorem orientateNormal_flat_plane (n v : Vector3f)
    (hn : n = ⟨Flt.fin 0, Flt.fin 0, Flt.fin 1⟩ ∨ n = ⟨Flt.fin 0, Flt.fin 0, Flt.fin (-1)⟩)
    (hz : Flt.gt v.z (Flt.fin 0) = true)
    (hd : Flt.ge (Flt.abs (n.dot v)) (Flt.fin (1 / 10)) = true ∨
      Flt.lt (Flt.abs (n.dot v)) (Flt.fin (1 / 10)) = true) :
    orientateNormal n v = ⟨Flt.fin 0, Flt.fin 0, Flt.fin 1⟩ := by
  have hnan : n.dot v ≠ Flt.nan := by
    intro h
    rw [h] at hd
    simp [Flt.abs, Flt.ge, Flt.le, Flt.lt] at hd
  have hflip : (Vector3f.mk (Flt.fin 0) (Flt.fin 0) (Flt.fin (-1))).neg
      = ⟨Flt.fin 0, Flt.fin 0, Flt.fin 1⟩ := by
    simp [Vector3f.neg, Flt.neg]
  rcases hd with hd | hd
  · -- unambiguous: the sign of the dot product is the sign of the candidate
    have hloop := orientateLoop_of_ge n 7 0 (n.dot v) hd
    rw [orientateNormal_eq, hloop]
    rcases hn with rfl | rfl
    · rw [dot_plane_normal 1 v hnan, Flt.lt_zero_one_mul v.z hz]
      rfl
    · rw [dot_plane_normal (-1) v hnan, Flt.lt_zero_neg_one_mul v.z hz, if_pos rfl, hflip]
  · -- ambiguous: the first probe (1000,1000,1000) decides
    rw [orientateNormal_eq]
    rcases hn with rfl | rfl
    · rw [orientateLoop_probe_up 5 _ hd]
      rfl
    · rw [orientateLoop_probe_down 5 _ hd, hflip.symm]
      rfl

/-- Witness of C6: the normal `(0,0,-1)` with the viewpoint at height `1/100`
above the point, an ambiguous first dot product. -/
theorem orientateNormal_flat_plane_witness :
    orientateNormal ⟨Flt.fin 0, Flt.fin 0, Flt.fin (-1)⟩ ⟨Flt.fin 3, Flt.fin (-2), Flt.fin (1 / 100)⟩
      = ⟨Flt.fin 0, Flt.fin 0, Flt.fin 1⟩ :=
  orientateNormal_flat_plane _ _ (Or.inr rfl)
    (by norm_num [Flt.gt, Flt.lt])
    (Or.inr (by norm_num [Vector3f.dot, Flt.mul, Flt.add, Flt.abs, Flt.lt]))


section

/-- The loop of `orientateNormal` never needs more than `7 - index` iterations:
any larger bound on their number gives the same result, so the bound 7 used by
`orientateNormal` from `index = 0` cuts no run short. -/
theorem orientateLoop_bound (normal : Vector3f) :
    ∀ (k index : Nat) (d : Flt) (extra : Nat), 7 - index ≤ k →
      orientateLoop normal (k + extra) index d = orientateLoop normal k index d := by
  intro k
  induction k with
  | zero =>
    intro index d extra h
    cases extra with
    | zero => rfl
    | succ e =>
      have hi : ¬ index < 7 := by omega
      simp [orientateLoop, hi]
  | succ k ih =>
    intro index d extra h
    rw [show k + 1 + extra = (k + extra) + 1 by omega]
    unfold orientateLoop
    split_ifs
    · exact ih (index + 1) _ extra (by omega)
    · rfl

end

/-! ## Stage 2 of `extractFeature`: one node -/

section
variable {H D : Type}

theorem suppressLoop_of_unsuppressed (heap : Heap H) (current : Nat) (e : Flt)
    (nbs : List Nat) (h : Unsuppressed heap current e nbs) :
    suppressLoop heap current e nbs = heap := by
  induction nbs with
  | nil => rfl
  | cons nb rest ih =>
    have hrest : Unsuppressed heap current e rest :=
      fun x hx hne => h x (List.mem_cons_of_mem _ hx) hne
    unfold suppressLoop
    by_cases hc : nb = current
    · rw [if_pos hc]
      exact ih hrest
    · have hnb := h nb (List.mem_cons_self _ _) hc
      rw [if_neg hc, if_neg hnb.1, if_neg hnb.2]
      exact ih hrest

theorem suppressLoop_of_suppressed (heap : Heap H) (current : Nat) (e : Flt)
    (nbs : List Nat) (h : ¬ Unsuppressed heap current e nbs) :
    suppressLoop heap current e nbs =
      Function.update heap current
        ((heap current).setStatusOfMaximum NodeStatus.MAXIMUM_NOT_POSSIBLE) := by
  induction nbs with
  | nil => exact absurd (fun _ hx _ => absurd hx (List.not_mem_nil _)) h
  | cons nb rest ih =>
    unfold suppressLoop
    by_cases hc : nb = current
    · rw [if_pos hc]
      apply ih
      intro hrest
      apply h
      intro x hx hne
      rcases List.mem_cons.mp hx with rfl | hx
      · exact absurd hc hne
      · exact hrest x hx hne
    · rw [if_neg hc]
      by_cases hf : (heap nb).value.statusOfMaximum = NodeStatus.MAXIMUM_FOUND
      · rw [if_pos hf]
      · rw [if_neg hf]
        by_cases hp : (heap nb).value.statusOfMaximum = NodeStatus.MAXIMUM_POSSIBLE ∧
            Flt.gt (heap nb).value.entropy e = true
        · rw [if_pos hp]
        · rw [if_neg hp]
          apply ih
          intro hrest
          apply h
          intro x hx hne
          rcases List.mem_cons.mp hx with rfl | hx
          · exact ⟨hf, hp⟩
          · exact hrest x hx hne

theorem createDescriptor_point (ext : Externals H D) (est : SURE_Estimator H D)
    (f : Feature D) : (createDescriptor ext est f).point = f.point := rfl

theorem createDescriptor_entropy (ext : Externals H D) (est : SURE_Estimator H D)
    (f : Feature D) : (createDescriptor ext est f).entropy = f.entropy := rfl

theorem createDescriptor_radius (ext : Externals H D) (est : SURE_Estimator H D)
    (f : Feature D) : (createDescriptor ext est f).radius = f.radius := rfl

theorem createDescriptor_pointCloudIndex (ext : Externals H D) (est : SURE_Estimator H D)
    (f : Feature D) : (createDescriptor ext est f).pointCloudIndex = f.pointCloudIndex := rfl

/-- The step of stage 2 on a possible maximum that no neighbour demotes. -/
theorem extractSuppressStep_found (ext : Externals H D) (est : SURE_Estimator H D) (i : Nat)
    (hp : (est.heap i).value.statusOfMaximum = NodeStatus.MAXIMUM_POSSIBLE)
    (hu : Unsuppressed est.heap i (est.heap i).value.entropy (influenceNeighbours ext est i)) :
    extractSuppressStep ext est i =
      { est.withStatus i NodeStatus.MAXIMUM_FOUND with
        features := est.features ++
          [createFeature ext (est.withStatus i NodeStatus.MAXIMUM_FOUND) i] } := by
  unfold extractSuppressStep
  simp only [hp, ne_eq, not_true_eq_false, if_false, suppressLoop_of_unsuppressed _ _ _ _ hu,
    if_true]
  rfl

/-- The step of stage 2 on a possible maximum that a neighbour demotes. -/
theorem extractSuppressStep_demoted (ext : Externals H D) (est : SURE_Estimator H D) (i : Nat)
    (hp : (est.heap i).value.statusOfMaximum = NodeStatus.MAXIMUM_POSSIBLE)
    (hu : ¬ Unsuppressed est.heap i (est.heap i).value.entropy
      (influenceNeighbours ext est i)) :
    extractSuppressStep ext est i = est.withStatus i NodeStatus.MAXIMUM_NOT_POSSIBLE := by
  unfold extractSuppressStep
  simp only [hp, ne_eq, not_true_eq_false, if_false, suppressLoop_of_suppressed _ _ _ _ hu,
    Function.update_same, OctreeNode.setStatusOfMaximum]
  rfl

/-- The step of stage 2 on a node that is not a possible maximum. -/
theorem extractSuppressStep_skip (ext : Externals H D) (est : SURE_Estimator H D) (i : Nat)
    (hp : (est.heap i).value.statusOfMaximum ≠ NodeStatus.MAXIMUM_POSSIBLE) :
    extractSuppressStep ext est i = est := by
  unfold extractSuppressStep
  simp only [hp, ne_eq, not_false_eq_true, if_true]

end

/-! ## Stage 2 of `extractFeature`: the pass -/

section
variable {H D : Type}

/-- The three outcomes of a step of stage 2. -/
theorem extractSuppressStep_cases (ext : Externals H D) (est : SURE_Estimator H D) (i : Nat) :
    ((est.heap i).value.statusOfMaximum ≠ NodeStatus.MAXIMUM_POSSIBLE ∧
      extractSuppressStep ext est i = est) ∨
    ((est.heap i).value.statusOfMaximum = NodeStatus.MAXIMUM_POSSIBLE ∧
      Unsuppressed est.heap i (est.heap i).value.entropy (influenceNeighbours ext est i) ∧
      extractSuppressStep ext est i =
        { est.withStatus i NodeStatus.MAXIMUM_FOUND with
          features := est.features ++
            [createFeature ext (est.withStatus i NodeStatus.MAXIMUM_FOUND) i] }) ∨
    ((est.heap i).value.statusOfMaximum = NodeStatus.MAXIMUM_POSSIBLE ∧
      ¬ Unsuppressed est.heap i (est.heap i).value.entropy (influenceNeighbours ext est i) ∧
      extractSuppressStep ext est i = est.withStatus i NodeStatus.MAXIMUM_NOT_POSSIBLE) := by
  by_cases hp : (est.heap i).value.statusOfMaximum = NodeStatus.MAXIMUM_POSSIBLE
  · by_cases hu : Unsuppressed est.heap i (est.heap i).value.entropy
        (influenceNeighbours ext est i)
    · exact Or.inr (Or.inl ⟨hp, hu, extractSuppressStep_found ext est i hp hu⟩)
    · exact Or.inr (Or.inr ⟨hp, hu, extractSuppressStep_demoted ext est i hp hu⟩)
  · exact Or.inl ⟨hp, extractSuppressStep_skip ext est i hp⟩

theorem withStatus_heap_ne (est : SURE_Estimator H D) (i n : Nat) (s : NodeStatus)
    (h : n ≠ i) : (est.withStatus i s).heap n = est.heap n := by
  simp [SURE_Estimator.withStatus, Function.update_noteq h]

theorem withStatus_status_self (est : SURE_Estimator H D) (i : Nat) (s : NodeStatus) :
    ((est.withStatus i s).heap i).value.statusOfMaximum = s := by
  simp [SURE_Estimator.withStatus, OctreeNode.setStatusOfMaximum]

theorem withStatus_entropy (est : SURE_Estimator H D) (i n : Nat) (s : NodeStatus) :
    ((est.withStatus i s).heap n).value.entropy = (est.heap n).value.entropy := by
  by_cases h : n = i
  · subst h
    simp [SURE_Estimator.withStatus, OctreeNode.setStatusOfMaximum]
  · rw [withStatus_heap_ne est i n s h]

theorem withStatus_closestPosition (est : SURE_Estimator H D) (i n : Nat) (s : NodeStatus) :
    ((est.withStatus i s).heap n).closestPosition = (est.heap n).closestPosition := by
  by_cases h : n = i
  · subst h
    simp [SURE_Estimator.withStatus, OctreeNode.setStatusOfMaximum]
  · rw [withStatus_heap_ne est i n s h]

theorem withStatus_pointCloudIndex (est : SURE_Estimator H D) (i n : Nat) (s : NodeStatus) :
    ((est.withStatus i s).heap n).value.pointCloudIndex = (est.heap n).value.pointCloudIndex := by
  by_cases h : n = i
  · subst h
    simp [SURE_Estimator.withStatus, OctreeNode.setStatusOfMaximum]
  · rw [withStatus_heap_ne est i n s h]

/-- What a step of stage 2 keeps: the configuration, the sampling map, every
node but the scanned one, and of the scanned one everything but its status. -/
theorem extractSuppressStep_frame (ext : Externals H D) (est : SURE_Estimator H D) (i : Nat) :
    (extractSuppressStep ext est i).config = est.config ∧
    (extractSuppressStep ext est i).octreeMap = est.octreeMap ∧
    (∀ n, n ≠ i → (extractSuppressStep ext est i).heap n = est.heap n) ∧
    (∀ n, ((extractSuppressStep ext est i).heap n).value.entropy = (est.heap n).value.entropy) ∧
    (∀ n, ((extractSuppressStep ext est i).heap n).closestPosition
      = (est.heap n).closestPosition) ∧
    (∀ n, ((extractSuppressStep ext est i).heap n).value.pointCloudIndex
      = (est.heap n).value.pointCloudIndex) := by
  rcases extractSuppressStep_cases ext est i with ⟨_, h⟩ | ⟨_, _, h⟩ | ⟨_, _, h⟩
  · rw [h]
    exact ⟨rfl, rfl, fun _ _ => rfl, fun _ => rfl, fun _ => rfl, fun _ => rfl⟩
  · rw [h]
    exact ⟨rfl, rfl, fun n hn => withStatus_heap_ne est i n _ hn,
      fun n => withStatus_entropy est i n _, fun n => withStatus_closestPosition est i n _,
      fun n => withStatus_pointCloudIndex est i n _⟩
  · rw [h]
    exact ⟨rfl, rfl, fun n hn => withStatus_heap_ne est i n _ hn,
      fun n => withStatus_entropy est i n _, fun n => withStatus_closestPosition est i n _,
      fun n => withStatus_pointCloudIndex est i n _⟩

/-- A step of stage 2 changes the status of a node only from Possible, and only
to Found or NotPossible. -/
theorem extractSuppressStep_status (ext : Externals H D) (est : SURE_Estimator H D)
    (i n : Nat) :
    ((extractSuppressStep ext est i).heap n).value.statusOfMaximum
        = (est.heap n).value.statusOfMaximum ∨
      ((est.heap n).value.statusOfMaximum = NodeStatus.MAXIMUM_POSSIBLE ∧ n = i ∧
        (((extractSuppressStep ext est i).heap n).value.statusOfMaximum
            = NodeStatus.MAXIMUM_FOUND ∨
          ((extractSuppressStep ext est i).heap n).value.statusOfMaximum
            = NodeStatus.MAXIMUM_NOT_POSSIBLE)) := by
  by_cases hn : n = i
  · subst hn
    rcases extractSuppressStep_cases ext est n with ⟨_, h⟩ | ⟨hp, _, h⟩ | ⟨hp, _, h⟩
    · rw [h]
      exact Or.inl rfl
    · rw [h]
      exact Or.inr ⟨hp, rfl, Or.inl (withStatus_status_self est n _)⟩
    · rw [h]
      exact Or.inr ⟨hp, rfl, Or.inr (withStatus_status_self est n _)⟩
  · rw [(extractSuppressStep_frame ext est i).2.2.1 n hn]
    exact Or.inl rfl

theorem influenceNeighbours_congr (ext : Externals H D) (est est2 : SURE_Estimator H D)
    (i : Nat) (hc : est2.config = est.config)
    (hp : (est2.heap i).closestPosition = (est.heap i).closestPosition) :
    influenceNeighbours ext est2 i = influenceNeighbours ext est i := by
  simp [influenceNeighbours, hc, hp]

end

section
variable {H D : Type}

theorem SuppressInv.refl (ext : Externals H D) (est : SURE_Estimator H D) :
    SuppressInv ext est est where
  config := rfl
  octreeMap := rfl
  entropy := fun _ => rfl
  closestPosition := fun _ => rfl
  pointCloudIndex := fun _ => rfl
  status := fun _ => Or.inl rfl
  greater := fun _ h0 h1 => absurd h1 h0

theorem SuppressInv.step (ext : Externals H D) (est0 est : SURE_Estimator H D) (s : Nat)
    (inv : SuppressInv ext est0 est) : SuppressInv ext est0 (extractSuppressStep ext est s) := by
  obtain ⟨fc, fm, fh, fe, fp, fi⟩ := extractSuppressStep_frame ext est s
  have hst := extractSuppressStep_status ext est s
  refine ⟨fc.trans inv.config, fm.trans inv.octreeMap, fun n => (fe n).trans (inv.entropy n),
    fun n => (fp n).trans (inv.closestPosition n),
    fun n => (fi n).trans (inv.pointCloudIndex n), ?_, ?_⟩
  · intro n
    rcases hst n with h | ⟨hp, _, h⟩
    · rw [h]
      exact inv.status n
    · rcases inv.status n with h0 | ⟨h0, h1⟩
      · exact Or.inr ⟨h0 ▸ hp, h⟩
      · rcases h1 with h1 | h1 <;> rw [h1] at hp <;> exact absurd hp (by decide)
  · intro i h0 h1 nb hnb hne hgt
    have keep : (est.heap nb).value.statusOfMaximum ≠ NodeStatus.MAXIMUM_FOUND ∧
        (est.heap nb).value.statusOfMaximum ≠ NodeStatus.MAXIMUM_POSSIBLE →
        ((extractSuppressStep ext est s).heap nb).value.statusOfMaximum
            ≠ NodeStatus.MAXIMUM_FOUND ∧
          ((extractSuppressStep ext est s).heap nb).value.statusOfMaximum
            ≠ NodeStatus.MAXIMUM_POSSIBLE := by
      intro hk
      rcases hst nb with h | ⟨hp, _, _⟩
      · rw [h]
        exact hk
      · exact absurd hp hk.2
    by_cases hi : (est.heap i).value.statusOfMaximum = NodeStatus.MAXIMUM_FOUND
    · exact keep (inv.greater i h0 hi nb hnb hne hgt)
    · -- the node became Found in this very step
      rcases hst i with h | ⟨hp, his, _⟩
      · rw [h] at h1
        exact absurd h1 hi
      · subst his
        rcases extractSuppressStep_cases ext est i with ⟨hnp, _⟩ | ⟨_, hu, _⟩ | ⟨_, _, h⟩
        · exact absurd hp hnp
        · have hN : influenceNeighbours ext est i = influenceNeighbours ext est0 i :=
            influenceNeighbours_congr ext est0 est i inv.config (inv.closestPosition i)
          rw [hN] at hu
          obtain ⟨hnf, hnp⟩ := hu nb hnb hne
          rw [inv.entropy nb, inv.entropy i] at hnp
          exact keep ⟨hnf, fun hpos => hnp ⟨hpos, hgt⟩⟩
        · rw [h, withStatus_status_self] at h1
          exact absurd h1 (by decide)

theorem SuppressInv.foldl (ext : Externals H D) (est0 : SURE_Estimator H D) (l : List Nat) :
    ∀ est, SuppressInv ext est0 est →
      SuppressInv ext est0 (l.foldl (extractSuppressStep ext) est) := by
  induction l with
  | nil => exact fun _ h => h
  | cons s rest ih => exact fun est h => ih _ (SuppressInv.step ext est0 est s h)

end

section
variable {H D : Type}

theorem Flt.gt_self (a : Flt) : Flt.gt a a = false := by
  cases a <;> simp [Flt.gt, Flt.lt]

/-- C3: in stage 2 a node that is Possible when it is scanned ends Found, with
exactly one Feature appended for it, if and only if at that moment none of its
other neighbours within featureInfluenceRadius is Found and none is Possible
with strictly greater entropy; otherwise it ends NotPossible and no Feature is
appended.  Possible neighbours of equal entropy do not demote it, and the scans
that follow in the pass leave the status it ended with. -/
theorem extractSuppressStep_possible (ext : Externals H D) (est : SURE_Estimator H D)
    (i : Nat) (hp : (est.heap i).value.statusOfMaximum = NodeStatus.MAXIMUM_POSSIBLE) :
    (((extractSuppressStep ext est i).heap i).value.statusOfMaximum = NodeStatus.MAXIMUM_FOUND ↔
      Unsuppressed est.heap i (est.heap i).value.entropy (influenceNeighbours ext est i)) ∧
    (Unsuppressed est.heap i (est.heap i).value.entropy (influenceNeighbours ext est i) →
      ∃ f, (extractSuppressStep ext est i).features = est.features ++ [f] ∧
        f.point = (est.heap i).closestPosition ∧ f.entropy = (est.heap i).value.entropy ∧
        f.pointCloudIndex = (est.heap i).value.pointCloudIndex) ∧
    (¬ Unsuppressed est.heap i (est.heap i).value.entropy (influenceNeighbours ext est i) →
      ((extractSuppressStep ext est i).heap i).value.statusOfMaximum
          = NodeStatus.MAXIMUM_NOT_POSSIBLE ∧
        (extractSuppressStep ext est i).features = est.features) ∧
    ((∀ nb ∈ influenceNeighbours ext est i, nb ≠ i →
        (est.heap nb).value.statusOfMaximum = NodeStatus.MAXIMUM_POSSIBLE ∧
          (est.heap nb).value.entropy = (est.heap i).value.entropy) →
      ((extractSuppressStep ext est i).heap i).value.statusOfMaximum
        = NodeStatus.MAXIMUM_FOUND) ∧
    (∀ later : List Nat,
      ((later.foldl (extractSuppressStep ext) (extractSuppressStep ext est i)).heap
          i).value.statusOfMaximum
        = ((extractSuppressStep ext est i).heap i).value.statusOfMaximum) := by
  have hfound : Unsuppressed est.heap i (est.heap i).value.entropy
      (influenceNeighbours ext est i) →
      ((extractSuppressStep ext est i).heap i).value.statusOfMaximum
        = NodeStatus.MAXIMUM_FOUND := by
    intro hu
    rw [extractSuppressStep_found ext est i hp hu]
    simp [SURE_Estimator.withStatus, OctreeNode.setStatusOfMaximum]
  have hdem : ¬ Unsuppressed est.heap i (est.heap i).value.entropy
      (influenceNeighbours ext est i) →
      ((extractSuppressStep ext est i).heap i).value.statusOfMaximum
          = NodeStatus.MAXIMUM_NOT_POSSIBLE ∧
        (extractSuppressStep ext est i).features = est.features := by
    intro hu
    rw [extractSuppressStep_demoted ext est i hp hu]
    simp [SURE_Estimator.withStatus, OctreeNode.setStatusOfMaximum]
  refine ⟨⟨?_, hfound⟩, ?_, hdem, ?_, ?_⟩
  · intro hf
    by_contra hu
    rw [(hdem hu).1] at hf
    exact absurd hf (by decide)
  · intro hu
    refine ⟨createFeature ext (est.withStatus i NodeStatus.MAXIMUM_FOUND) i, ?_, ?_, ?_, ?_⟩
    · rw [extractSuppressStep_found ext est i hp hu]
    · simp [createFeature, createDescriptor_point, SURE_Estimator.withStatus,
        OctreeNode.setStatusOfMaximum]
    · simp [createFeature, createDescriptor_entropy, SURE_Estimator.withStatus,
        OctreeNode.setStatusOfMaximum]
    · simp [createFeature, createDescriptor_pointCloudIndex, SURE_Estimator.withStatus,
        OctreeNode.setStatusOfMaximum]
  · intro htie
    apply hfound
    intro nb hnb hne
    obtain ⟨hs, he⟩ := htie nb hnb hne
    refine ⟨by rw [hs]; decide, ?_⟩
    rintro ⟨_, hgt⟩
    rw [he, Flt.gt_self] at hgt
    exact absurd hgt (by decide)
  · intro later
    have inv := SuppressInv.foldl ext (extractSuppressStep ext est i) later _
      (SuppressInv.refl ext _)
    rcases inv.status i with e | ⟨e, _⟩
    · exact e
    · by_cases hu : Unsuppressed est.heap i (est.heap i).value.entropy
          (influenceNeighbours ext est i)
      · rw [hfound hu] at e
        exact absurd e (by decide)
      · rw [(hdem hu).1] at e
        exact absurd e (by decide)

/-- Witness of C3: two neighbouring possible maxima of equal entropy 1; the one
scanned first ends Found. -/
theorem extractSuppressStep_possible_witness :
    ((extractSuppressStep (exampleExternals (lineQuery 2))
      tieEstimator 0).heap 0).value.statusOfMaximum = NodeStatus.MAXIMUM_FOUND :=
  (extractSuppressStep_possible (exampleExternals (lineQuery 2))
    tieEstimator 0 rfl).2.2.2.1 (by decide!)

end

/-! ## Stage 1 of `extractFeature` -/

section
variable {H D : Type}

/-- The four outcomes of a step of stage 1. -/
theorem extractThresholdStep_cases (ext : Externals H D) (config : Configuration)
    (heap : Heap H) (i : Nat) :
    (((heap i).value.statusOfMaximum = NodeStatus.ARTIFICIAL
        ∨ (heap i).value.statusOfMaximum = NodeStatus.BACKGROUND) ∧
      extractThresholdStep ext config heap i = heap) ∨
    (¬ ((heap i).value.statusOfMaximum = NodeStatus.ARTIFICIAL
        ∨ (heap i).value.statusOfMaximum = NodeStatus.BACKGROUND) ∧
      Flt.lt (heap i).value.entropy config.minimumEntropy = true ∧
      extractThresholdStep ext config heap i =
        Function.update heap i
          ((heap i).setStatusOfMaximum NodeStatus.MAXIMUM_NOT_POSSIBLE)) ∨
    (¬ ((heap i).value.statusOfMaximum = NodeStatus.ARTIFICIAL
        ∨ (heap i).value.statusOfMaximum = NodeStatus.BACKGROUND) ∧
      Flt.lt (heap i).value.entropy config.minimumEntropy = false ∧
      ((heap i).value.statusOfMaximum = NodeStatus.MAXIMUM_NOT_CALCULATED
        ∧ Flt.gt config.minimumCornerness3D (Flt.fin 0) = true) ∧
      extractThresholdStep ext config heap i =
        Function.update heap i
          (((heap i).setCornerness3D (cornernessAt ext config heap i)).setStatusOfMaximum
            (if Flt.lt (cornernessAt ext config heap i) config.minimumCornerness3D then
              NodeStatus.MAXIMUM_NOT_POSSIBLE else NodeStatus.MAXIMUM_POSSIBLE))) ∨
    (¬ ((heap i).value.statusOfMaximum = NodeStatus.ARTIFICIAL
        ∨ (heap i).value.statusOfMaximum = NodeStatus.BACKGROUND) ∧
      Flt.lt (heap i).value.entropy config.minimumEntropy = false ∧
      ¬ ((heap i).value.statusOfMaximum = NodeStatus.MAXIMUM_NOT_CALCULATED
        ∧ Flt.gt config.minimumCornerness3D (Flt.fin 0) = true) ∧
      extractThresholdStep ext config heap i = heap) := by
  unfold extractThresholdStep
  dsimp only
  by_cases h1 : (heap i).value.statusOfMaximum = NodeStatus.ARTIFICIAL
      ∨ (heap i).value.statusOfMaximum = NodeStatus.BACKGROUND
  · exact Or.inl ⟨h1, if_pos h1⟩
  · rw [if_neg h1]
    cases h2 : Flt.lt (heap i).value.entropy config.minimumEntropy
    · rw [if_neg (by decide)]
      by_cases h3 : (heap i).value.statusOfMaximum = NodeStatus.MAXIMUM_NOT_CALCULATED
          ∧ Flt.gt config.minimumCornerness3D (Flt.fin 0) = true
      · rw [if_pos h3]
        refine Or.inr (Or.inr (Or.inl ⟨h1, rfl, h3, ?_⟩))
        split_ifs <;> rfl
      · rw [if_neg h3]
        exact Or.inr (Or.inr (Or.inr ⟨h1, rfl, h3, rfl⟩))
    · rw [if_pos rfl]
      exact Or.inr (Or.inl ⟨h1, rfl, rfl⟩)

/-- What a step of stage 1 keeps, and that it never makes a node Found. -/
theorem extractThresholdStep_frame (ext : Externals H D) (config : Configuration)
    (heap : Heap H) (i : Nat) :
    (∀ n, n ≠ i → extractThresholdStep ext config heap i n = heap n) ∧
    (∀ n, (extractThresholdStep ext config heap i n).value.entropy = (heap n).value.entropy) ∧
    (∀ n, (extractThresholdStep ext config heap i n).closestPosition
      = (heap n).closestPosition) ∧
    (∀ n, (extractThresholdStep ext config heap i n).value.pointCloudIndex
      = (heap n).value.pointCloudIndex) ∧
    (∀ n, (extractThresholdStep ext config heap i n).value.statusOfMaximum
        = NodeStatus.MAXIMUM_FOUND → (heap n).value.statusOfMaximum
        = NodeStatus.MAXIMUM_FOUND) := by
  have upd : ∀ (v : OctreeNode H) (n : Nat), n ≠ i → Function.update heap i v n = heap n :=
    fun v n hn => Function.update_noteq hn v heap
  have field : ∀ {α : Type} (g : OctreeNode H → α) (v : OctreeNode H) (n : Nat),
      g v = g (heap i) → g (Function.update heap i v n) = g (heap n) := by
    intro α g v n hv
    by_cases hn : n = i
    · subst hn
      rw [Function.update_same, hv]
    · rw [Function.update_noteq hn]
  have found : ∀ (v : OctreeNode H) (n : Nat),
      v.value.statusOfMaximum ≠ NodeStatus.MAXIMUM_FOUND →
      (Function.update heap i v n).value.statusOfMaximum = NodeStatus.MAXIMUM_FOUND →
      (heap n).value.statusOfMaximum = NodeStatus.MAXIMUM_FOUND := by
    intro v n hv h
    by_cases hn : n = i
    · subst hn
      rw [Function.update_same] at h
      exact absurd h hv
    · rwa [Function.update_noteq hn] at h
  rcases extractThresholdStep_cases ext config heap i with
    ⟨_, h⟩ | ⟨_, _, h⟩ | ⟨_, _, _, h⟩ | ⟨_, _, _, h⟩
  · rw [h]
    exact ⟨fun _ _ => rfl, fun _ => rfl, fun _ => rfl, fun _ => rfl, fun _ h => h⟩
  · rw [h]
    exact ⟨upd _, fun n => field (fun v => v.value.entropy) _ n rfl,
      fun n => field (fun v => v.closestPosition) _ n rfl,
      fun n => field (fun v => v.value.pointCloudIndex) _ n rfl,
      fun n => found _ n (by simp [OctreeNode.setStatusOfMaximum])⟩
  · rw [h]
    exact ⟨upd _, fun n => field (fun v => v.value.entropy) _ n rfl,
      fun n => field (fun v => v.closestPosition) _ n rfl,
      fun n => field (fun v => v.value.pointCloudIndex) _ n rfl,
      fun n => found _ n (by
        simp only [OctreeNode.setStatusOfMaximum]
        split <;> decide)⟩
  · rw [h]
    exact ⟨fun _ _ => rfl, fun _ => rfl, fun _ => rfl, fun _ => rfl, fun _ h => h⟩

/-- What stage 1 keeps, and that it never makes a node Found. -/
theorem extractThreshold_frame (ext : Externals H D) (config : Configuration)
    (nodes : List Nat) : ∀ heap : Heap H,
    (∀ n, (extractThreshold ext config heap nodes n).value.entropy = (heap n).value.entropy) ∧
    (∀ n, (extractThreshold ext config heap nodes n).closestPosition
      = (heap n).closestPosition) ∧
    (∀ n, (extractThreshold ext config heap nodes n).value.pointCloudIndex
      = (heap n).value.pointCloudIndex) ∧
    (∀ n, (extractThreshold ext config heap nodes n).value.statusOfMaximum
        = NodeStatus.MAXIMUM_FOUND → (heap n).value.statusOfMaximum
        = NodeStatus.MAXIMUM_FOUND) := by
  induction nodes with
  | nil => exact fun _ => ⟨fun _ => rfl, fun _ => rfl, fun _ => rfl, fun _ h => h⟩
  | cons i rest ih =>
    intro heap
    obtain ⟨_, fe, fp, fi, ff⟩ := extractThresholdStep_frame ext config heap i
    obtain ⟨ge, gp, gi, gf⟩ := ih (extractThresholdStep ext config heap i)
    exact ⟨fun n => (ge n).trans (fe n), fun n => (gp n).trans (fp n),
      fun n => (gi n).trans (fi n), fun n h => ff n (gf n h)⟩

/-- The estimator between the two stages of `extractFeature`. -/
theorem extractFeature_eq (ext : Externals H D) (est : SURE_Estimator H D) :
    extractFeature ext est =
      (est.levelNodes est.config.samplingLevel).foldl (extractSuppressStep ext)
        (est.thresholded ext) := rfl

/-- C1, as amended: after `extractFeature`, for every node that it marks Found
(not Found before, Found after), every other node that the
featureInfluenceRadius query around it returns and that has strictly greater
entropy is neither Found nor Possible. -/
theorem extractFeature_greater_neighbour (ext : Externals H D) (est : SURE_Estimator H D)
    (i : Nat) (h0 : (est.heap i).value.statusOfMaximum ≠ NodeStatus.MAXIMUM_FOUND)
    (h1 : ((extractFeature ext est).heap i).value.statusOfMaximum = NodeStatus.MAXIMUM_FOUND) :
    ∀ nb ∈ influenceNeighbours ext est i, nb ≠ i →
      Flt.gt ((extractFeature ext est).heap nb).value.entropy
        ((extractFeature ext est).heap i).value.entropy = true →
      ((extractFeature ext est).heap nb).value.statusOfMaximum ≠ NodeStatus.MAXIMUM_FOUND ∧
      ((extractFeature ext est).heap nb).value.statusOfMaximum
        ≠ NodeStatus.MAXIMUM_POSSIBLE := by
  obtain ⟨ge, gp, _, gf⟩ := extractThreshold_frame ext est.config
    (est.levelNodes est.config.samplingLevel) est.heap
  have inv := SuppressInv.foldl ext _ (est.levelNodes est.config.samplingLevel) _
    (SuppressInv.refl ext (est.thresholded ext))
  rw [← extractFeature_eq] at inv
  intro nb hnb hne hgt
  have hN : influenceNeighbours ext (est.thresholded ext) i = influenceNeighbours ext est i :=
    influenceNeighbours_congr ext est _ i rfl (gp i)
  rw [inv.entropy nb, inv.entropy i] at hgt
  exact inv.greater i (fun h => h0 (gf i h)) h1 nb (hN ▸ hnb) hne hgt

end

/-- Counterexample to C1 as stated: in the chain of entropies 3, 2, 1 scanned in
this order, the first node becomes Found, the second is demoted by it, and the
third then becomes Found although its neighbour, the second node, has strictly
greater entropy. -/
theorem extractFeature_greater_neighbour_counterexample :
    (∀ i ∈ chainEstimator.levelNodes chainEstimator.config.samplingLevel,
      (chainEstimator.heap i).value.statusOfMaximum ≠ NodeStatus.MAXIMUM_FOUND) ∧
    ((extractFeature (exampleExternals (lineQuery 3)) chainEstimator).heap 2).value.statusOfMaximum
      = NodeStatus.MAXIMUM_FOUND ∧
    1 ∈ influenceNeighbours (exampleExternals (lineQuery 3)) chainEstimator 2 ∧
    Flt.gt ((extractFeature (exampleExternals (lineQuery 3)) chainEstimator).heap 1).value.entropy
      ((extractFeature (exampleExternals (lineQuery 3)) chainEstimator).heap 2).value.entropy
      = true := by
  decide!

/-- Witness of C1: in the chain of entropies 3, 2, 1 the third node becomes
Found; its neighbour of greater entropy, the second node, is neither Found nor
Possible. -/
theorem extractFeature_greater_neighbour_witness :
    ((extractFeature (exampleExternals (lineQuery 3)) chainEstimator).heap 1).value.statusOfMaximum
      ≠ NodeStatus.MAXIMUM_FOUND ∧
    ((extractFeature (exampleExternals (lineQuery 3)) chainEstimator).heap 1).value.statusOfMaximum
      ≠ NodeStatus.MAXIMUM_POSSIBLE :=
  extractFeature_greater_neighbour (exampleExternals (lineQuery 3)) chainEstimator 2
    (by decide!) (by decide!) 1 (by decide!) (by decide) (by decide!)

/-! ## The entropy threshold -/

section
variable {H D : Type}

theorem foldl_preserve {S : Type} (step : S → Nat → S) (B : S → Prop)
    (hB : ∀ s j, B s → B (step s j)) : ∀ (l : List Nat) (s : S), B s → B (l.foldl step s) := by
  intro l
  induction l with
  | nil => exact fun _ h => h
  | cons j rest ih => exact fun s h => ih _ (hB s j h)

/-- A loop over a list that contains `i`: what holds before the visit of `i`
(`A`) turns at the visit into what holds after it (`B`). -/
theorem foldl_visit {S : Type} (step : S → Nat → S) (A B : S → Prop) (i : Nat)
    (hA : ∀ s j, j ≠ i → A s → A (step s j)) (hAB : ∀ s, A s → B (step s i))
    (hB : ∀ s j, B s → B (step s j)) :
    ∀ (l : List Nat) (s : S), i ∈ l → A s → B (l.foldl step s) := by
  intro l
  induction l with
  | nil => exact fun _ h => absurd h (List.not_mem_nil _)
  | cons j rest ih =>
    intro s hi ha
    by_cases hj : j = i
    · subst hj
      exact foldl_preserve step B hB rest _ (hAB s ha)
    · rcases List.mem_cons.mp hi with h | h
      · exact absurd h.symm hj
      · exact ih _ h (hA s j hj ha)

/-- After its step of stage 1 a node is Possible only if its entropy is not
below the threshold. -/
theorem extractThresholdStep_possible (ext : Externals H D) (config : Configuration)
    (heap : Heap H) (i : Nat)
    (h : (extractThresholdStep ext config heap i i).value.statusOfMaximum
      = NodeStatus.MAXIMUM_POSSIBLE) :
    Flt.lt (extractThresholdStep ext config heap i i).value.entropy config.minimumEntropy
      = false := by
  rw [(extractThresholdStep_frame ext config heap i).2.1 i]
  rcases extractThresholdStep_cases ext config heap i with
    ⟨h1, e⟩ | ⟨_, _, e⟩ | ⟨_, h2, _, _⟩ | ⟨_, h2, _, _⟩
  · rw [e] at h
    rcases h1 with h1 | h1 <;> rw [h1] at h <;> exact absurd h (by decide)
  · rw [e, Function.update_same] at h
    exact absurd h (by simp [OctreeNode.setStatusOfMaximum])
  · exact h2
  · exact h2

/-- After stage 1 every node of the level that is Possible has an entropy that is
not below the threshold. -/
theorem extractThreshold_possible (ext : Externals H D) (config : Configuration)
    (heap : Heap H) (nodes : List Nat) (i : Nat) (hi : i ∈ nodes)
    (h : (extractThreshold ext config heap nodes i).value.statusOfMaximum
      = NodeStatus.MAXIMUM_POSSIBLE) :
    Flt.lt (extractThreshold ext config heap nodes i).value.entropy config.minimumEntropy
      = false := by
  have key := foldl_visit (extractThresholdStep ext config) (fun _ => True)
    (fun hp : Heap H => (hp i).value.statusOfMaximum = NodeStatus.MAXIMUM_POSSIBLE →
      Flt.lt (hp i).value.entropy config.minimumEntropy = false) i
    (fun _ _ _ _ => trivial)
    (fun s _ => extractThresholdStep_possible ext config s i)
    (fun s j hs => by
      by_cases hj : j = i
      · subst hj
        exact extractThresholdStep_possible ext config s j
      · beta_reduce at hs ⊢
        rw [(extractThresholdStep_frame ext config s j).1 i (Ne.symm hj)]
        exact hs)
    nodes heap hi trivial
  exact key h

/-- After stage 1 a node of the level that was neither Artificial nor Background
and whose entropy is below the threshold is NotPossible. -/
theorem extractThreshold_below (ext : Externals H D) (config : Configuration)
    (heap : Heap H) (nodes : List Nat) (i : Nat) (hi : i ∈ nodes)
    (ha : (heap i).value.statusOfMaximum ≠ NodeStatus.ARTIFICIAL)
    (hb : (heap i).value.statusOfMaximum ≠ NodeStatus.BACKGROUND)
    (hlt : Flt.lt (heap i).value.entropy config.minimumEntropy = true) :
    (extractThreshold ext config heap nodes i).value.statusOfMaximum
      = NodeStatus.MAXIMUM_NOT_POSSIBLE := by
  have visit : ∀ s : Heap H,
      ((s i).value.statusOfMaximum ≠ NodeStatus.ARTIFICIAL ∧
        (s i).value.statusOfMaximum ≠ NodeStatus.BACKGROUND ∧
        (s i).value.entropy = (heap i).value.entropy) →
      ((extractThresholdStep ext config s i i).value.statusOfMaximum
          = NodeStatus.MAXIMUM_NOT_POSSIBLE ∧
        (extractThresholdStep ext config s i i).value.entropy = (heap i).value.entropy) := by
    intro s ⟨h1, h2, h3⟩
    refine ⟨?_, ((extractThresholdStep_frame ext config s i).2.1 i).trans h3⟩
    rcases extractThresholdStep_cases ext config s i with
      ⟨h, _⟩ | ⟨_, _, e⟩ | ⟨_, h, _, _⟩ | ⟨_, h, _, _⟩
    · rcases h with h | h
      · exact absurd h h1
      · exact absurd h h2
    · rw [e, Function.update_same]
      rfl
    · rw [h3, hlt] at h
      exact absurd h (by decide)
    · rw [h3, hlt] at h
      exact absurd h (by decide)
  have key := foldl_visit (extractThresholdStep ext config)
    (fun s : Heap H => (s i).value.statusOfMaximum ≠ NodeStatus.ARTIFICIAL ∧
        (s i).value.statusOfMaximum ≠ NodeStatus.BACKGROUND ∧
        (s i).value.entropy = (heap i).value.entropy)
    (fun s : Heap H => (s i).value.statusOfMaximum = NodeStatus.MAXIMUM_NOT_POSSIBLE ∧
        (s i).value.entropy = (heap i).value.entropy) i
    (fun s j hj hs => by
      beta_reduce at hs ⊢
      rw [(extractThresholdStep_frame ext config s j).1 i (Ne.symm hj)]
      exact hs)
    visit
    (fun s j hs => by
      by_cases hj : j = i
      · subst hj
        exact visit s ⟨by rw [hs.1]; decide, by rw [hs.1]; decide, hs.2⟩
      · beta_reduce at hs ⊢
        rw [(extractThresholdStep_frame ext config s j).1 i (Ne.symm hj)]
        exact hs)
    nodes heap hi ⟨ha, hb, rfl⟩
  exact key.1

/-- Every feature that stage 2 appends stems from a node of the scanned list that
was Possible before the scan and is Found after it. -/
theorem suppress_features (ext : Externals H D) (l : List Nat) :
    ∀ est : SURE_Estimator H D, ∃ new : List (Feature D),
      (l.foldl (extractSuppressStep ext) est).features = est.features ++ new ∧
      ∀ f ∈ new, ∃ j ∈ l,
        (est.heap j).value.statusOfMaximum = NodeStatus.MAXIMUM_POSSIBLE ∧
        ((l.foldl (extractSuppressStep ext) est).heap j).value.statusOfMaximum
          = NodeStatus.MAXIMUM_FOUND ∧
        f.entropy = (est.heap j).value.entropy ∧
        f.point = (est.heap j).closestPosition ∧
        f.pointCloudIndex = (est.heap j).value.pointCloudIndex ∧
        f.radius = est.config.histogramRadius := by
  induction l with
  | nil => exact fun est => ⟨[], by simp, fun f hf => absurd hf (List.not_mem_nil _)⟩
  | cons s rest ih =>
    intro est
    obtain ⟨new, hnew, hall⟩ := ih (extractSuppressStep ext est s)
    obtain ⟨fc, _, _, fe, fp, fi⟩ := extractSuppressStep_frame ext est s
    have hst := extractSuppressStep_status ext est s
    -- features of the rest, traced back to the state before this step
    have back : ∀ f ∈ new, ∃ j ∈ s :: rest,
        (est.heap j).value.statusOfMaximum = NodeStatus.MAXIMUM_POSSIBLE ∧
        (((s :: rest).foldl (extractSuppressStep ext) est).heap j).value.statusOfMaximum
          = NodeStatus.MAXIMUM_FOUND ∧
        f.entropy = (est.heap j).value.entropy ∧
        f.point = (est.heap j).closestPosition ∧
        f.pointCloudIndex = (est.heap j).value.pointCloudIndex ∧
        f.radius = est.config.histogramRadius := by
      intro f hf
      obtain ⟨j, hj, h1, h2, h3, h4, h5, h6⟩ := hall f hf
      refine ⟨j, List.mem_cons_of_mem _ hj, ?_, h2, h3.trans (fe j), h4.trans (fp j),
        h5.trans (fi j), h6.trans (by rw [fc])⟩
      rcases hst j with h | ⟨hp, _, _⟩
      · rw [← h]
        exact h1
      · exact hp
    rcases extractSuppressStep_cases ext est s with ⟨_, h⟩ | ⟨hp, _, h⟩ | ⟨_, _, h⟩
    · refine ⟨new, ?_, back⟩
      rw [List.foldl_cons, hnew, h]
    · refine ⟨createFeature ext (est.withStatus s NodeStatus.MAXIMUM_FOUND) s :: new, ?_, ?_⟩
      · rw [List.foldl_cons, hnew, h]
        simp [SURE_Estimator.withStatus]
      · intro f hf
        rcases List.mem_cons.mp hf with rfl | hf
        · refine ⟨s, List.mem_cons_self _ _, hp, ?_, ?_, ?_, ?_, ?_⟩
          · have inv := SuppressInv.foldl ext (extractSuppressStep ext est s) rest _
              (SuppressInv.refl ext _)
            have hs : ((extractSuppressStep ext est s).heap s).value.statusOfMaximum
                = NodeStatus.MAXIMUM_FOUND := by
              rw [h]
              exact withStatus_status_self est s _
            rw [List.foldl_cons]
            rcases inv.status s with e | ⟨e, _⟩
            · rw [e, hs]
            · rw [hs] at e
              exact absurd e (by decide)
          · exact withStatus_entropy est s s _
          · exact withStatus_closestPosition est s s _
          · exact withStatus_pointCloudIndex est s s _
          · rfl
        · exact back f hf
    · refine ⟨new, ?_, back⟩
      rw [List.foldl_cons, hnew, h]
      rfl

end

section
variable {H D : Type}

theorem Flt.ge_of_lt_eq_false (a b : Flt) (ha : a ≠ Flt.nan) (hb : b ≠ Flt.nan)
    (h : Flt.lt a b = false) : Flt.ge a b = true := by
  cases a <;> cases b <;> simp_all [Flt.ge, Flt.le, Flt.lt]

theorem Flt.lt_zero_of_gt_zero (m : Flt) (h : Flt.gt m (Flt.fin 0) = true) :
    Flt.lt (Flt.fin 0) m = true := h

/-- C2, as amended: the features that `extractFeature` appends each stem from a
node of the sampling level that ends Found, and have an entropy that is not
below `minimumEntropy`, that is `entropy >= minimumEntropy` unless one of the
two is `NaN`; a node of the level that is neither Artificial nor Background and
has `entropy < minimumEntropy` ends NotPossible; and if every node of the level
has entropy 0 and `minimumEntropy > 0`, no feature is appended. -/
theorem extractFeature_minimumEntropy (ext : Externals H D) (est : SURE_Estimator H D) :
    (extractFeature ext est).features = est.features ++ appendedFeatures ext est ∧
    (∀ f ∈ appendedFeatures ext est,
      (∃ j ∈ est.levelNodes est.config.samplingLevel,
        ((extractFeature ext est).heap j).value.statusOfMaximum = NodeStatus.MAXIMUM_FOUND ∧
        f.entropy = (est.heap j).value.entropy ∧ f.point = (est.heap j).closestPosition) ∧
      Flt.lt f.entropy est.config.minimumEntropy = false ∧
      (f.entropy ≠ Flt.nan → est.config.minimumEntropy ≠ Flt.nan →
        Flt.ge f.entropy est.config.minimumEntropy = true)) ∧
    (∀ i ∈ est.levelNodes est.config.samplingLevel,
      (est.heap i).value.statusOfMaximum ≠ NodeStatus.ARTIFICIAL →
      (est.heap i).value.statusOfMaximum ≠ NodeStatus.BACKGROUND →
      Flt.lt (est.heap i).value.entropy est.config.minimumEntropy = true →
      ((extractFeature ext est).heap i).value.statusOfMaximum
        = NodeStatus.MAXIMUM_NOT_POSSIBLE) ∧
    ((∀ i ∈ est.levelNodes est.config.samplingLevel,
        (est.heap i).value.entropy = Flt.fin 0) →
      Flt.gt est.config.minimumEntropy (Flt.fin 0) = true →
      appendedFeatures ext est = []) := by
  obtain ⟨new, hnew, hall⟩ := suppress_features ext (est.levelNodes est.config.samplingLevel)
    (est.thresholded ext)
  rw [← extractFeature_eq] at hnew hall
  have happ : appendedFeatures ext est = new := by
    unfold appendedFeatures
    rw [hnew]
    exact List.drop_left' rfl
  obtain ⟨ge, gp, _, _⟩ := extractThreshold_frame ext est.config
    (est.levelNodes est.config.samplingLevel) est.heap
  have hfeat : ∀ f ∈ new, ∃ j ∈ est.levelNodes est.config.samplingLevel,
      ((extractFeature ext est).heap j).value.statusOfMaximum = NodeStatus.MAXIMUM_FOUND ∧
      f.entropy = (est.heap j).value.entropy ∧ f.point = (est.heap j).closestPosition ∧
      Flt.lt f.entropy est.config.minimumEntropy = false := by
    intro f hf
    obtain ⟨j, hj, h1, h2, h3, h4, _, _⟩ := hall f hf
    refine ⟨j, hj, h2, h3.trans (ge j), h4.trans (gp j), ?_⟩
    rw [h3]
    exact extractThreshold_possible ext est.config est.heap _ j hj h1
  rw [happ]
  refine ⟨hnew, ?_, ?_, ?_⟩
  · intro f hf
    obtain ⟨j, hj, h1, h2, h3, h4⟩ := hfeat f hf
    exact ⟨⟨j, hj, h1, h2, h3⟩, h4, fun ha hb => Flt.ge_of_lt_eq_false _ _ ha hb h4⟩
  · intro i hi ha hb hlt
    have h1 := extractThreshold_below ext est.config est.heap _ i hi ha hb hlt
    have inv := SuppressInv.foldl ext _ (est.levelNodes est.config.samplingLevel) _
      (SuppressInv.refl ext (est.thresholded ext))
    rw [← extractFeature_eq] at inv
    rcases inv.status i with e | ⟨e, _⟩
    · rw [e]
      exact h1
    · have h1' : ((est.thresholded ext).heap i).value.statusOfMaximum
          = NodeStatus.MAXIMUM_NOT_POSSIBLE := h1
      rw [h1'] at e
      exact absurd e (by decide)
  · intro hzero hmin
    cases hn : new with
    | nil => rfl
    | cons f rest =>
      obtain ⟨j, hj, _, h2, _, h4⟩ := hfeat f (hn ▸ List.mem_cons_self f rest)
      rw [h2, hzero j hj, Flt.lt_zero_of_gt_zero _ hmin] at h4
      exact absurd h4 (by decide)

end

/-- Counterexample to C2 as stated: a single node whose entropy is `NaN` passes
the test `entropy < minimumEntropy` of stage 1, is marked Possible, becomes
Found and yields a Feature whose entropy `NaN` is not `>= minimumEntropy`. -/
theorem extractFeature_minimumEntropy_counterexample :
    (appendedFeatures (exampleExternals (lineQuery 1)) nanEstimator).map (fun f => f.entropy)
      = [Flt.nan] ∧
    Flt.ge Flt.nan nanEstimator.config.minimumEntropy = false := by
  decide!

section
variable {H D : Type}

/-- Without a cornerness threshold (`minimumCornerness3D > 0` false) a step of
stage 1 marks no node Possible. -/
theorem extractThresholdStep_marks_none (ext : Externals H D) (config : Configuration)
    (heap : Heap H) (i n : Nat) (hc : Flt.gt config.minimumCornerness3D (Flt.fin 0) = false)
    (h : (extractThresholdStep ext config heap i n).value.statusOfMaximum
      = NodeStatus.MAXIMUM_POSSIBLE) :
    (heap n).value.statusOfMaximum = NodeStatus.MAXIMUM_POSSIBLE := by
  rcases extractThresholdStep_cases ext config heap i with
    ⟨_, e⟩ | ⟨_, _, e⟩ | ⟨_, _, h3, _⟩ | ⟨_, _, _, e⟩
  · rwa [e] at h
  · rw [e] at h
    by_cases hn : n = i
    · subst hn
      rw [Function.update_same] at h
      exact absurd h (by simp [OctreeNode.setStatusOfMaximum])
    · rwa [Function.update_noteq hn] at h
  · rw [hc] at h3
    exact absurd h3.2 (by decide)
  · rwa [e] at h

/-- Without a cornerness threshold stage 1 marks no node Possible: a node is
Possible after it only if it was before. -/
theorem extractThreshold_marks_none (ext : Externals H D) (config : Configuration)
    (nodes : List Nat) (hc : Flt.gt config.minimumCornerness3D (Flt.fin 0) = false) :
    ∀ (heap : Heap H) (n : Nat),
      (extractThreshold ext config heap nodes n).value.statusOfMaximum
        = NodeStatus.MAXIMUM_POSSIBLE →
      (heap n).value.statusOfMaximum = NodeStatus.MAXIMUM_POSSIBLE := by
  induction nodes with
  | nil => exact fun _ _ h => h
  | cons i rest ih =>
    intro heap n h
    exact extractThresholdStep_marks_none ext config heap i n hc (ih _ n h)

end

/-- C4, the code at the failing input: with `minimumCornerness3D = 0` a node that
is NotCalculated and whose entropy 1 is at least `minimumEntropy = 0` is still
NotCalculated after stage 1 and after the whole of `extractFeature`, and no
feature is produced. -/
theorem extractFeature_without_cornerness_threshold :
    plainEstimator.config.minimumCornerness3D = Flt.fin 0 ∧
    (plainEstimator.heap 0).value.statusOfMaximum = NodeStatus.MAXIMUM_NOT_CALCULATED ∧
    Flt.ge (plainEstimator.heap 0).value.entropy plainEstimator.config.minimumEntropy = true ∧
    ((plainEstimator.thresholded (exampleExternals (lineQuery 1))).heap 0).value.statusOfMaximum
      = NodeStatus.MAXIMUM_NOT_CALCULATED ∧
    ((extractFeature (exampleExternals (lineQuery 1)) plainEstimator).heap 0).value.statusOfMaximum
      = NodeStatus.MAXIMUM_NOT_CALCULATED ∧
    (extractFeature (exampleExternals (lineQuery 1)) plainEstimator).features.length = 0 := by
  decide!

/-! ## Mean shift -/

section
variable {H D : Type}

/-- A list of artificial nodes has no contributing node. -/
theorem contributing_zero (heap : Heap H) (l : List Nat)
    (h : ∀ i ∈ l, (heap i).value.statusOfMaximum = NodeStatus.ARTIFICIAL) :
    contributing heap l = 0 := by
  induction l with
  | nil => rfl
  | cons j rest ih =>
    unfold contributing
    rw [if_pos (h j (List.mem_cons_self _ _))]
    exact ih (fun i hi => h i (List.mem_cons_of_mem _ hi))

end

section
variable {H D : Type}

theorem sum_sq_expand (qs : List ℚ) (m : ℚ) :
    (qs.map (fun q => (q - m) * (q - m))).sum =
      (qs.map (fun q => q * q)).sum - 2 * m * qs.sum + qs.length * (m * m) := by
  induction qs with
  | nil => simp
  | cons x rest ih =>
    simp only [List.map_cons, List.sum_cons, List.length_cons, Nat.cast_succ, ih]
    ring

end

/-- C9, the code at the failing input: around `(1, 0, 0)` the query returns the
nodes at `x = 0` and `x = 1/2`, of entropies 0 and 2, and the artificial node at
`x = 2`, of entropy 0.  All three get the same kernel weight, and the iteration
moves the feature to `x = 5/6`, the centroid of all three, where the centroid of
the two nodes that are not artificial is `x = 1/4`. -/
theorem meanShiftIteration_artificial_neighbour :
    (artificialEstimator.heap 2).value.statusOfMaximum = NodeStatus.ARTIFICIAL ∧
    meanShiftNeighbours (exampleExternals (boxQuery [0, 1 / 2, 2])) artificialEstimator
      ⟨Flt.fin 1, Flt.fin 0, Flt.fin 0⟩ = [0, 1, 2] ∧
    meanShiftIteration (exampleExternals (boxQuery [0, 1 / 2, 2])) artificialEstimator
      ⟨Flt.fin 1, Flt.fin 0, Flt.fin 0⟩ = ⟨Flt.fin (5 / 6), Flt.fin 0, Flt.fin 0⟩ ∧
    meanShiftUpdateNonArtificial (exampleExternals (boxQuery [0, 1 / 2, 2]))
      artificialEstimator.heap [0, 1, 2] ⟨Flt.fin 1, Flt.fin 0, Flt.fin 0⟩
      = ⟨Flt.fin (1 / 4), Flt.fin 0, Flt.fin 0⟩ := by
  decide!

/-! ## Entropy -/

section
variable {H D : Type}

theorem freshEntropyHistogram_populated (ext : Externals H D) (node : OctreeNode H) :
    Populated ext (freshEntropyHistogram ext node) := by
  unfold freshEntropyHistogram
  split
  · exact Populated.clear _
  · exact Populated.allocate

theorem mergeNormalHistograms_populated (ext : Externals H D) (heap : Heap H) (l : List Nat) :
    ∀ h, Populated ext h → Populated ext (mergeNormalHistograms ext heap l h) := by
  induction l with
  | nil => exact fun _ hp => hp
  | cons n rest ih =>
    intro h hp
    unfold mergeNormalHistograms
    split
    · split_ifs
      · exact ih _ (Populated.merge _ _ hp)
      · exact ih _ hp
    · exact ih _ hp

theorem insertReferenceCrossProducts_populated (ext : Externals H D) (config : Configuration)
    (heap : Heap H) (refNormal : Vector3f) (l : List Nat) :
    ∀ h, Populated ext h →
      Populated ext (insertReferenceCrossProducts ext config heap refNormal l h) := by
  induction l with
  | nil => exact fun _ hp => hp
  | cons n rest ih =>
    intro h hp
    unfold insertReferenceCrossProducts
    split_ifs
    · exact ih _ (Populated.insertCrossProduct _ _ _ _ hp)
    · exact ih _ hp

theorem insertPairsWith_populated (ext : Externals H D) (config : Configuration)
    (heap : Heap H) (first : Nat) (l : List Nat) :
    ∀ h, Populated ext h → Populated ext (insertPairsWith ext config heap first l h) := by
  induction l with
  | nil => exact fun _ hp => hp
  | cons n rest ih =>
    intro h hp
    unfold insertPairsWith
    split_ifs
    · exact ih _ (Populated.insertCrossProduct _ _ _ _ hp)
    · exact ih _ hp

theorem insertPairwiseCrossProducts_populated (ext : Externals H D) (config : Configuration)
    (heap : Heap H) (l : List Nat) :
    ∀ h, Populated ext h → Populated ext (insertPairwiseCrossProducts ext config heap l h) := by
  induction l with
  | nil => exact fun _ hp => hp
  | cons n rest ih =>
    intro h hp
    unfold insertPairwiseCrossProducts
    exact ih _ (insertPairsWith_populated ext config heap n rest _ hp)

/-- What `storeEntropy` leaves: the node populated, its point count and every
other node as before. -/
theorem storeEntropy_spec (ext : Externals H D) (heap : Heap H) (i : Nat) (h : H)
    (hp : Populated ext h) :
    EntropyPopulated ext (storeEntropy ext heap i h i) ∧
    (storeEntropy ext heap i h i).numPoints = (heap i).numPoints ∧
    ∀ n, n ≠ i → storeEntropy ext heap i h n = heap n := by
  refine ⟨⟨h, hp, ?_, ?_⟩, ?_, ?_⟩
  · simp [storeEntropy]
  · simp [storeEntropy]
  · simp [storeEntropy]
  · intro n hn
    simp [storeEntropy, Function.update_noteq hn]

/-- The radius variant of `calculateNormal` leaves the entropy histogram, the
entropy and the point count of the node, and every other node, as they were. -/
theorem calculateNormalRadius_frame (ext : Externals H D) (so : Vector3f) (heap : Heap H)
    (i : Nat) (radius minResolution : Flt) :
    ((calculateNormalRadius ext so heap i radius minResolution).2 i).value.entropyHistogram
      = (heap i).value.entropyHistogram ∧
    ((calculateNormalRadius ext so heap i radius minResolution).2 i).value.entropy
      = (heap i).value.entropy ∧
    ((calculateNormalRadius ext so heap i radius minResolution).2 i).numPoints
      = (heap i).numPoints ∧
    ∀ n, n ≠ i → (calculateNormalRadius ext so heap i radius minResolution).2 n = heap n := by
  unfold calculateNormalRadius
  dsimp only
  split_ifs
  · refine ⟨by simp, by simp, by simp, fun n hn => ?_⟩
    simp [Function.update_noteq hn]
  · refine ⟨by simp, by simp, by simp, fun n hn => ?_⟩
    simp [Function.update_noteq hn]

/-- The step of `calculateEntropy` in the normal-histogram and in the pairwise
mode, on a node with points. -/
theorem calculateEntropyStep_populated (ext : Externals H D) (config : Configuration)
    (so : Vector3f) (heap : Heap H) (i : Nat)
    (hm : config.entropyMode ≠ EntropyMode.CROSSPRODUCTS_ALL_NORMALS_WITH_MAIN_NORMAL)
    (hn : 0 < (heap i).numPoints) :
    EntropyPopulated ext (calculateEntropyStep ext config so heap i i) ∧
    (calculateEntropyStep ext config so heap i i).numPoints = (heap i).numPoints := by
  unfold calculateEntropyStep
  rw [if_pos hn]
  cases hmode : config.entropyMode with
  | NORMALS =>
    have := storeEntropy_spec ext heap i _
      (mergeNormalHistograms_populated ext heap (histogramNeighbours ext config heap i) _
        (freshEntropyHistogram_populated ext (heap i)))
    exact ⟨this.1, this.2.1⟩
  | CROSSPRODUCTS_ALL_NORMALS_WITH_MAIN_NORMAL => exact absurd hmode hm
  | CROSSPRODUCTS_ALL_NORMALS_PAIRWISE =>
    have := storeEntropy_spec ext heap i _
      (insertPairwiseCrossProducts_populated ext config heap
        (histogramNeighbours ext config heap i) _
        (freshEntropyHistogram_populated ext (heap i)))
    exact ⟨this.1, this.2.1⟩

theorem storeEntropy_other (ext : Externals H D) (heap : Heap H) (i : Nat) (h : H) (n : Nat)
    (hne : n ≠ i) : storeEntropy ext heap i h n = heap n := by
  simp [storeEntropy, Function.update_noteq hne]

/-- The step of `calculateEntropy` on a node leaves every other node as it was. -/
theorem calculateEntropyStep_other (ext : Externals H D) (config : Configuration)
    (so : Vector3f) (heap : Heap H) (i n : Nat) (hne : n ≠ i) :
    calculateEntropyStep ext config so heap i n = heap n := by
  unfold calculateEntropyStep
  split_ifs with hn
  · cases hmode : config.entropyMode with
    | NORMALS => exact storeEntropy_other ext heap i _ n hne
    | CROSSPRODUCTS_ALL_NORMALS_WITH_MAIN_NORMAL =>
      show calculateCrossProductEntropy ext config so heap i n = heap n
      unfold calculateCrossProductEntropy
      dsimp only
      split_ifs
      · rw [storeEntropy_other ext _ i _ n hne]
        exact (calculateNormalRadius_frame ext so heap i _ _).2.2.2 n hne
      · exact (calculateNormalRadius_frame ext so heap i _ _).2.2.2 n hne
    | CROSSPRODUCTS_ALL_NORMALS_PAIRWISE => exact storeEntropy_other ext heap i _ n hne
  · rfl

/-- The step of `calculateEntropy` in the reference cross-product mode, on a node
with points: the node is populated when its normal can be calculated, and its
entropy histogram and entropy are left as they were when it cannot. -/
theorem calculateEntropyStep_crossProduct (ext : Externals H D) (config : Configuration)
    (so : Vector3f) (heap : Heap H) (i : Nat)
    (hm : config.entropyMode = EntropyMode.CROSSPRODUCTS_ALL_NORMALS_WITH_MAIN_NORMAL)
    (hn : 0 < (heap i).numPoints) :
    ((calculateNormalRadius ext so heap i config.histogramRadius
        ext.defaultMinResolution).1 = true →
      EntropyPopulated ext (calculateEntropyStep ext config so heap i i)) ∧
    ((calculateNormalRadius ext so heap i config.histogramRadius
        ext.defaultMinResolution).1 = false →
      (calculateEntropyStep ext config so heap i i).value.entropyHistogram
        = (heap i).value.entropyHistogram ∧
      (calculateEntropyStep ext config so heap i i).value.entropy = (heap i).value.entropy) := by
  have hstep : calculateEntropyStep ext config so heap i
      = calculateCrossProductEntropy ext config so heap i := by
    unfold calculateEntropyStep
    rw [if_pos hn, hm]
  rw [hstep]
  unfold calculateCrossProductEntropy
  dsimp only
  constructor
  · intro hok
    rw [if_pos hok]
    exact (storeEntropy_spec ext _ i _
      (insertReferenceCrossProducts_populated ext config _ _ _ _
        (freshEntropyHistogram_populated ext _))).1
  · intro hok
    rw [if_neg (by rw [hok]; decide)]
    exact ⟨(calculateNormalRadius_frame ext so heap i _ _).1,
      (calculateNormalRadius_frame ext so heap i _ _).2.1⟩

/-- C10, as amended: after `calculateEntropy` in the normal-histogram and in the
pairwise cross-product mode, every node of the sampling level with
`numPoints > 0` owns an entropy histogram that was populated from scratch and
its entropy is the entropy computed from that histogram; in the reference
cross-product mode this holds of a node after its visit when the radius-based
estimation of its normal succeeds, and when that fails the visit leaves the
entropy histogram and the entropy of the node as they were. -/
theorem calculateEntropy_histogram (ext : Externals H D) (est : SURE_Estimator H D) :
    (est.config.entropyMode ≠ EntropyMode.CROSSPRODUCTS_ALL_NORMALS_WITH_MAIN_NORMAL →
      ∀ i ∈ est.levelNodes est.config.samplingLevel, 0 < (est.heap i).numPoints →
        EntropyPopulated ext ((calculateEntropy ext est).heap i)) ∧
    (est.config.entropyMode = EntropyMode.CROSSPRODUCTS_ALL_NORMALS_WITH_MAIN_NORMAL →
      ∀ (heap : Heap H) (i : Nat), 0 < (heap i).numPoints →
        ((calculateNormalRadius ext est.sensor_origin heap i est.config.histogramRadius
            ext.defaultMinResolution).1 = true →
          EntropyPopulated ext
            (calculateEntropyStep ext est.config est.sensor_origin heap i i)) ∧
        ((calculateNormalRadius ext est.sensor_origin heap i est.config.histogramRadius
            ext.defaultMinResolution).1 = false →
          (calculateEntropyStep ext est.config est.sensor_origin heap i i).value.entropyHistogram
            = (heap i).value.entropyHistogram ∧
          (calculateEntropyStep ext est.config est.sensor_origin heap i i).value.entropy
            = (heap i).value.entropy)) := by
  constructor
  · intro hm i hi hn
    have key := foldl_visit (calculateEntropyStep ext est.config est.sensor_origin)
      (fun s : Heap H => (s i).numPoints = (est.heap i).numPoints)
      (fun s : Heap H => EntropyPopulated ext (s i) ∧ (s i).numPoints = (est.heap i).numPoints)
      i
      (fun s j hj hs => by
        beta_reduce at hs ⊢
        rw [calculateEntropyStep_other ext est.config est.sensor_origin s j i (Ne.symm hj)]
        exact hs)
      (fun s hs => by
        beta_reduce at hs ⊢
        have := calculateEntropyStep_populated ext est.config est.sensor_origin s i hm
          (by rw [hs]; exact hn)
        exact ⟨this.1, this.2.trans hs⟩)
      (fun s j hs => by
        beta_reduce at hs ⊢
        by_cases hj : j = i
        · subst hj
          have := calculateEntropyStep_populated ext est.config est.sensor_origin s j hm
            (by rw [hs.2]; exact hn)
          exact ⟨this.1, this.2.trans hs.2⟩
        · rw [calculateEntropyStep_other ext est.config est.sensor_origin s j i (Ne.symm hj)]
          exact hs)
      (est.levelNodes est.config.samplingLevel) est.heap hi rfl
    exact key.1
  · intro hm heap i hn
    exact calculateEntropyStep_crossProduct ext est.config est.sensor_origin heap i hm hn

end

/-- Counterexample to C10 as stated: in the reference cross-product mode a node
with one point whose neighbourhood holds too few points for a normal is left
without an entropy histogram by `calculateEntropy`. -/
theorem calculateEntropy_histogram_counterexample :
    crossProductEstimator.config.entropyMode
      = EntropyMode.CROSSPRODUCTS_ALL_NORMALS_WITH_MAIN_NORMAL ∧
    crossProductEstimator.levelNodes crossProductEstimator.config.samplingLevel = [0] ∧
    (crossProductEstimator.heap 0).numPoints = 1 ∧
    ((calculateEntropy (exampleExternals (lineQuery 1)) crossProductEstimator).heap
      0).value.entropyHistogram = none := by
  decide!

/-! ## The matrix of the normal estimation -/

section
variable {H D : Type}

theorem Flt.mul_swap (a b : Flt) : Flt.mul a b = Flt.mul b a := by
  cases a <;> cases b <;> simp [Flt.mul]
  ring

/-- Multiplying by `1.f / (float) n` is dividing by `(float) n`, also when `n` is
zero or the value is not finite. -/
theorem Flt.mul_inv_ofNat (a : Flt) (n : Nat) :
    Flt.mul a (Flt.div (Flt.fin 1) (Flt.ofNat n)) = Flt.div a (Flt.ofNat n) := by
  by_cases hn : (n : ℚ) = 0
  · have hinv : Flt.div (Flt.fin 1) (Flt.ofNat n) = Flt.pinf := by
      simp [Flt.div, Flt.ofNat, hn]
    rw [hinv]
    cases a <;> simp [Flt.mul, Flt.div, Flt.ofNat, hn, Flt.infTimes, Flt.neg]
  · have hinv : Flt.div (Flt.fin 1) (Flt.ofNat n) = Flt.fin (1 / (n : ℚ)) := by
      simp only [Flt.div, Flt.ofNat, if_neg hn]
    have hpos : (0 : ℚ) < n := lt_of_le_of_ne (Nat.cast_nonneg n) (Ne.symm hn)
    have hinvpos : (0 : ℚ) < 1 / (n : ℚ) := by positivity
    rw [hinv]
    cases a with
    | nan => rfl
    | ninf =>
      simp only [Flt.mul, Flt.div, Flt.ofNat, Flt.infTimes, if_neg (ne_of_gt hinvpos),
        if_pos hinvpos, if_pos (le_of_lt hpos)]
    | pinf =>
      simp only [Flt.mul, Flt.div, Flt.ofNat, Flt.infTimes, if_neg (ne_of_gt hinvpos),
        if_pos hinvpos, if_pos (le_of_lt hpos)]
    | fin q =>
      simp only [Flt.mul, Flt.div, Flt.ofNat, if_neg hn]
      congr 1
      field_simp

/-- C20, as amended: for every statistics value and count `n`, the matrix that
the core `calculateNormal` passes to the eigen-decomposition is `1/n` times the
covariance `(1/n) * SumProducts - mean * mean^T` with `mean = summedPos / n`; for
`n >= MINIMUM_POINTS_FOR_NORMAL` and a finite matrix the core succeeds exactly
when the eigenvector that the solver returns for this matrix is finite. -/
theorem normalMatrix_scaled_covariance (ext : Externals H D) (sensor_origin : Vector3f)
    (value : OctreeValue H) (n : Nat) (normal pos : Vector3f) (histogram : Option H) :
    normalMatrix value n = (covariance value n).scale (Flt.div (Flt.fin 1) (Flt.ofNat n)) ∧
    (ext.MINIMUM_POINTS_FOR_NORMAL ≤ n →
      is_finite ((covariance value n).scale (Flt.div (Flt.fin 1) (Flt.ofNat n))) = true →
      (calculateNormalCore ext sensor_origin value n normal pos histogram).success =
        (Flt.isFinite (ext.eigen33
            ((covariance value n).scale (Flt.div (Flt.fin 1) (Flt.ofNat n)))).2.x &&
          Flt.isFinite (ext.eigen33
            ((covariance value n).scale (Flt.div (Flt.fin 1) (Flt.ofNat n)))).2.y &&
          Flt.isFinite (ext.eigen33
            ((covariance value n).scale (Flt.div (Flt.fin 1) (Flt.ofNat n)))).2.z)) := by
  have hM : normalMatrix value n
      = (covariance value n).scale (Flt.div (Flt.fin 1) (Flt.ofNat n)) := by
    simp only [normalMatrix, covariance, Matrix3f.scale, Matrix3f.smul, Matrix3f.sub,
      Matrix3f.map, Matrix3f.zipWith, Matrix3f.outer, Vector3f.scale, Flt.mul_inv_ofNat,
      Flt.mul_swap (Flt.div (Flt.fin 1) (Flt.ofNat n))]
  refine ⟨hM, ?_⟩
  intro hn hfin
  rw [← hM] at hfin ⊢
  unfold calculateNormalCore
  simp only [hn, if_true, hfin, Bool.not_true, Bool.false_eq_true, if_false]
  split_ifs with h
  · simp [h]
  · simp only [Bool.and_eq_true, not_and] at h ⊢
    cases hx : Flt.isFinite (ext.eigen33 (normalMatrix value n)).2.x <;>
    cases hy : Flt.isFinite (ext.eigen33 (normalMatrix value n)).2.y <;>
    cases hz : Flt.isFinite (ext.eigen33 (normalMatrix value n)).2.z <;>
    simp_all

end

/-- Counterexample to C20 as stated: for four points with `Σ x^2 = 16` and all
other sums zero the covariance has the entry 4 at `(0,0)`, and the matrix passed
to the eigen-decomposition has the entry 1 there. -/
theorem normalMatrix_covariance_counterexample :
    (exampleExternals (lineQuery 1)).MINIMUM_POINTS_FOR_NORMAL ≤ 4 ∧
    (covariance squareValue 4).m00 = Flt.fin 4 ∧
    (normalMatrix squareValue 4).m00 = Flt.fin 1 ∧
    normalMatrix squareValue 4 ≠ covariance squareValue 4 := by
  decide!

/-! ## `localizeFeatureWithMeanShift` and `getInterestPoints` -/

section
variable {H D : Type}

theorem localizeFeature_of_radius_ne (ext : Externals H D) (est : SURE_Estimator H D)
    (iterations : Nat) (f : Feature D)
    (h : Flt.fne f.radius est.config.histogramRadius = true) :
    localizeFeature ext est iterations f = f := by
  simp [localizeFeature, h]

theorem localizeFeature_kept (ext : Externals H D) (est : SURE_Estimator H D)
    (iterations : Nat) (f : Feature D) :
    (localizeFeature ext est iterations f).radius = f.radius ∧
    (localizeFeature ext est iterations f).entropy = f.entropy ∧
    (localizeFeature ext est iterations f).pointCloudIndex = f.pointCloudIndex := by
  unfold localizeFeature
  split_ifs
  · exact ⟨rfl, rfl, rfl⟩
  · exact ⟨createDescriptor_radius _ _ _, createDescriptor_entropy _ _ _,
      createDescriptor_pointCloudIndex _ _ _⟩

/-- C19: `localizeFeatureWithMeanShift` keeps the number and the order of the
Features (the Feature at index `i` afterwards is the image of the Feature at
index `i` before, with the same radius, entropy and point cloud index), leaves
every Feature whose radius differs from `config.histogramRadius` (the test `!=`
of line 889) completely unchanged, and touches neither the nodes, the sampling
map nor the configuration. -/
theorem localizeFeatureWithMeanShift_frame (ext : Externals H D) (est : SURE_Estimator H D)
    (iterations : Nat) :
    (localizeFeatureWithMeanShift ext est iterations).features.length = est.features.length ∧
    (∀ (i : Nat) (f : Feature D), est.features[i]? = some f →
      Flt.fne f.radius est.config.histogramRadius = true →
      (localizeFeatureWithMeanShift ext est iterations).features[i]? = some f) ∧
    (∀ (i : Nat) (f : Feature D), est.features[i]? = some f →
      ∃ g, (localizeFeatureWithMeanShift ext est iterations).features[i]? = some g ∧
        g = localizeFeature ext est iterations f ∧
        g.radius = f.radius ∧ g.entropy = f.entropy ∧
        g.pointCloudIndex = f.pointCloudIndex) ∧
    (localizeFeatureWithMeanShift ext est iterations).heap = est.heap ∧
    (localizeFeatureWithMeanShift ext est iterations).octreeMap = est.octreeMap ∧
    (localizeFeatureWithMeanShift ext est iterations).config = est.config := by
  refine ⟨?_, ?_, ?_, rfl, rfl, rfl⟩
  · simp [localizeFeatureWithMeanShift]
  · intro i f hf hr
    simp only [localizeFeatureWithMeanShift, List.getElem?_map, hf, Option.map_some']
    rw [localizeFeature_of_radius_ne ext est iterations f hr]
  · intro i f hf
    refine ⟨localizeFeature ext est iterations f, ?_, rfl, localizeFeature_kept ext est iterations f⟩
    simp only [localizeFeatureWithMeanShift, List.getElem?_map, hf, Option.map_some']

/-- C17: `getInterestPoints` returns as many interest points as there are
Features, in the same order: the interest point at index `i` has the
coordinates of the position of the Feature at index `i` and its entropy as
strength.  The method is `const`: it returns the cloud and nothing else, the
Feature list of the instance stays what it was. -/
theorem getInterestPoints_spec (inst : SURE_Instance H D) :
    (getInterestPoints inst).points.length = inst.features.length ∧
    (∀ (i : Nat) (f : Feature D), inst.features[i]? = some f →
      (getInterestPoints inst).points[i]? =
        some (InterestPoint.mk f.point.x f.point.y f.point.z f.entropy)) ∧
    (∀ i : Nat, inst.features[i]? = none → (getInterestPoints inst).points[i]? = none) ∧
    (getInterestPoints inst).header = inst.header := by
  refine ⟨?_, ?_, ?_, rfl⟩
  · simp [getInterestPoints]
  · intro i f hf
    simp only [getInterestPoints, List.getElem?_map, hf, Option.map_some']
  · intro i hf
    simp only [getInterestPoints, List.getElem?_map, hf, Option.map_none']

end

/-! ## The variants of `calculateNormal` -/

section
variable {H D : Type}

/-- The core `calculateNormal` returns true exactly when there are enough
points, the matrix is finite and the eigenvector is finite. -/
theorem calculateNormalCore_success_iff (ext : Externals H D) (so : Vector3f)
    (value : OctreeValue H) (count : Nat) (normal pos : Vector3f) (histogram : Option H) :
    (calculateNormalCore ext so value count normal pos histogram).success = true ↔
      CoreSucceeds ext value count := by
  unfold calculateNormalCore CoreSucceeds
  by_cases hn : ext.MINIMUM_POINTS_FOR_NORMAL ≤ count
  · cases hf : is_finite (normalMatrix value count)
    · simp [hn, hf]
    · by_cases he : (Flt.isFinite (ext.eigen33 (normalMatrix value count)).2.x &&
          Flt.isFinite (ext.eigen33 (normalMatrix value count)).2.y &&
          Flt.isFinite (ext.eigen33 (normalMatrix value count)).2.z) = true
      · simp only [hn, if_true, hf, Bool.not_true, Bool.false_eq_true, if_false, he]
        simp only [Bool.and_eq_true] at he
        simp [he.1.1, he.1.2, he.2]
      · simp only [hn, if_true, hf, Bool.not_true, Bool.false_eq_true, if_false, he]
        simp only [Bool.and_eq_true] at he
        simp only [Bool.false_eq_true, true_and, false_iff]
        intro h
        exact he ⟨⟨h.1, h.2.1⟩, h.2.2⟩
  · simp [hn]

/-- What a successful core `calculateNormal` leaves: the status Stable in the
value and the oriented normal. -/
theorem calculateNormalCore_of_success (ext : Externals H D) (so : Vector3f)
    (value : OctreeValue H) (count : Nat) (normal pos : Vector3f) (histogram : Option H)
    (h : CoreSucceeds ext value count) :
    (calculateNormalCore ext so value count normal pos histogram).value.statusOfNormal =
      NormalStatus.NORMAL_STABLE ∧
    (calculateNormalCore ext so value count normal pos histogram).normal =
      orientedNormal ext so value count pos := by
  obtain ⟨hn, hf, hx, hy, hz⟩ := h
  unfold calculateNormalCore orientedNormal
  simp [hn, hf, hx, hy, hz]

/-- A failing core `calculateNormal` leaves the value record as it was: no status
is written. -/
theorem calculateNormalCore_of_failure (ext : Externals H D) (so : Vector3f)
    (value : OctreeValue H) (count : Nat) (normal pos : Vector3f) (histogram : Option H)
    (h : (calculateNormalCore ext so value count normal pos histogram).success = false) :
    (calculateNormalCore ext so value count normal pos histogram).value = value := by
  unfold calculateNormalCore at h ⊢
  by_cases hn : ext.MINIMUM_POINTS_FOR_NORMAL ≤ count
  · cases hf : is_finite (normalMatrix value count)
    · simp [hn, hf]
    · by_cases he : (Flt.isFinite (ext.eigen33 (normalMatrix value count)).2.x &&
          Flt.isFinite (ext.eigen33 (normalMatrix value count)).2.y &&
          Flt.isFinite (ext.eigen33 (normalMatrix value count)).2.z) = true
      · simp only [hn, if_true, hf, Bool.not_true, Bool.false_eq_true, if_false, he] at h
        exact absurd h (by simp)
      · simp only [hn, if_true, hf, Bool.not_true, Bool.false_eq_true, if_false, he]
  · simp [hn]

/-- C11: the radius variant `calculateNormal(node, radius, minResolution)` always
leaves the status of the normal of the node in Stable or Unstable.  It returns
true exactly when the core estimation on the aggregated statistics succeeds
(count not below MINIMUM_POINTS_FOR_NORMAL, finite matrix, finite eigenvector),
the status is Stable exactly then, and the normal of the node then is the
oriented normal; in every other case it returns false and the status is
Unstable. -/
theorem calculateNormalRadius_status (ext : Externals H D) (so : Vector3f) (heap : Heap H)
    (node : Nat) (radius minResolution : Flt) :
    (((calculateNormalRadius ext so heap node radius minResolution).2 node).value.statusOfNormal
        = NormalStatus.NORMAL_STABLE ∨
      ((calculateNormalRadius ext so heap node radius minResolution).2 node).value.statusOfNormal
        = NormalStatus.NORMAL_UNSTABLE) ∧
    ((calculateNormalRadius ext so heap node radius minResolution).1 = true ↔
      CoreSucceeds ext (aggregateAround ext heap node radius minResolution).1
        (aggregateAround ext heap node radius minResolution).2) ∧
    (CoreSucceeds ext (aggregateAround ext heap node radius minResolution).1
        (aggregateAround ext heap node radius minResolution).2 →
      ((calculateNormalRadius ext so heap node radius minResolution).2 node).value.statusOfNormal
        = NormalStatus.NORMAL_STABLE ∧
      ((calculateNormalRadius ext so heap node radius minResolution).2 node).value.normal
        = orientedNormal ext so (aggregateAround ext heap node radius minResolution).1
            (aggregateAround ext heap node radius minResolution).2 (heap node).closestPosition) ∧
    (¬ CoreSucceeds ext (aggregateAround ext heap node radius minResolution).1
        (aggregateAround ext heap node radius minResolution).2 →
      (calculateNormalRadius ext so heap node radius minResolution).1 = false ∧
      ((calculateNormalRadius ext so heap node radius minResolution).2 node).value.statusOfNormal
        = NormalStatus.NORMAL_UNSTABLE) := by
  have key := calculateNormalCore_success_iff ext so
    (aggregateAround ext heap node radius minResolution).1
    (aggregateAround ext heap node radius minResolution).2
    (heap node).value.normal (heap node).closestPosition (heap node).value.normalHistogram
  by_cases hc : CoreSucceeds ext (aggregateAround ext heap node radius minResolution).1
      (aggregateAround ext heap node radius minResolution).2
  · have hs := key.2 hc
    have ho := calculateNormalCore_of_success ext so _ _ (heap node).value.normal
      (heap node).closestPosition (heap node).value.normalHistogram hc
    have hres : (calculateNormalRadius ext so heap node radius minResolution).1 = true ∧
        ((calculateNormalRadius ext so heap node radius minResolution).2 node).value.statusOfNormal
          = NormalStatus.NORMAL_STABLE ∧
        ((calculateNormalRadius ext so heap node radius minResolution).2 node).value.normal
          = orientedNormal ext so (aggregateAround ext heap node radius minResolution).1
            (aggregateAround ext heap node radius minResolution).2
            (heap node).closestPosition := by
      unfold calculateNormalRadius
      unfold aggregateAround at hs ho ⊢
      simp only [hs, if_true, Function.update_same]
      exact ⟨trivial, ho.1, ho.2⟩
    exact ⟨Or.inl hres.2.1, ⟨fun _ => hc, fun _ => hres.1⟩, fun _ => hres.2,
      fun h => absurd hc h⟩
  · have hs : (calculateNormalCore ext so
        (aggregateAround ext heap node radius minResolution).1
        (aggregateAround ext heap node radius minResolution).2
        (heap node).value.normal (heap node).closestPosition
        (heap node).value.normalHistogram).success = false := by
      cases h : (calculateNormalCore ext so
        (aggregateAround ext heap node radius minResolution).1
        (aggregateAround ext heap node radius minResolution).2
        (heap node).value.normal (heap node).closestPosition
        (heap node).value.normalHistogram).success
      · rfl
      · exact absurd (key.1 h) hc
    have hres : (calculateNormalRadius ext so heap node radius minResolution).1 = false ∧
        ((calculateNormalRadius ext so heap node radius minResolution).2 node).value.statusOfNormal
          = NormalStatus.NORMAL_UNSTABLE := by
      unfold calculateNormalRadius
      unfold aggregateAround at hs
      simp only [hs, Bool.false_eq_true, if_false, Function.update_same]
      exact ⟨trivial, trivial⟩
    refine ⟨Or.inr hres.2, ⟨fun h => ?_, fun h => absurd h hc⟩, fun h => absurd h hc,
      fun _ => hres⟩
    rw [hres.1] at h
    exact absurd h (by simp)

end

/-! ## Failures of the normal estimation in `calculateNormals` -/

section
variable {H D : Type}

/-- When the in-node variant `calculateNormal(node)` fails, the status of the
normal of the node is what it was before the call. -/
theorem calculateNormalInNode_failure_status (ext : Externals H D) (so : Vector3f)
    (node : OctreeNode H) (h : (calculateNormalInNode ext so node).1 = false) :
    (calculateNormalInNode ext so node).2.value.statusOfNormal = node.value.statusOfNormal := by
  unfold calculateNormalInNode at h ⊢
  simp only at h ⊢
  rw [calculateNormalCore_of_failure ext so _ _ _ _ _ h]

end

/-- C12, the divergence: in the in-node mode of `calculateNormals` (here
`normalScale = 1` is below the node size 2 of the level) a node of four points,
at least MINIMUM_POINTS_FOR_NORMAL = 3, whose estimation fails is not marked
Unstable: with a non-finite matrix entry its status stays NotCalculated and its
normal is untouched, with a non-finite eigenvector its status stays
NotCalculated and its normal is zeroed.  In the radius mode (node size 1/2) the
same two nodes are marked Unstable. -/
theorem calculateNormals_inNode_failure_not_unstable :
    nodeStatsExternals.MINIMUM_POINTS_FOR_NORMAL ≤ overflowNode.numPoints ∧
    is_finite (normalMatrix overflowNode.value overflowNode.numPoints) = false ∧
    ((calculateNormals nodeStatsExternals (normalsInstance overflowNode (Flt.fin 2))).heap 0
      ).value.statusOfNormal = NormalStatus.NORMAL_NOT_CALCULATED ∧
    ((calculateNormals nodeStatsExternals (normalsInstance overflowNode (Flt.fin 2))).heap 0
      ).value.normal = ⟨Flt.fin 0, Flt.fin 0, Flt.fin 1⟩ ∧
    nanSolverExternals.MINIMUM_POINTS_FOR_NORMAL ≤ squareNode.numPoints ∧
    is_finite (normalMatrix squareNode.value squareNode.numPoints) = true ∧
    ((calculateNormals nanSolverExternals (normalsInstance squareNode (Flt.fin 2))).heap 0
      ).value.statusOfNormal = NormalStatus.NORMAL_NOT_CALCULATED ∧
    ((calculateNormals nanSolverExternals (normalsInstance squareNode (Flt.fin 2))).heap 0
      ).value.normal = Vector3f.zero ∧
    ((calculateNormals nodeStatsExternals
        (normalsInstance overflowNode (Flt.fin (1 / 2)))).heap 0
      ).value.statusOfNormal = NormalStatus.NORMAL_UNSTABLE ∧
    ((calculateNormals nanSolverExternals
        (normalsInstance squareNode (Flt.fin (1 / 2)))).heap 0
      ).value.statusOfNormal = NormalStatus.NORMAL_UNSTABLE ∧
    ((calculateNormals nanSolverExternals
        (normalsInstance squareNode (Flt.fin (1 / 2)))).heap 0
      ).value.normal = Vector3f.zero := by
  decide!

/-! ## The degenerate cases of `calculateCornerness` -/

section
variable {H D : Type}

theorem calculateCornerness_eq (ext : Externals H D) (nodes : List (OctreeNode H)) :
    calculateCornerness ext nodes =
      if Flt.gt (cornernessWeight nodes) (Flt.fin 0) then
        Flt.div (ext.eigen33Values (cornernessCovariance nodes)).x
          (ext.eigen33Values (cornernessCovariance nodes)).z
      else Flt.pinf := rfl

theorem cornernessSums_zero_entropy (nodes : List (OctreeNode H))
    (h : ∀ n ∈ nodes, n.value.entropy = Flt.fin 0) (acc : Vector3f × Flt) :
    cornernessSums nodes acc = acc := by
  induction nodes generalizing acc with
  | nil => rfl
  | cons n rest ih =>
    have hn : n.value.entropy = Flt.fin 0 := h n (List.mem_cons_self _ _)
    have hne : Flt.fne n.value.entropy (Flt.fin 0) = false := by
      rw [hn]; simp [Flt.fne, Flt.feq]
    obtain ⟨mean, sumWeight⟩ := acc
    rw [cornernessSums]
    simp only [hne, Bool.false_eq_true, if_false]
    exact ih (fun m hm => h m (List.mem_cons_of_mem _ hm)) _

theorem Flt.lt_pinf_left (a : Flt) : Flt.lt Flt.pinf a = false := by
  cases a <;> rfl

/-- C13: `calculateCornerness` returns `+INFINITY` for every node list whose sum
of entropy weights is not positive (the test `sumWeight > 0.f` is false), in
particular for the empty list and for a list in which every node has entropy
0; and a node that reaches the corner filter of stage 1 (status NotCalculated,
entropy not below the minimum, `minimumCornerness3D > 0`) and whose neighbours
within `histogramRadius` have such a sum of weights is marked Possible, not
NotPossible, whatever the threshold is, and holds the cornerness `+INFINITY`. -/
theorem calculateCornerness_no_weight (ext : Externals H D) :
    (∀ nodes : List (OctreeNode H), Flt.gt (cornernessWeight nodes) (Flt.fin 0) = false →
      calculateCornerness ext nodes = Flt.pinf) ∧
    calculateCornerness ext ([] : List (OctreeNode H)) = Flt.pinf ∧
    (∀ nodes : List (OctreeNode H), (∀ n ∈ nodes, n.value.entropy = Flt.fin 0) →
      calculateCornerness ext nodes = Flt.pinf) ∧
    (∀ (config : Configuration) (heap : Heap H) (i : Nat),
      (heap i).value.statusOfMaximum = NodeStatus.MAXIMUM_NOT_CALCULATED →
      Flt.lt (heap i).value.entropy config.minimumEntropy = false →
      Flt.gt config.minimumCornerness3D (Flt.fin 0) = true →
      Flt.gt (cornernessWeight
        ((ext.getAllNodesInVolumeOnSamplingDepth
          (boxMin (heap i).closestPosition config.histogramRadius)
          (boxMax (heap i).closestPosition config.histogramRadius)
          config.samplingLevel).map heap)) (Flt.fin 0) = false →
      ((extractThresholdStep ext config heap i) i).value.statusOfMaximum
          = NodeStatus.MAXIMUM_POSSIBLE ∧
        ((extractThresholdStep ext config heap i) i).value.statusOfMaximum
          ≠ NodeStatus.MAXIMUM_NOT_POSSIBLE ∧
        ((extractThresholdStep ext config heap i) i).value.cornerness3D = Flt.pinf) := by
  have h1 : ∀ nodes : List (OctreeNode H),
      Flt.gt (cornernessWeight nodes) (Flt.fin 0) = false →
      calculateCornerness ext nodes = Flt.pinf := by
    intro nodes h
    rw [calculateCornerness_eq, h]
    simp
  refine ⟨h1, h1 [] rfl, ?_, ?_⟩
  · intro nodes h
    apply h1
    unfold cornernessWeight
    rw [cornernessSums_zero_entropy nodes h]
    rfl
  · intro config heap i hs he hc hw
    have hinf : cornernessAt ext config heap i = Flt.pinf := h1 _ hw
    have hstep : extractThresholdStep ext config heap i
        = Function.update heap i
            (((heap i).setCornerness3D Flt.pinf).setStatusOfMaximum
              NodeStatus.MAXIMUM_POSSIBLE) := by
      unfold extractThresholdStep
      simp [hs, he, hc, hinf, Flt.lt_pinf_left]
    rw [hstep, Function.update_same]
    refine ⟨rfl, ?_, rfl⟩
    simp [OctreeNode.setStatusOfMaximum]

/-- When the sum of the weights is positive and the solver
answers with the eigenvalues `(0, 0, 0)` for the weighted covariance, as is the
case for a covariance that is the zero matrix, `calculateCornerness` returns
`0 / 0`, which is `NaN` and not `+INFINITY`. -/
theorem calculateCornerness_zero_eigenvalues (ext : Externals H D)
    (nodes : List (OctreeNode H))
    (hw : Flt.gt (cornernessWeight nodes) (Flt.fin 0) = true)
    (he : ext.eigen33Values (cornernessCovariance nodes) = ⟨Flt.fin 0, Flt.fin 0, Flt.fin 0⟩) :
    calculateCornerness ext nodes = Flt.nan := by
  rw [calculateCornerness_eq, hw, he]
  simp [Flt.div]

end

/-- C14, the divergence: for the single contributing node of entropy 1 at the
origin the sum of the weights is 1, positive, the weighted covariance is the
zero matrix, its eigenvalues are 0, and `calculateCornerness` returns `NaN`, not
`+INFINITY`; the same holds with a second node of entropy 0 elsewhere in the
list. -/
theorem calculateCornerness_zero_variance_nan :
    cornernessWeight [exampleNode 0 (Flt.fin 1) NodeStatus.MAXIMUM_NOT_CALCULATED] = Flt.fin 1 ∧
    cornernessCovariance [exampleNode 0 (Flt.fin 1) NodeStatus.MAXIMUM_NOT_CALCULATED]
      = Matrix3f.zero ∧
    zeroSolverExternals.eigen33Values Matrix3f.zero = ⟨Flt.fin 0, Flt.fin 0, Flt.fin 0⟩ ∧
    calculateCornerness zeroSolverExternals
      [exampleNode 0 (Flt.fin 1) NodeStatus.MAXIMUM_NOT_CALCULATED] = Flt.nan ∧
    calculateCornerness zeroSolverExternals
      [exampleNode 0 (Flt.fin 1) NodeStatus.MAXIMUM_NOT_CALCULATED] ≠ Flt.pinf ∧
    calculateCornerness zeroSolverExternals
      [exampleNode 0 (Flt.fin 1) NodeStatus.MAXIMUM_NOT_CALCULATED,
       exampleNode 5 (Flt.fin 0) NodeStatus.MAXIMUM_NOT_CALCULATED] = Flt.nan := by
  decide!

/-! ## The cornerness of the Features -/

section
variable {H D : Type}

theorem cornernessSums_congr (heap1 heap2 : Heap H)
    (he : ∀ n, (heap1 n).value.entropy = (heap2 n).value.entropy)
    (hp : ∀ n, (heap1 n).closestPosition = (heap2 n).closestPosition) (l : List Nat) :
    ∀ acc, cornernessSums (l.map heap1) acc = cornernessSums (l.map heap2) acc := by
  induction l with
  | nil => exact fun _ => rfl
  | cons n rest ih =>
    rintro ⟨mean, sumWeight⟩
    simp only [List.map_cons, cornernessSums, he n, hp n, ih]

theorem cornernessCov_congr (heap1 heap2 : Heap H)
    (he : ∀ n, (heap1 n).value.entropy = (heap2 n).value.entropy)
    (hp : ∀ n, (heap1 n).closestPosition = (heap2 n).closestPosition) (mean : Vector3f)
    (l : List Nat) :
    ∀ acc, cornernessCov mean (l.map heap1) acc = cornernessCov mean (l.map heap2) acc := by
  induction l with
  | nil => exact fun _ => rfl
  | cons n rest ih =>
    intro acc
    simp only [List.map_cons, cornernessCov, he n, hp n, ih]

/-- The cornerness of a list of nodes depends on their entropies and positions
only. -/
theorem calculateCornerness_congr (ext : Externals H D) (heap1 heap2 : Heap H)
    (he : ∀ n, (heap1 n).value.entropy = (heap2 n).value.entropy)
    (hp : ∀ n, (heap1 n).closestPosition = (heap2 n).closestPosition) (l : List Nat) :
    calculateCornerness ext (l.map heap1) = calculateCornerness ext (l.map heap2) := by
  unfold calculateCornerness
  simp only [cornernessSums_congr heap1 heap2 he hp, cornernessCov_congr heap1 heap2 he hp]

theorem featureCornerness_congr (ext : Externals H D) (config1 config2 : Configuration)
    (heap1 heap2 : Heap H) (hc : config1 = config2)
    (he : ∀ n, (heap1 n).value.entropy = (heap2 n).value.entropy)
    (hp : ∀ n, (heap1 n).closestPosition = (heap2 n).closestPosition) (i : Nat) :
    featureCornerness ext config1 heap1 i = featureCornerness ext config2 heap2 i := by
  unfold featureCornerness
  rw [hc, hp i]
  exact calculateCornerness_congr ext heap1 heap2 he hp _

theorem cornernessAt_congr (ext : Externals H D) (config : Configuration)
    (heap1 heap2 : Heap H)
    (he : ∀ n, (heap1 n).value.entropy = (heap2 n).value.entropy)
    (hp : ∀ n, (heap1 n).closestPosition = (heap2 n).closestPosition) (i : Nat) :
    cornernessAt ext config heap1 i = cornernessAt ext config heap2 i := by
  unfold cornernessAt
  simp only [hp i]
  exact calculateCornerness_congr ext heap1 heap2 he hp _

/-- With one level for the keypoints and the normals, the cornerness of the
Feature of a node is the cornerness stage 1 computes for the node. -/
theorem featureCornerness_same_level (ext : Externals H D) (config : Configuration)
    (heap : Heap H) (i : Nat) (h : config.normalSamplingLevel = config.samplingLevel) :
    featureCornerness ext config heap i = cornernessAt ext config heap i := by
  unfold featureCornerness cornernessAt
  rw [h]

theorem createFeature_cornerness (ext : Externals H D) (est : SURE_Estimator H D) (i : Nat) :
    (createFeature ext est i).cornerness3D = featureCornerness ext est.config est.heap i :=
  rfl

/-- Every feature that stage 2 appends stems from a node of the scanned list that
was Possible before the scan and is Found after it, and carries the cornerness
of the neighbourhood of that node on the normal sampling level. -/
theorem suppress_features_cornerness (ext : Externals H D) (l : List Nat) :
    ∀ est : SURE_Estimator H D, ∃ new : List (Feature D),
      (l.foldl (extractSuppressStep ext) est).features = est.features ++ new ∧
      ∀ f ∈ new, ∃ j ∈ l,
        (est.heap j).value.statusOfMaximum = NodeStatus.MAXIMUM_POSSIBLE ∧
        ((l.foldl (extractSuppressStep ext) est).heap j).value.statusOfMaximum
          = NodeStatus.MAXIMUM_FOUND ∧
        f.point = (est.heap j).closestPosition ∧
        f.cornerness3D = featureCornerness ext est.config est.heap j := by
  induction l with
  | nil => exact fun est => ⟨[], by simp, fun f hf => absurd hf (List.not_mem_nil _)⟩
  | cons s rest ih =>
    intro est
    obtain ⟨new, hnew, hall⟩ := ih (extractSuppressStep ext est s)
    obtain ⟨fc, _, _, fe, fp, fi⟩ := extractSuppressStep_frame ext est s
    have hst := extractSuppressStep_status ext est s
    have back : ∀ f ∈ new, ∃ j ∈ s :: rest,
        (est.heap j).value.statusOfMaximum = NodeStatus.MAXIMUM_POSSIBLE ∧
        (((s :: rest).foldl (extractSuppressStep ext) est).heap j).value.statusOfMaximum
          = NodeStatus.MAXIMUM_FOUND ∧
        f.point = (est.heap j).closestPosition ∧
        f.cornerness3D = featureCornerness ext est.config est.heap j := by
      intro f hf
      obtain ⟨j, hj, h1, h2, h4, h7⟩ := hall f hf
      refine ⟨j, List.mem_cons_of_mem _ hj, ?_, h2, h4.trans (fp j),
        h7.trans (featureCornerness_congr ext _ _ _ _ fc fe fp j)⟩
      rcases hst j with h | ⟨hp, _, _⟩
      · rw [← h]
        exact h1
      · exact hp
    rcases extractSuppressStep_cases ext est s with ⟨_, h⟩ | ⟨hp, _, h⟩ | ⟨_, _, h⟩
    · refine ⟨new, ?_, back⟩
      rw [List.foldl_cons, hnew, h]
    · refine ⟨createFeature ext (est.withStatus s NodeStatus.MAXIMUM_FOUND) s :: new, ?_, ?_⟩
      · rw [List.foldl_cons, hnew, h]
        simp [SURE_Estimator.withStatus]
      · intro f hf
        rcases List.mem_cons.mp hf with rfl | hf
        · refine ⟨s, List.mem_cons_self _ _, hp, ?_, ?_, ?_⟩
          · have inv := SuppressInv.foldl ext (extractSuppressStep ext est s) rest _
              (SuppressInv.refl ext _)
            have hs : ((extractSuppressStep ext est s).heap s).value.statusOfMaximum
                = NodeStatus.MAXIMUM_FOUND := by
              rw [h]
              exact withStatus_status_self est s _
            rw [List.foldl_cons]
            rcases inv.status s with e | ⟨e, _⟩
            · rw [e, hs]
            · rw [hs] at e
              exact absurd e (by decide)
          · exact withStatus_closestPosition est s s _
          · rw [createFeature_cornerness]
            exact featureCornerness_congr ext _ _ _ _ rfl
              (fun n => withStatus_entropy est s n _)
              (fun n => withStatus_closestPosition est s n _) s
        · exact back f hf
    · refine ⟨new, ?_, back⟩
      rw [List.foldl_cons, hnew, h]
      rfl

end

section
variable {H D : Type}

theorem possibleOrigin_step (ext : Externals H D) (config : Configuration) (heap0 heap : Heap H)
    (j i : Nat) (inv : PossibleOrigin ext config heap0 heap j) :
    PossibleOrigin ext config heap0 (extractThresholdStep ext config heap i) j := by
  obtain ⟨ie, ip, inc, ipo⟩ := inv
  obtain ⟨fo, fe, fp, _, _⟩ := extractThresholdStep_frame ext config heap i
  refine ⟨fun n => (fe n).trans (ie n), fun n => (fp n).trans (ip n), ?_, ?_⟩
  · by_cases hj : j = i
    · subst hj
      rcases extractThresholdStep_cases ext config heap j with
        ⟨_, h⟩ | ⟨_, _, h⟩ | ⟨_, _, _, h⟩ | ⟨_, _, _, h⟩
      · rw [h]
        exact inc
      · rw [h, Function.update_same]
        intro hs
        exact absurd hs (by simp [OctreeNode.setStatusOfMaximum])
      · rw [h, Function.update_same]
        intro hs
        simp only [OctreeNode.setStatusOfMaximum] at hs
        split_ifs at hs
      · rw [h]
        exact inc
    · rw [fo j hj]
      exact inc
  · by_cases hj : j = i
    · subst hj
      rcases extractThresholdStep_cases ext config heap j with
        ⟨_, h⟩ | ⟨_, _, h⟩ | ⟨_, _, ⟨h3, h4⟩, h⟩ | ⟨_, _, _, h⟩
      · rw [h]
        exact ipo
      · rw [h, Function.update_same]
        intro hs
        exact absurd hs (by simp [OctreeNode.setStatusOfMaximum])
      · rw [h, Function.update_same]
        intro hs
        simp only [OctreeNode.setStatusOfMaximum] at hs
        refine Or.inr ⟨inc h3, h4, ?_⟩
        rw [← cornernessAt_congr ext config heap heap0 ie ip j]
        cases hlt : Flt.lt (cornernessAt ext config heap j) config.minimumCornerness3D
        · rfl
        · rw [hlt] at hs
          simp at hs
      · rw [h]
        exact ipo
    · rw [fo j hj]
      exact ipo

theorem possibleOrigin_init (ext : Externals H D) (config : Configuration) (heap : Heap H)
    (j : Nat) : PossibleOrigin ext config heap heap j :=
  ⟨fun _ => rfl, fun _ => rfl, fun h => h, fun h => Or.inl h⟩

theorem extractThreshold_origin (ext : Externals H D) (config : Configuration) (heap : Heap H)
    (nodes : List Nat) (j : Nat) :
    PossibleOrigin ext config heap (extractThreshold ext config heap nodes) j :=
  foldl_preserve (extractThresholdStep ext config)
    (fun s => PossibleOrigin ext config heap s j)
    (fun s i hs => possibleOrigin_step ext config heap s j i hs) nodes heap
    (possibleOrigin_init ext config heap j)

/-- C15, as amended: `extractFeature` appends Features to the list, and every
Feature that it appends stems from a
node of the sampling level that ends Found; its `cornerness3D` is the value that
`createDescriptor` computes from the nodes of the normal sampling level within
`histogramRadius` of the node.  The node was Possible before the run, or it was
NotCalculated, a minimum cornerness is configured
(`minimumCornerness3D > 0`) and the cornerness that stage 1 computes for it from
the nodes of the sampling level is not below the minimum; in the latter case,
when the normal sampling level is the sampling level, the `cornerness3D` of the
Feature is not below the minimum, that is `>=` the minimum unless one of the
two is `NaN`. -/
theorem extractFeature_cornerness (ext : Externals H D) (est : SURE_Estimator H D) :
    (extractFeature ext est).features = est.features ++ appendedFeatures ext est ∧
    ∀ f ∈ appendedFeatures ext est, ∃ j ∈ est.levelNodes est.config.samplingLevel,
      ((extractFeature ext est).heap j).value.statusOfMaximum = NodeStatus.MAXIMUM_FOUND ∧
      f.point = (est.heap j).closestPosition ∧
      f.cornerness3D = featureCornerness ext est.config est.heap j ∧
      ((est.heap j).value.statusOfMaximum = NodeStatus.MAXIMUM_POSSIBLE ∨
        ((est.heap j).value.statusOfMaximum = NodeStatus.MAXIMUM_NOT_CALCULATED ∧
          Flt.gt est.config.minimumCornerness3D (Flt.fin 0) = true ∧
          Flt.lt (cornernessAt ext est.config est.heap j) est.config.minimumCornerness3D
            = false ∧
          (est.config.normalSamplingLevel = est.config.samplingLevel →
            Flt.lt f.cornerness3D est.config.minimumCornerness3D = false ∧
            (f.cornerness3D ≠ Flt.nan → est.config.minimumCornerness3D ≠ Flt.nan →
              Flt.ge f.cornerness3D est.config.minimumCornerness3D = true)))) := by
  obtain ⟨new, hnew, hall⟩ := suppress_features_cornerness ext
    (est.levelNodes est.config.samplingLevel) (est.thresholded ext)
  rw [← extractFeature_eq] at hnew hall
  have happ : appendedFeatures ext est = new := by
    unfold appendedFeatures
    rw [hnew]
    exact List.drop_left' rfl
  rw [happ]
  refine ⟨hnew, ?_⟩
  intro f hf
  obtain ⟨j, hj, h1, h2, h3, h4⟩ := hall f hf
  obtain ⟨oe, op, _, opo⟩ := extractThreshold_origin ext est.config est.heap
    (est.levelNodes est.config.samplingLevel) j
  have hc : f.cornerness3D = featureCornerness ext est.config est.heap j :=
    h4.trans (featureCornerness_congr ext _ _ _ _ rfl oe op j)
  refine ⟨j, hj, h2, h3.trans (op j), hc, ?_⟩
  rcases opo h1 with h | ⟨h5, h6, h7⟩
  · exact Or.inl h
  · refine Or.inr ⟨h5, h6, h7, fun hl => ?_⟩
    have hlt : Flt.lt f.cornerness3D est.config.minimumCornerness3D = false := by
      rw [hc, featureCornerness_same_level ext est.config est.heap j hl]
      exact h7
    exact ⟨hlt, fun ha hb => Flt.ge_of_lt_eq_false _ _ ha hb hlt⟩

end

/-- Counterexample to C15 as stated: with the cornerness threshold `1/10`, a node
of entropy 0 on sampling level 1 passes stage 1 (the cornerness of its
neighbourhood is `+INFINITY`) and becomes a Feature; `createDescriptor` then
computes the cornerness from the two nodes of the normal sampling level 2,
which lie on a line, and the Feature carries the cornerness 0, below the
threshold. -/
theorem extractFeature_cornerness_counterexample :
    Flt.gt twoLevelEstimator.config.minimumCornerness3D (Flt.fin 0) = true ∧
    cornernessAt twoLevelExternals twoLevelEstimator.config twoLevelEstimator.heap 0
      = Flt.pinf ∧
    cornernessCovariance ([1, 2].map twoLevelEstimator.heap)
      = { Matrix3f.zero with m00 := Flt.fin (1 / 4) } ∧
    (appendedFeatures twoLevelExternals twoLevelEstimator).map (fun f => f.cornerness3D)
      = [Flt.fin 0] ∧
    (∀ f ∈ appendedFeatures twoLevelExternals twoLevelEstimator,
      Flt.ge f.cornerness3D twoLevelEstimator.config.minimumCornerness3D = false) := by
  decide!

/-! ## `resize` -/

section
variable {H D : Type}

/-- C16, as amended: for every capacity `c`, `resize(c)` first clears the
per-computation state as `reset` does (no index, depth 0, no node sizes, default
configuration, empty feature list, no range image, empty sampling map, empty
added-points list); if `c` is positive and differs from `currentOctreeSize`,
the instance is left with `currentOctreeSize = c`, a newly allocated arena of
capacity `c` with no node handed out and a histogram pool reset for
`c * PERCENTAGE_OF_NORMAL_HISTOGRAMS`; if `c` is 0 or equals
`currentOctreeSize`, the capacity, the arena and the histogram pool are left as
they were. -/
theorem resize_spec (ix : IndexExternals H) (inst : SURE_Instance H D) (c : Nat) :
    ((resize ix inst c).octree = none ∧ (resize ix inst c).octreeDepth = 0 ∧
      (resize ix inst c).octreeNodeSizeByDepth = [] ∧
      (resize ix inst c).config = ix.defaultConfiguration ∧
      (resize ix inst c).features = [] ∧ (resize ix inst c).rangeImage = false ∧
      (resize ix inst c).octreeMap = [] ∧ (resize ix inst c).addedPoints = []) ∧
    (c ≠ inst.currentOctreeSize → 0 < c →
      (resize ix inst c).currentOctreeSize = c ∧
      (resize ix inst c).octreeAllocator = some ⟨c, 0⟩ ∧
      (resize ix inst c).histogramAllocator =
        ⟨Flt.mul (Flt.ofNat c) ix.PERCENTAGE_OF_NORMAL_HISTOGRAMS, 0⟩) ∧
    (c = inst.currentOctreeSize ∨ c = 0 →
      (resize ix inst c).currentOctreeSize = inst.currentOctreeSize ∧
      (resize ix inst c).octreeAllocator = inst.octreeAllocator ∧
      (resize ix inst c).histogramAllocator = inst.histogramAllocator) := by
  by_cases h : c ≠ (reset ix inst).currentOctreeSize ∧ 0 < c
  · have hr : resize ix inst c =
        { reset ix inst with
          currentOctreeSize := c
          octreeAllocator := some ⟨c, 0⟩
          histogramAllocator :=
            ⟨Flt.mul (Flt.ofNat c) ix.PERCENTAGE_OF_NORMAL_HISTOGRAMS, 0⟩ } := by
      unfold resize
      simp only [h, ne_eq, not_false_eq_true, and_self, if_true]
    rw [hr]
    refine ⟨⟨rfl, rfl, rfl, rfl, rfl, rfl, rfl, rfl⟩, fun _ _ => ⟨rfl, rfl, rfl⟩, ?_⟩
    rintro (h1 | h1)
    · exact absurd h1 h.1
    · exact absurd h.2 (by omega)
  · have hr : resize ix inst c = reset ix inst := by
      unfold resize
      simp only [h, if_false]
    rw [hr]
    refine ⟨⟨rfl, rfl, rfl, rfl, rfl, rfl, rfl, rfl⟩, fun h1 h2 => absurd ⟨h1, h2⟩ h,
      fun _ => ⟨rfl, rfl, rfl⟩⟩

end

/-- Counterexample to C16 as stated: on an instance of capacity 5 whose arena has
handed out three nodes, `resize(0)` leaves `currentOctreeSize` at 5, not 0, and
`resize(5)` leaves the arena with its three nodes handed out and the histogram
pool as it was: neither is newly allocated or reset. -/
theorem resize_counterexample :
    (resize exampleIndexExternals (exampleInstance plainEstimator []) 0).currentOctreeSize
      = 5 ∧
    (resize exampleIndexExternals (exampleInstance plainEstimator []) 5).octreeAllocator
      = some ⟨5, 3⟩ ∧
    (resize exampleIndexExternals (exampleInstance plainEstimator []) 5).octreeAllocator
      ≠ some ⟨5, 0⟩ ∧
    (resize exampleIndexExternals (exampleInstance plainEstimator []) 5).histogramAllocator
      = ⟨Flt.fin 1, 2⟩ ∧
    (resize exampleIndexExternals (exampleInstance plainEstimator []) 5).histogramAllocator
      ≠ ⟨Flt.mul (Flt.ofNat 5) exampleIndexExternals.PERCENTAGE_OF_NORMAL_HISTOGRAMS, 0⟩ := by
  decide!

/-! ## `buildOctree` -/

section
variable {H D : Type}

theorem insertPointInOctree_calls (ix : IndexExternals H) (config : Configuration)
    (so : Vector3f) (tree : Octree × Nat) (p : PointT) (status : NodeStatus) :
    (insertPointInOctree ix config so tree p status).1 =
      { tree.1 with calls := tree.1.calls ++ [insertCall ix config so p status] } := rfl

theorem insertSelected_calls (ix : IndexExternals H) (config : Configuration) (so : Vector3f)
    (points : Nat → PointT) (l : List Nat) :
    ∀ tree : Octree × Nat,
      (insertSelected ix config so points l tree).1 =
        { tree.1 with
          calls := tree.1.calls ++
            (l.filter (fun index => finitePoint (points index))).map
              (fun index => insertCall ix config so (points index) ix.defaultInsertStatus) } := by
  induction l with
  | nil => intro tree; simp [insertSelected]
  | cons index rest ih =>
    intro tree
    simp only [insertSelected]
    split_ifs with h
    · have hf : finitePoint (points index) = true := h
      rw [ih, insertPointInOctree_calls]
      simp [List.filter_cons, hf]
    · have hf : ¬ finitePoint (points index) = true := h
      rw [ih]
      simp [List.filter_cons, hf]

theorem insertArtificial_calls (ix : IndexExternals H) (config : Configuration) (so : Vector3f)
    (l : List PointT) :
    ∀ tree : Octree × Nat,
      (insertArtificial ix config so l tree).1 =
        { tree.1 with
          calls := tree.1.calls ++
            l.map (fun p => insertCall ix config so p NodeStatus.ARTIFICIAL) } := by
  induction l with
  | nil => intro tree; simp [insertArtificial]
  | cons p rest ih =>
    intro tree
    rw [insertArtificial, ih, insertPointInOctree_calls]
    simp

/-- C18, as amended: `buildOctree` builds a new index and makes these insertions
into it and no others: in selector order, one point for every entry of the index selector whose selected
point has three finite coordinates, and none for an entry with a non-finite
coordinate; when points on depth borders are asked for, one Artificial insertion
for each added point follows.  When every selected point is finite and no
border points are asked for, there is exactly one insertion for every entry of
the selector. -/
theorem buildOctree_insertions (ext : Externals H D) (ix : IndexExternals H)
    (inst : SURE_Instance H D) :
    (buildOctree ext ix inst).octree.map (fun tree => tree.calls) =
      some (selectorInsertions ix inst ++
        (if inst.config.additionalPointsOnDepthBorders then
          borderInsertions ix inst (buildOctree ext ix inst).addedPoints
        else [])) ∧
    (selectorInsertions ix inst).length
      = (inst.indices.filter (fun index => finitePoint (inst.points index))).length ∧
    ((∀ index ∈ inst.indices, finitePoint (inst.points index) = true) →
      selectorInsertions ix inst =
        inst.indices.map (fun index =>
          insertCall ix inst.config inst.sensor_origin (inst.points index)
            ix.defaultInsertStatus)) := by
  refine ⟨?_, ?_, ?_⟩
  · cases hb : inst.config.additionalPointsOnDepthBorders
    · unfold buildOctree resampleOctreeSamplingMap selectorInsertions
      simp only [hb, Bool.false_eq_true, if_false, Option.map_some', insertSelected_calls,
        List.nil_append, List.append_nil]
    · unfold buildOctree resampleOctreeSamplingMap selectorInsertions borderInsertions
      simp only [hb, if_true, Option.map_some', insertSelected_calls, insertArtificial_calls,
        List.nil_append]
  · simp [selectorInsertions]
  · intro hall
    unfold selectorInsertions
    rw [List.filter_eq_self.mpr hall]

end

/-- Counterexample to C18 as stated: of the three selected points `(0, 0, 0)`,
`(NaN, 0, 0)` and `(1, 0, 0)` only the first and the third are inserted; the
selector has three entries and the index receives two insertions. -/
theorem buildOctree_insertions_counterexample :
    nanPointInstance.indices.length = 3 ∧
    nanPointInstance.config.additionalPointsOnDepthBorders = false ∧
    (buildOctree (exampleExternals (lineQuery 1)) exampleIndexExternals
        nanPointInstance).octree.map (fun tree => tree.calls.length) = some 2 ∧
    (buildOctree (exampleExternals (lineQuery 1)) exampleIndexExternals
        nanPointInstance).octree.map (fun tree => tree.calls.map (fun call => call.position))
      = some [⟨Flt.fin 0, Flt.fin 0, Flt.fin 0⟩, ⟨Flt.fin 1, Flt.fin 0, Flt.fin 0⟩] := by
  decide!

/-! ## The probes of `orientateNormal` -/

/-- C22, the divergence: the probe reference points of the loop indices 0 to 6
are not seven distinct non-zero axis combinations.  The indices 0, 1 and 2 give
`(1000, 1000, 1000)`, `(0, 1000, 0)` and `(1000, 0, 0)`; the index 3 gives the
zero vector; the indices 4, 5 and 6 give the points of the indices 0, 1 and 2
again.  The combinations with a zero `x` or `y` and a non-zero `z` never
occur. -/
theorem farPoint_values :
    farPoint 0 = ⟨Flt.fin 1000, Flt.fin 1000, Flt.fin 1000⟩ ∧
    farPoint 1 = ⟨Flt.fin 0, Flt.fin 1000, Flt.fin 0⟩ ∧
    farPoint 2 = ⟨Flt.fin 1000, Flt.fin 0, Flt.fin 0⟩ ∧
    farPoint 3 = Vector3f.zero ∧
    farPoint 4 = farPoint 0 ∧ farPoint 5 = farPoint 1 ∧ farPoint 6 = farPoint 2 ∧
    (∀ index, index < 7 → farPoint index ≠ ⟨Flt.fin 0, Flt.fin 0, Flt.fin 1000⟩ ∧
      farPoint index ≠ ⟨Flt.fin 1000, Flt.fin 0, Flt.fin 1000⟩ ∧
      farPoint index ≠ ⟨Flt.fin 0, Flt.fin 1000, Flt.fin 1000⟩ ∧
      farPoint index ≠ ⟨Flt.fin 1000, Flt.fin 1000, Flt.fin 0⟩) := by
  decide!

/-! ## `orientateNormal` applied twice -/

theorem Flt.abs_neg (d : Flt) : Flt.abs (Flt.neg d) = Flt.abs d := by
  cases d with
  | nan => rfl
  | ninf => rfl
  | pinf => rfl
  | fin q =>
    simp only [Flt.neg, Flt.abs]
    congr 1
    split_ifs <;> linarith

theorem Flt.neg_involutive (d : Flt) : Flt.neg (Flt.neg d) = d := by
  cases d <;> simp [Flt.neg]

/-- The loop on the negated normal runs through the negated dot products. -/
theorem orientateLoop_neg (normal : Vector3f) :
    ∀ (fuel index : Nat) (d : Flt),
      orientateLoop normal.neg fuel index (Flt.neg d)
        = Flt.neg (orientateLoop normal fuel index d) := by
  intro fuel
  induction fuel with
  | zero => exact fun _ _ => rfl
  | succ k ih =>
    intro index d
    rw [orientateLoop, orientateLoop, Flt.abs_neg, Vector3f.dot_neg_left, ih]
    split_ifs <;> rfl

theorem Flt.lt_neg_zero_of_lt_zero (d : Flt) (h : Flt.lt d (Flt.fin 0) = true) :
    Flt.lt (Flt.neg d) (Flt.fin 0) = false := by
  cases d <;> simp_all [Flt.lt, Flt.neg]
  linarith

/-- C29: `orientateNormal` is idempotent in the normal for a fixed reference
vector: for every normal `n` and reference vector `v`, whatever their
components are and however the sign was decided (by the first dot product, by a
probe, or with all probes ambiguous), applying `orientateNormal` with the same
`v` to the result leaves it unchanged. -/
theorem orientateNormal_idempotent (n v : Vector3f) :
    orientateNormal (orientateNormal n v) v = orientateNormal n v := by
  cases h : Flt.lt (orientateLoop n 7 0 (n.dot v)) (Flt.fin 0)
  · have h1 : orientateNormal n v = n := by
      unfold orientateNormal
      simp only [h, Bool.false_eq_true, if_false]
    rw [h1, h1]
  · have h1 : orientateNormal n v = n.neg := by
      unfold orientateNormal
      simp only [h, if_true]
    rw [h1]
    unfold orientateNormal
    simp only [Vector3f.dot_neg_left, orientateLoop_neg, Flt.lt_neg_zero_of_lt_zero _ h,
      Bool.false_eq_true, if_false]

/-! ## The probes always decide for a normal that is not short -/

/-- The dot products of a finite normal with the first three probes. -/
theorem dot_farPoint_fin (x y z : ℚ) :
    (Vector3f.mk (Flt.fin x) (Flt.fin y) (Flt.fin z)).dot (farPoint 0)
      = Flt.fin (x * 1000 + y * 1000 + z * 1000) ∧
    (Vector3f.mk (Flt.fin x) (Flt.fin y) (Flt.fin z)).dot (farPoint 1)
      = Flt.fin (y * 1000) ∧
    (Vector3f.mk (Flt.fin x) (Flt.fin y) (Flt.fin z)).dot (farPoint 2)
      = Flt.fin (x * 1000) := by
  refine ⟨?_, ?_, ?_⟩ <;> norm_num [Vector3f.dot, farPoint, Flt.mul, Flt.add]

theorem Flt.lt_abs_fin (q t : ℚ) :
    Flt.lt (Flt.abs (Flt.fin q)) (Flt.fin t) = true ↔ |q| < t := by
  simp only [Flt.abs, Flt.lt, decide_eq_true_eq]
  split_ifs with h
  · rw [abs_of_neg h]
  · rw [abs_of_nonneg (not_lt.mp h)]

theorem Flt.ge_abs_fin (q t : ℚ) :
    Flt.ge (Flt.abs (Flt.fin q)) (Flt.fin t) = true ↔ t ≤ |q| := by
  simp only [Flt.abs, Flt.ge, Flt.le, decide_eq_true_eq]
  split_ifs with h
  · rw [abs_of_neg h]
  · rw [abs_of_nonneg (not_lt.mp h)]

/-- A normal whose first three probe products are all ambiguous is shorter than
`1/2`. -/
theorem probes_ambiguous_short (x y z : ℚ)
    (h0 : |x * 1000 + y * 1000 + z * 1000| < 1 / 10) (h1 : |y * 1000| < 1 / 10)
    (h2 : |x * 1000| < 1 / 10) : x * x + y * y + z * z < 1 / 4 := by
  rw [abs_lt] at h0 h1 h2
  have hx1 : x < 1 / 10000 := by linarith
  have hx2 : -(1 / 10000) < x := by linarith
  have hy1 : y < 1 / 10000 := by linarith
  have hy2 : -(1 / 10000) < y := by linarith
  have hz1 : z < 3 / 10000 := by linarith
  have hz2 : -(3 / 10000) < z := by linarith
  nlinarith [mul_pos (sub_pos.mpr hx1) (sub_pos.mpr hx2), mul_pos (sub_pos.mpr hy1)
    (sub_pos.mpr hy2), mul_pos (sub_pos.mpr hz1) (sub_pos.mpr hz2)]

theorem orientateLoop_step (normal : Vector3f) (fuel index : Nat) (d : Flt)
    (h : Flt.lt (Flt.abs d) (Flt.fin (1 / 10)) = true) (hi : index < 7) :
    orientateLoop normal (fuel + 1) index d
      = orientateLoop normal fuel (index + 1) (normal.dot (farPoint index)) := by
  rw [orientateLoop, h]
  simp [hi]

theorem orientateLoop_stop (normal : Vector3f) (fuel index : Nat) (d : Flt)
    (h : Flt.lt (Flt.abs d) (Flt.fin (1 / 10)) = false) :
    orientateLoop normal fuel index d = d := by
  cases fuel with
  | zero => rfl
  | succ k =>
    rw [orientateLoop, h]
    rfl

theorem Flt.ge_abs_of_not_lt (d : Flt) (hd : d ≠ Flt.nan)
    (h : Flt.lt (Flt.abs d) (Flt.fin (1 / 10)) = false) :
    Flt.ge (Flt.abs d) (Flt.fin (1 / 10)) = true := by
  cases d with
  | nan => exact absurd rfl hd
  | ninf => rfl
  | pinf => rfl
  | fin q =>
    rw [Flt.ge_abs_fin]
    by_contra hc
    have := (Flt.lt_abs_fin q (1 / 10)).mpr (not_le.mp hc)
    rw [h] at this
    exact absurd this (by decide)

/-- C27: for every normal `n` with finite components whose length is at least
`1/2`, in particular for every unit normal, and every reference vector `v`: the
loop of `orientateNormal` ends with a dot product for which the test
`fabs(dotProduct) < 0.1` is false, so it never runs out of probes with an
ambiguous sign.  If the first dot product `n . v` is ambiguous, one of the first
three probes `(1000,1000,1000)`, `(0,1000,0)`, `(1000,0,0)` has a dot product
with `n` of magnitude at least 0.1, and the first such probe gives the dot
product on which the sign is decided; otherwise the sign is decided on `n . v`
itself.  Unless `n . v` is `NaN`, the magnitude of the deciding dot product is
at least 0.1. -/
theorem orientateNormal_probe_decides (x y z : ℚ) (v : Vector3f)
    (hlen : 1 / 4 ≤ x * x + y * y + z * z) :
    Flt.lt (Flt.abs (orientateLoop ⟨Flt.fin x, Flt.fin y, Flt.fin z⟩ 7 0
      ((Vector3f.mk (Flt.fin x) (Flt.fin y) (Flt.fin z)).dot v))) (Flt.fin (1 / 10)) = false ∧
    (Flt.lt (Flt.abs ((Vector3f.mk (Flt.fin x) (Flt.fin y) (Flt.fin z)).dot v))
        (Flt.fin (1 / 10)) = true →
      ∃ k, k < 3 ∧
        Flt.ge (Flt.abs ((Vector3f.mk (Flt.fin x) (Flt.fin y) (Flt.fin z)).dot (farPoint k)))
          (Flt.fin (1 / 10)) = true ∧
        orientateLoop ⟨Flt.fin x, Flt.fin y, Flt.fin z⟩ 7 0
            ((Vector3f.mk (Flt.fin x) (Flt.fin y) (Flt.fin z)).dot v)
          = (Vector3f.mk (Flt.fin x) (Flt.fin y) (Flt.fin z)).dot (farPoint k) ∧
        ∀ j, j < k →
          Flt.lt (Flt.abs ((Vector3f.mk (Flt.fin x) (Flt.fin y) (Flt.fin z)).dot (farPoint j)))
            (Flt.fin (1 / 10)) = true) ∧
    (Flt.lt (Flt.abs ((Vector3f.mk (Flt.fin x) (Flt.fin y) (Flt.fin z)).dot v))
        (Flt.fin (1 / 10)) = false →
      orientateLoop ⟨Flt.fin x, Flt.fin y, Flt.fin z⟩ 7 0
          ((Vector3f.mk (Flt.fin x) (Flt.fin y) (Flt.fin z)).dot v)
        = (Vector3f.mk (Flt.fin x) (Flt.fin y) (Flt.fin z)).dot v) ∧
    ((Vector3f.mk (Flt.fin x) (Flt.fin y) (Flt.fin z)).dot v ≠ Flt.nan →
      Flt.ge (Flt.abs (orientateLoop ⟨Flt.fin x, Flt.fin y, Flt.fin z⟩ 7 0
        ((Vector3f.mk (Flt.fin x) (Flt.fin y) (Flt.fin z)).dot v))) (Flt.fin (1 / 10))
        = true) := by
  obtain ⟨e0, e1, e2⟩ := dot_farPoint_fin x y z
  have probe : Flt.lt (Flt.abs ((Vector3f.mk (Flt.fin x) (Flt.fin y) (Flt.fin z)).dot v))
        (Flt.fin (1 / 10)) = true →
      ∃ k, k < 3 ∧
        Flt.ge (Flt.abs ((Vector3f.mk (Flt.fin x) (Flt.fin y) (Flt.fin z)).dot (farPoint k)))
          (Flt.fin (1 / 10)) = true ∧
        orientateLoop ⟨Flt.fin x, Flt.fin y, Flt.fin z⟩ 7 0
            ((Vector3f.mk (Flt.fin x) (Flt.fin y) (Flt.fin z)).dot v)
          = (Vector3f.mk (Flt.fin x) (Flt.fin y) (Flt.fin z)).dot (farPoint k) ∧
        ∀ j, j < k →
          Flt.lt (Flt.abs ((Vector3f.mk (Flt.fin x) (Flt.fin y) (Flt.fin z)).dot (farPoint j)))
            (Flt.fin (1 / 10)) = true := by
    intro h
    rw [orientateLoop_step _ 6 0 _ h (by decide)]
    by_cases a0 : |x * 1000 + y * 1000 + z * 1000| < 1 / 10
    · have l0 := (Flt.lt_abs_fin _ _).mpr a0
      rw [← e0] at l0
      rw [orientateLoop_step _ 5 1 _ l0 (by decide)]
      by_cases a1 : |y * 1000| < 1 / 10
      · have l1 := (Flt.lt_abs_fin _ _).mpr a1
        rw [← e1] at l1
        rw [orientateLoop_step _ 4 2 _ l1 (by decide)]
        have a2 : ¬ |x * 1000| < 1 / 10 := fun a2 =>
          absurd (probes_ambiguous_short x y z a0 a1 a2) (not_lt.mpr hlen)
        have g2 := (Flt.ge_abs_fin _ _).mpr (not_lt.mp a2)
        rw [← e2] at g2
        refine ⟨2, by decide, g2, orientateLoop_stop _ _ _ _
          (Flt.lt_abs_eq_false_of_ge _ _ g2), ?_⟩
        intro j hj
        interval_cases j
        · exact l0
        · exact l1
      · have g1 := (Flt.ge_abs_fin _ _).mpr (not_lt.mp a1)
        rw [← e1] at g1
        refine ⟨1, by decide, g1, orientateLoop_stop _ _ _ _
          (Flt.lt_abs_eq_false_of_ge _ _ g1), ?_⟩
        intro j hj
        interval_cases j
        exact l0
    · have g0 := (Flt.ge_abs_fin _ _).mpr (not_lt.mp a0)
      rw [← e0] at g0
      refine ⟨0, by decide, g0, orientateLoop_stop _ _ _ _
        (Flt.lt_abs_eq_false_of_ge _ _ g0), ?_⟩
      intro j hj
      exact absurd hj (Nat.not_lt_zero j)
  have direct : Flt.lt (Flt.abs ((Vector3f.mk (Flt.fin x) (Flt.fin y) (Flt.fin z)).dot v))
        (Flt.fin (1 / 10)) = false →
      orientateLoop ⟨Flt.fin x, Flt.fin y, Flt.fin z⟩ 7 0
          ((Vector3f.mk (Flt.fin x) (Flt.fin y) (Flt.fin z)).dot v)
        = (Vector3f.mk (Flt.fin x) (Flt.fin y) (Flt.fin z)).dot v :=
    fun h => orientateLoop_stop _ _ _ _ h
  refine ⟨?_, probe, direct, ?_⟩
  · cases h : Flt.lt (Flt.abs ((Vector3f.mk (Flt.fin x) (Flt.fin y) (Flt.fin z)).dot v))
        (Flt.fin (1 / 10))
    · rw [direct h]
      exact h
    · obtain ⟨k, _, g, e, _⟩ := probe h
      rw [e]
      exact Flt.lt_abs_eq_false_of_ge _ _ g
  · intro hnan
    cases h : Flt.lt (Flt.abs ((Vector3f.mk (Flt.fin x) (Flt.fin y) (Flt.fin z)).dot v))
        (Flt.fin (1 / 10))
    · rw [direct h]
      exact Flt.ge_abs_of_not_lt _ hnan h
    · obtain ⟨k, _, g, e, _⟩ := probe h
      rw [e]
      exact g

/-- Witness of C27: the unit normal `(0, 0, 1)` and the reference vector
`(1, 0, 0)`, perpendicular to it; the first probe decides. -/
theorem orientateNormal_probe_decides_witness :
    (1 : ℚ) / 4 ≤ 0 * 0 + 0 * 0 + 1 * 1 ∧
    Flt.lt (Flt.abs (orientateLoop ⟨Flt.fin 0, Flt.fin 0, Flt.fin 1⟩ 7 0
      ((Vector3f.mk (Flt.fin 0) (Flt.fin 0) (Flt.fin 1)).dot
        ⟨Flt.fin 1, Flt.fin 0, Flt.fin 0⟩))) (Flt.fin (1 / 10)) = false :=
  ⟨by norm_num,
    (orientateNormal_probe_decides 0 0 1 ⟨Flt.fin 1, Flt.fin 0, Flt.fin 0⟩ (by norm_num)).1⟩

/-! ## The order of the scan -/

/-- C24: non-maximum suppression in `extractFeature` depends on the order of the
sampling map.  The two nodes of `tieEstimator` have equal entropy 1 and are
neighbours of one another; with the map order `[0, 1]` node 0 ends Found and
node 1 NotPossible, and with the order `[1, 0]`, on the same nodes with the
same entropies and the same neighbourhood query, node 1 ends Found and node 0
NotPossible. -/
theorem extractFeature_order_dependent :
    tieEstimatorReversed.heap = tieEstimator.heap ∧
    tieEstimatorReversed.config = tieEstimator.config ∧
    tieEstimatorReversed.levelNodes tieEstimatorReversed.config.samplingLevel
      = (tieEstimator.levelNodes tieEstimator.config.samplingLevel).reverse ∧
    (∀ a ∈ [0, 1], ∀ b ∈ [0, 1],
      (b ∈ influenceNeighbours (exampleExternals (lineQuery 2)) tieEstimator a ↔
        a ∈ influenceNeighbours (exampleExternals (lineQuery 2)) tieEstimator b)) ∧
    1 ∈ influenceNeighbours (exampleExternals (lineQuery 2)) tieEstimator 0 ∧
    ((extractFeature (exampleExternals (lineQuery 2)) tieEstimator).heap 0).value.statusOfMaximum
      = NodeStatus.MAXIMUM_FOUND ∧
    ((extractFeature (exampleExternals (lineQuery 2)) tieEstimator).heap 1).value.statusOfMaximum
      = NodeStatus.MAXIMUM_NOT_POSSIBLE ∧
    ((extractFeature (exampleExternals (lineQuery 2)) tieEstimatorReversed).heap
      1).value.statusOfMaximum = NodeStatus.MAXIMUM_FOUND ∧
    ((extractFeature (exampleExternals (lineQuery 2)) tieEstimatorReversed).heap
      0).value.statusOfMaximum = NodeStatus.MAXIMUM_NOT_POSSIBLE := by
  refine ⟨rfl, rfl, ?_⟩
  decide!

/-! ## The pairwise cross products -/

section
variable {H D : Type}

theorem insertPairs_append (ext : Externals H D) (config : Configuration) (heap : Heap H)
    (p q : List (Nat × Nat)) (h : H) :
    insertPairs ext config heap (p ++ q) h
      = insertPairs ext config heap q (insertPairs ext config heap p h) := by
  simp [insertPairs, List.foldl_append]

/-- The inner loop for a Stable first node inserts one pair for each Stable
later node; for another first node it inserts nothing. -/
theorem insertPairsWith_eq (ext : Externals H D) (config : Configuration) (heap : Heap H)
    (first : Nat) (rest : List Nat) :
    ∀ h : H, insertPairsWith ext config heap first rest h =
      if (heap first).value.statusOfNormal = NormalStatus.NORMAL_STABLE then
        insertPairs ext config heap ((stableNodes heap rest).map (fun m => (first, m))) h
      else h := by
  induction rest with
  | nil =>
    intro h
    simp [insertPairsWith, insertPairs, stableNodes]
  | cons n rest ih =>
    intro h
    rw [insertPairsWith]
    by_cases hf : (heap first).value.statusOfNormal = NormalStatus.NORMAL_STABLE
    · by_cases hn : (heap n).value.statusOfNormal = NormalStatus.NORMAL_STABLE
      · rw [if_pos ⟨hf, hn⟩, ih, if_pos hf, if_pos hf]
        simp [stableNodes, List.filter_cons, hn, insertPairs]
      · rw [if_neg (fun hc => hn hc.2), ih, if_pos hf, if_pos hf]
        simp [stableNodes, List.filter_cons, hn]
    · rw [if_neg (fun hc => hf hc.1), ih, if_neg hf, if_neg hf]

theorem insertPairwiseCrossProducts_eq (ext : Externals H D) (config : Configuration)
    (heap : Heap H) (l : List Nat) :
    ∀ h : H, insertPairwiseCrossProducts ext config heap l h =
      insertPairs ext config heap (orderedPairs (stableNodes heap l)) h := by
  induction l with
  | nil => exact fun _ => rfl
  | cons n rest ih =>
    intro h
    rw [insertPairwiseCrossProducts, ih, insertPairsWith_eq]
    by_cases hn : (heap n).value.statusOfNormal = NormalStatus.NORMAL_STABLE
    · have hs : stableNodes heap (n :: rest) = n :: stableNodes heap rest := by
        simp [stableNodes, List.filter_cons, hn]
      rw [if_pos hn, hs, orderedPairs, insertPairs_append]
    · have hs : stableNodes heap (n :: rest) = stableNodes heap rest := by
        simp [stableNodes, List.filter_cons, hn]
      rw [if_neg hn, hs]

theorem orderedPairs_length_twice (l : List Nat) :
    2 * (orderedPairs l).length = l.length * (l.length - 1) := by
  induction l with
  | nil => rfl
  | cons n rest ih =>
    simp only [orderedPairs, List.length_append, List.length_map, List.length_cons,
      Nat.add_sub_cancel]
    rw [Nat.mul_add, ih]
    cases rest.length with
    | zero => rfl
    | succ k =>
      simp only [Nat.add_sub_cancel]
      ring

theorem orderedPairs_mem (l : List Nat) (a b : Nat) :
    (a, b) ∈ orderedPairs l ↔
      ∃ i j : Nat, i < j ∧ l[i]? = some a ∧ l[j]? = some b := by
  induction l with
  | nil => simp [orderedPairs]
  | cons n rest ih =>
    simp only [orderedPairs, List.mem_append, List.mem_map, Prod.mk.injEq, ih]
    constructor
    · rintro (⟨m, hm, rfl, rfl⟩ | ⟨i, j, hij, hi, hj⟩)
      · obtain ⟨j, hj⟩ := List.getElem?_of_mem hm
        exact ⟨0, j + 1, Nat.succ_pos j, by simp, by simpa using hj⟩
      · exact ⟨i + 1, j + 1, Nat.succ_lt_succ hij, by simpa using hi, by simpa using hj⟩
    · rintro ⟨i, j, hij, hi, hj⟩
      cases j with
      | zero => exact absurd hij (Nat.not_lt_zero i)
      | succ j =>
        have hj2 : rest[j]? = some b := by simpa using hj
        cases i with
        | zero =>
          have hi2 : n = a := by simpa using hi
          exact Or.inl ⟨b, List.mem_iff_getElem?.mpr ⟨j, hj2⟩, hi2, rfl⟩
        | succ i =>
          have hi2 : rest[i]? = some a := by simpa using hi
          exact Or.inr ⟨i, j, Nat.lt_of_succ_lt_succ hij, hi2, hj2⟩

/-- C23: `calculatePairwiseCrossProductEntropy` makes, on the cleared or newly
allocated entropy histogram of the node, exactly one call of
`insertCrossProduct` for each pair of positions `i < j` of the Stable nodes of
the neighbourhood list, in the order of the two loops and with
`(normal_i, normal_j)` as arguments, and no other call: a node that is not
Stable takes part in no insertion, and for `k` Stable nodes in the list there
are `k * (k - 1) / 2` insertions. -/
theorem calculatePairwiseCrossProductEntropy_pairs (ext : Externals H D)
    (config : Configuration) (heap : Heap H) (treenode : Nat) :
    calculatePairwiseCrossProductEntropy ext config heap treenode =
      storeEntropy ext heap treenode
        (insertPairs ext config heap
          (orderedPairs (stableNodes heap (histogramNeighbours ext config heap treenode)))
          (freshEntropyHistogram ext (heap treenode))) ∧
    (orderedPairs (stableNodes heap (histogramNeighbours ext config heap treenode))).length =
      (stableNodes heap (histogramNeighbours ext config heap treenode)).length *
        ((stableNodes heap (histogramNeighbours ext config heap treenode)).length - 1) / 2 ∧
    (∀ a b : Nat, (a, b) ∈ orderedPairs
        (stableNodes heap (histogramNeighbours ext config heap treenode)) ↔
      ∃ i j : Nat, i < j ∧
        (stableNodes heap (histogramNeighbours ext config heap treenode))[i]? = some a ∧
        (stableNodes heap (histogramNeighbours ext config heap treenode))[j]? = some b) ∧
    (∀ n, n ∈ stableNodes heap (histogramNeighbours ext config heap treenode) ↔
      n ∈ histogramNeighbours ext config heap treenode ∧
        (heap n).value.statusOfNormal = NormalStatus.NORMAL_STABLE) := by
  refine ⟨?_, ?_, fun a b => orderedPairs_mem _ a b, ?_⟩
  · unfold calculatePairwiseCrossProductEntropy
    simp only [insertPairwiseCrossProducts_eq]
  · rw [← orderedPairs_length_twice]
    simp
  · intro n
    simp [stableNodes]

end

/-! ## Found nodes are separated -/

section
variable {H D : Type}

/-- A step of stage 2 on a node of the list `L` keeps the Found nodes of `L`
pairwise separated, when the neighbourhood relation is symmetric on `L`. -/
theorem separated_step (ext : Externals H D) (est1 e : SURE_Estimator H D) (L : List Nat)
    (s : Nat) (inv : SuppressInv ext est1 e) (hs : s ∈ L)
    (hsym : ∀ a ∈ L, ∀ b ∈ L, b ∈ influenceNeighbours ext est1 a →
      a ∈ influenceNeighbours ext est1 b)
    (sep : ∀ a ∈ L, ∀ b ∈ L, a ≠ b →
      (e.heap a).value.statusOfMaximum = NodeStatus.MAXIMUM_FOUND →
      (e.heap b).value.statusOfMaximum = NodeStatus.MAXIMUM_FOUND →
      b ∉ influenceNeighbours ext est1 a) :
    ∀ a ∈ L, ∀ b ∈ L, a ≠ b →
      ((extractSuppressStep ext e s).heap a).value.statusOfMaximum
        = NodeStatus.MAXIMUM_FOUND →
      ((extractSuppressStep ext e s).heap b).value.statusOfMaximum
        = NodeStatus.MAXIMUM_FOUND →
      b ∉ influenceNeighbours ext est1 a := by
  have hN : influenceNeighbours ext e s = influenceNeighbours ext est1 s :=
    influenceNeighbours_congr ext est1 e s inv.config (inv.closestPosition s)
  have frame := (extractSuppressStep_frame ext e s).2.2.1
  -- a node other than `s` that is Found after the step was Found before it
  have old : ∀ n, n ≠ s →
      ((extractSuppressStep ext e s).heap n).value.statusOfMaximum
        = NodeStatus.MAXIMUM_FOUND →
      (e.heap n).value.statusOfMaximum = NodeStatus.MAXIMUM_FOUND := by
    intro n hn h
    rwa [frame n hn] at h
  -- if `s` is Found after the step, no other Found node is among its neighbours
  have fresh : ((extractSuppressStep ext e s).heap s).value.statusOfMaximum
        = NodeStatus.MAXIMUM_FOUND →
      ∀ b ∈ L, b ≠ s → (e.heap b).value.statusOfMaximum = NodeStatus.MAXIMUM_FOUND →
      b ∉ influenceNeighbours ext est1 s := by
    intro h b hb hbs hfb
    rcases extractSuppressStep_cases ext e s with ⟨_, hc⟩ | ⟨_, hu, _⟩ | ⟨_, _, hc⟩
    · rw [hc] at h
      exact sep s hs b hb (Ne.symm hbs) h hfb
    · intro hmem
      exact (hu b (hN ▸ hmem) hbs).1 hfb
    · rw [hc, withStatus_status_self] at h
      exact absurd h (by decide)
  intro a ha b hb hab fa fb
  by_cases has : a = s
  · subst has
    exact fresh fa b hb (Ne.symm hab) (old b (Ne.symm hab) fb)
  · by_cases hbs : b = s
    · subst hbs
      intro hmem
      exact fresh fb a ha has (old a has fa) (hsym a ha b hb hmem)
    · exact sep a ha b hb hab (old a has fa) (old b hbs fb)

theorem separated_foldl (ext : Externals H D) (est1 : SURE_Estimator H D) (L : List Nat)
    (hsym : ∀ a ∈ L, ∀ b ∈ L, b ∈ influenceNeighbours ext est1 a →
      a ∈ influenceNeighbours ext est1 b) (l : List Nat) :
    ∀ e : SURE_Estimator H D, (∀ s ∈ l, s ∈ L) → SuppressInv ext est1 e →
      (∀ a ∈ L, ∀ b ∈ L, a ≠ b →
        (e.heap a).value.statusOfMaximum = NodeStatus.MAXIMUM_FOUND →
        (e.heap b).value.statusOfMaximum = NodeStatus.MAXIMUM_FOUND →
        b ∉ influenceNeighbours ext est1 a) →
      ∀ a ∈ L, ∀ b ∈ L, a ≠ b →
        ((l.foldl (extractSuppressStep ext) e).heap a).value.statusOfMaximum
          = NodeStatus.MAXIMUM_FOUND →
        ((l.foldl (extractSuppressStep ext) e).heap b).value.statusOfMaximum
          = NodeStatus.MAXIMUM_FOUND →
        b ∉ influenceNeighbours ext est1 a := by
  induction l with
  | nil => exact fun _ _ _ sep => sep
  | cons s rest ih =>
    intro e hl inv sep
    exact ih (extractSuppressStep ext e s) (fun t ht => hl t (List.mem_cons_of_mem _ ht))
      (SuppressInv.step ext est1 e s inv)
      (separated_step ext est1 e L s inv (hl s (List.mem_cons_self _ _)) hsym sep)

/-- C25: when the featureInfluenceRadius neighbourhood relation is symmetric on
the nodes of the sampling level and none of them is Found before the pass, then
after `extractFeature` no two distinct Found nodes of the level are neighbours
of one another. -/
theorem extractFeature_found_separated (ext : Externals H D) (est : SURE_Estimator H D)
    (hsym : ∀ a ∈ est.levelNodes est.config.samplingLevel,
      ∀ b ∈ est.levelNodes est.config.samplingLevel,
      b ∈ influenceNeighbours ext est a → a ∈ influenceNeighbours ext est b)
    (hnone : ∀ n ∈ est.levelNodes est.config.samplingLevel,
      (est.heap n).value.statusOfMaximum ≠ NodeStatus.MAXIMUM_FOUND) :
    ∀ a ∈ est.levelNodes est.config.samplingLevel,
      ∀ b ∈ est.levelNodes est.config.samplingLevel, a ≠ b →
      ((extractFeature ext est).heap a).value.statusOfMaximum = NodeStatus.MAXIMUM_FOUND →
      ((extractFeature ext est).heap b).value.statusOfMaximum = NodeStatus.MAXIMUM_FOUND →
      b ∉ influenceNeighbours ext est a ∧ a ∉ influenceNeighbours ext est b := by
  obtain ⟨_, gp, _, gf⟩ := extractThreshold_frame ext est.config
    (est.levelNodes est.config.samplingLevel) est.heap
  have hN : ∀ n, influenceNeighbours ext (est.thresholded ext) n
      = influenceNeighbours ext est n :=
    fun n => influenceNeighbours_congr ext est _ n rfl (gp n)
  have key := separated_foldl ext (est.thresholded ext)
    (est.levelNodes est.config.samplingLevel)
    (fun a ha b hb h => by
      rw [hN] at h ⊢
      exact hsym a ha b hb h)
    (est.levelNodes est.config.samplingLevel) (est.thresholded ext) (fun _ h => h)
    (SuppressInv.refl ext _)
    (fun a ha _ _ _ fa _ => absurd (gf a fa) (hnone a ha))
  rw [← extractFeature_eq] at key
  intro a ha b hb hab fa fb
  have h1 := key a ha b hb hab fa fb
  have h2 := key b hb a ha (Ne.symm hab) fb fa
  rw [hN] at h1 h2
  exact ⟨h1, h2⟩

end

/-- Witness of C25: in the chain of three nodes scanned in order the first and
the third end Found, and they are not neighbours of one another. -/
theorem extractFeature_found_separated_witness :
    2 ∉ influenceNeighbours (exampleExternals (lineQuery 3)) chainEstimator 0 ∧
    0 ∉ influenceNeighbours (exampleExternals (lineQuery 3)) chainEstimator 2 :=
  extractFeature_found_separated (exampleExternals (lineQuery 3)) chainEstimator
    (by decide!) (by decide!) 0 (by decide!) 2 (by decide!) (by decide) (by decide!)
    (by decide!)

/-! ## Features and Found nodes -/

section
variable {H D : Type}

/-- The steps of stage 2 on other nodes leave a node as it is. -/
theorem suppress_foldl_heap_notin (ext : Externals H D) (s : Nat) (l : List Nat) :
    ∀ e : SURE_Estimator H D, s ∉ l →
      (l.foldl (extractSuppressStep ext) e).heap s = e.heap s := by
  induction l with
  | nil => exact fun _ _ => rfl
  | cons t rest ih =>
    intro e hs
    rw [List.foldl_cons, ih _ (fun h => hs (List.mem_cons_of_mem _ h))]
    exact (extractSuppressStep_frame ext e t).2.2.1 s
      (fun h => hs (h ▸ List.mem_cons_self _ _))

theorem nodeKey_step (ext : Externals H D) (e : SURE_Estimator H D) (s j : Nat) :
    nodeKey (extractSuppressStep ext e s) j = nodeKey e j := by
  obtain ⟨fc, _, _, fe, fp, fi⟩ := extractSuppressStep_frame ext e s
  simp only [nodeKey, fc, fe, fp, fi]

theorem createFeature_key (ext : Externals H D) (e : SURE_Estimator H D) (s : Nat) :
    (createFeature ext (e.withStatus s NodeStatus.MAXIMUM_FOUND) s).key = nodeKey e s := by
  simp only [Feature.key, nodeKey, createFeature, createDescriptor_point,
    createDescriptor_entropy, createDescriptor_pointCloudIndex, createDescriptor_radius,
    withStatus_closestPosition, withStatus_entropy, withStatus_pointCloudIndex]
  rfl

/-- A scan of stage 2 over a list without repetition, none of whose nodes is
Found before: the Features it appends are those of the nodes of the list that
are Found after it, in list order. -/
theorem suppress_features_found (ext : Externals H D) (l : List Nat) :
    ∀ e : SURE_Estimator H D, l.Nodup →
      (∀ n ∈ l, (e.heap n).value.statusOfMaximum ≠ NodeStatus.MAXIMUM_FOUND) →
      (l.foldl (extractSuppressStep ext) e).features.map Feature.key =
        e.features.map Feature.key ++
          (l.filter (fun n => decide
            (((l.foldl (extractSuppressStep ext) e).heap n).value.statusOfMaximum
              = NodeStatus.MAXIMUM_FOUND))).map (nodeKey e) := by
  induction l with
  | nil => intro e _ _; simp
  | cons s rest ih =>
    intro e hnd hnone
    obtain ⟨hs, hrest⟩ := List.nodup_cons.mp hnd
    have frame := (extractSuppressStep_frame ext e s).2.2.1
    have hnone2 : ∀ n ∈ rest,
        ((extractSuppressStep ext e s).heap n).value.statusOfMaximum
          ≠ NodeStatus.MAXIMUM_FOUND := by
      intro n hn
      rw [frame n (fun h => hs (h ▸ hn))]
      exact hnone n (List.mem_cons_of_mem _ hn)
    have hih := ih (extractSuppressStep ext e s) hrest hnone2
    have hkey : (nodeKey (extractSuppressStep ext e s) : Nat → _) = nodeKey e :=
      funext (nodeKey_step ext e s)
    rw [hkey] at hih
    have hfinal : (((s :: rest).foldl (extractSuppressStep ext) e).heap s)
        = (extractSuppressStep ext e s).heap s := by
      rw [List.foldl_cons]
      exact suppress_foldl_heap_notin ext s rest _ hs
    rw [List.filter_cons, hfinal]
    rw [List.foldl_cons, hih]
    rcases extractSuppressStep_cases ext e s with ⟨hp, hc⟩ | ⟨_, _, hc⟩ | ⟨_, _, hc⟩
    · have hst : ((extractSuppressStep ext e s).heap s).value.statusOfMaximum
          ≠ NodeStatus.MAXIMUM_FOUND := by
        rw [hc]
        exact hnone s (List.mem_cons_self _ _)
      simp only [hst, decide_False, Bool.false_eq_true, if_false]
      rw [hc]
    · have hst : ((extractSuppressStep ext e s).heap s).value.statusOfMaximum
          = NodeStatus.MAXIMUM_FOUND := by
        rw [hc]
        exact withStatus_status_self e s _
      simp only [hst, decide_True, if_true, List.map_cons]
      rw [hc]
      simp only [List.map_append, List.map_cons, List.map_nil, List.append_assoc,
        List.singleton_append, createFeature_key]
    · have hst : ((extractSuppressStep ext e s).heap s).value.statusOfMaximum
          ≠ NodeStatus.MAXIMUM_FOUND := by
        rw [hc, withStatus_status_self]
        decide
      simp only [hst, decide_False, Bool.false_eq_true, if_false]
      rw [hc]
      rfl

/-- Stage 1 keeps the status of a node that is Artificial or Background. -/
theorem extractThreshold_keeps_artificial (ext : Externals H D) (config : Configuration)
    (heap : Heap H) (nodes : List Nat) (n : Nat)
    (h : (heap n).value.statusOfMaximum = NodeStatus.ARTIFICIAL ∨
      (heap n).value.statusOfMaximum = NodeStatus.BACKGROUND) :
    (extractThreshold ext config heap nodes n).value.statusOfMaximum
      = (heap n).value.statusOfMaximum := by
  refine foldl_preserve (extractThresholdStep ext config)
    (fun s => (s n).value.statusOfMaximum = (heap n).value.statusOfMaximum) ?_ nodes heap rfl
  intro s i hs
  beta_reduce at hs ⊢
  by_cases hi : n = i
  · subst hi
    rcases extractThresholdStep_cases ext config s n with
      ⟨_, hc⟩ | ⟨h1, _, _⟩ | ⟨h1, _, _, _⟩ | ⟨_, _, _, hc⟩
    · rw [hc]
      exact hs
    · rw [hs] at h1
      exact absurd h h1
    · rw [hs] at h1
      exact absurd h h1
    · rw [hc]
      exact hs
  · rw [(extractThresholdStep_frame ext config s i).1 n hi]
    exact hs

/-- C26: starting from an empty Feature list and a sampling level that lists
every node once and has no Found node, after `extractFeature` the Features
correspond one to one, in sampling-map order, to the nodes of the level whose
status is Found: the Feature at index `i` has the position, the entropy and the
point cloud index of the Found node at index `i` and the radius
`config.histogramRadius`.  A node that is Artificial or Background keeps its
status, so it is not Found and yields no Feature. -/
theorem extractFeature_features_found (ext : Externals H D) (est : SURE_Estimator H D)
    (hempty : est.features = [])
    (hnodup : (est.levelNodes est.config.samplingLevel).Nodup)
    (hnone : ∀ n ∈ est.levelNodes est.config.samplingLevel,
      (est.heap n).value.statusOfMaximum ≠ NodeStatus.MAXIMUM_FOUND) :
    (extractFeature ext est).features.map Feature.key
      = (foundNodes (extractFeature ext est)).map (nodeKey est) ∧
    (extractFeature ext est).features.length = (foundNodes (extractFeature ext est)).length ∧
    (∀ (i : Nat) (f : Feature D) (j : Nat), (extractFeature ext est).features[i]? = some f →
      (foundNodes (extractFeature ext est))[i]? = some j →
      f.point = (est.heap j).closestPosition ∧ f.entropy = (est.heap j).value.entropy ∧
      f.pointCloudIndex = (est.heap j).value.pointCloudIndex ∧
      f.radius = est.config.histogramRadius) ∧
    (∀ n, (est.heap n).value.statusOfMaximum = NodeStatus.ARTIFICIAL ∨
        (est.heap n).value.statusOfMaximum = NodeStatus.BACKGROUND →
      ((extractFeature ext est).heap n).value.statusOfMaximum
        = (est.heap n).value.statusOfMaximum ∧
      n ∉ foundNodes (extractFeature ext est)) := by
  obtain ⟨ge, gp, gi, gf⟩ := extractThreshold_frame ext est.config
    (est.levelNodes est.config.samplingLevel) est.heap
  have inv := SuppressInv.foldl ext _ (est.levelNodes est.config.samplingLevel) _
    (SuppressInv.refl ext (est.thresholded ext))
  rw [← extractFeature_eq] at inv
  have hfound : foundNodes (extractFeature ext est) =
      (est.levelNodes est.config.samplingLevel).filter (fun n => decide
        (((extractFeature ext est).heap n).value.statusOfMaximum
          = NodeStatus.MAXIMUM_FOUND)) := by
    unfold foundNodes
    rw [inv.config, SURE_Estimator.levelNodes, inv.octreeMap]
    rfl
  have hkey : (nodeKey (est.thresholded ext) : Nat → _) = nodeKey est := by
    funext j
    simp only [nodeKey]
    rw [show ((est.thresholded ext).heap j).closestPosition = (est.heap j).closestPosition
        from gp j,
      show ((est.thresholded ext).heap j).value.entropy = (est.heap j).value.entropy
        from ge j,
      show ((est.thresholded ext).heap j).value.pointCloudIndex
        = (est.heap j).value.pointCloudIndex from gi j]
    rfl
  have main := suppress_features_found ext (est.levelNodes est.config.samplingLevel)
    (est.thresholded ext) hnodup (fun n hn h => hnone n hn (gf n h))
  rw [← extractFeature_eq, hkey] at main
  have hfe : (est.thresholded ext).features = [] := hempty
  rw [hfe, List.map_nil, List.nil_append, ← hfound] at main
  refine ⟨main, ?_, ?_, ?_⟩
  · have := congrArg List.length main
    simpa using this
  · intro i f j hf hj
    have h1 : ((extractFeature ext est).features.map Feature.key)[i]? = some f.key := by
      rw [List.getElem?_map, hf]
      rfl
    have h2 : ((foundNodes (extractFeature ext est)).map (nodeKey est))[i]?
        = some (nodeKey est j) := by
      rw [List.getElem?_map, hj]
      rfl
    rw [main, h2] at h1
    have h3 : nodeKey est j = f.key := Option.some.inj h1
    simp only [nodeKey, Feature.key, Prod.mk.injEq] at h3
    exact ⟨h3.1.symm, h3.2.1.symm, h3.2.2.1.symm, h3.2.2.2.symm⟩
  · intro n hn
    have h1 : ((est.thresholded ext).heap n).value.statusOfMaximum
        = (est.heap n).value.statusOfMaximum :=
      extractThreshold_keeps_artificial ext est.config est.heap _ n hn
    have h2 : ((extractFeature ext est).heap n).value.statusOfMaximum
        = (est.heap n).value.statusOfMaximum := by
      rcases inv.status n with e | ⟨e, _⟩
      · exact e.trans h1
      · rw [h1] at e
        rcases hn with hn | hn <;> rw [hn] at e <;> exact absurd e (by decide)
    refine ⟨h2, ?_⟩
    rw [hfound, List.mem_filter]
    rintro ⟨_, h3⟩
    rw [decide_eq_true_eq, h2] at h3
    rcases hn with hn | hn <;> rw [hn] at h3 <;> exact absurd h3 (by decide)

end

/-- Witness of C26: in the chain of three possible maxima scanned in order, the
two Features are those of the Found nodes 0 and 2, in this order. -/
theorem extractFeature_features_found_witness :
    (extractFeature (exampleExternals (lineQuery 3)) chainEstimator).features.map Feature.key
      = (foundNodes (extractFeature (exampleExternals (lineQuery 3)) chainEstimator)).map
          (nodeKey chainEstimator) :=
  (extractFeature_features_found (exampleExternals (lineQuery 3)) chainEstimator rfl
    (by decide!) (by decide!)).1

/-! ## The deviation of the mean shift -/

section
variable {H D : Type}

theorem meanShiftDeviation_eq (ext : Externals H D) (sums : Flt × Flt × Nat) :
    meanShiftDeviation ext sums = Flt.sqrt ext.sqrtQ (meanShiftRadicand sums) := rfl

/-- The sums of the first loop when the contributing entropies are finite. -/
theorem meanShiftSums_contributing (heap : Heap H) (l : List Nat)
    (hfin : ∀ i ∈ l, (heap i).value.statusOfMaximum ≠ NodeStatus.ARTIFICIAL →
      Flt.isFinite (heap i).value.entropy = true) :
    ∀ (a b : ℚ) (c : Nat),
      meanShiftSums heap l (Flt.fin a, Flt.fin b, c) =
        (Flt.fin (a + (contributingEntropies heap l).sum),
         Flt.fin (b + ((contributingEntropies heap l).map (fun q => q * q)).sum),
         c + (contributingEntropies heap l).length) := by
  induction l with
  | nil =>
    intro a b c
    simp [meanShiftSums, contributingEntropies]
  | cons i rest ih =>
    intro a b c
    have ih2 := ih (fun j hj => hfin j (List.mem_cons_of_mem _ hj))
    rw [meanShiftSums]
    by_cases ha : (heap i).value.statusOfMaximum = NodeStatus.ARTIFICIAL
    · rw [if_pos ha, ih2]
      simp [contributingEntropies, List.filter_cons, ha]
    · rw [if_neg ha]
      have hf := hfin i (List.mem_cons_self _ _) ha
      cases he : (heap i).value.entropy with
      | fin q =>
        simp only [Flt.add, Flt.mul]
        rw [ih2]
        simp only [contributingEntropies, List.filter_cons, ha, ne_eq, not_false_eq_true,
          decide_True, if_true, List.map_cons, List.sum_cons, List.length_cons, he, Flt.toRat]
        refine Prod.ext ?_ (Prod.ext ?_ ?_)
        · simp only [Flt.fin.injEq]
          ring
        · simp only [Flt.fin.injEq]
          ring
        · simp only
          omega
      | nan => rw [he] at hf; exact absurd hf (by simp [Flt.isFinite])
      | pinf => rw [he] at hf; exact absurd hf (by simp [Flt.isFinite])
      | ninf => rw [he] at hf; exact absurd hf (by simp [Flt.isFinite])

/-- The sum of the squared deviations from the mean is
`Sum e_i^2 - (Sum e_i)^2 / n`. -/
theorem sum_sq_deviation (qs : List ℚ) (hn : 0 < qs.length) :
    (qs.map (fun q => (q - listMean qs) * (q - listMean qs))).sum
      = (qs.map (fun q => q * q)).sum - qs.sum * qs.sum / qs.length := by
  have hn0 : (qs.length : ℚ) ≠ 0 := by positivity
  rw [sum_sq_expand, listMean]
  field_simp
  ring

theorem sum_sq_nonneg (qs : List ℚ) (m : ℚ) :
    0 ≤ (qs.map (fun q => (q - m) * (q - m))).sum := by
  induction qs with
  | nil => simp
  | cons x rest ih =>
    simp only [List.map_cons, List.sum_cons]
    have := mul_self_nonneg (x - m)
    linarith

/-- The value `|Sum e_i^2 - (Sum e_i)^2 / n|` is `n` times the variance. -/
theorem sigmaSq_eq (qs : List ℚ) (hn : 0 < qs.length) :
    sigmaSq qs = qs.length * listVariance qs ∧
    sigmaSq qs = (qs.map (fun q => (q - listMean qs) * (q - listMean qs))).sum := by
  have hn0 : (qs.length : ℚ) ≠ 0 := by positivity
  have h := sum_sq_deviation qs hn
  have h2 : sigmaSq qs = (qs.map (fun q => (q - listMean qs) * (q - listMean qs))).sum := by
    unfold sigmaSq
    rw [← h, abs_of_nonneg (sum_sq_nonneg qs _)]
  refine ⟨?_, h2⟩
  rw [h2, listVariance]
  field_simp

/-- The mean and the argument of `sqrt` of an iteration whose contributing
entropies are finite: the mean of the entropies, and `n` times their
variance. -/
theorem meanShiftRadicand_eq (heap : Heap H) (l : List Nat)
    (hfin : ∀ i ∈ l, (heap i).value.statusOfMaximum ≠ NodeStatus.ARTIFICIAL →
      Flt.isFinite (heap i).value.entropy = true)
    (hn : 0 < (contributingEntropies heap l).length) :
    (meanShiftSums heap l (Flt.fin 0, Flt.fin 0, 0)).2.2
      = (contributingEntropies heap l).length ∧
    Flt.div (meanShiftSums heap l (Flt.fin 0, Flt.fin 0, 0)).1
        (Flt.ofNat (meanShiftSums heap l (Flt.fin 0, Flt.fin 0, 0)).2.2)
      = Flt.fin (listMean (contributingEntropies heap l)) ∧
    meanShiftRadicand (meanShiftSums heap l (Flt.fin 0, Flt.fin 0, 0))
      = Flt.fin (sigmaSq (contributingEntropies heap l)) := by
  have hn0 : ((contributingEntropies heap l).length : ℚ) ≠ 0 := by positivity
  rw [meanShiftSums_contributing heap l hfin]
  simp only [zero_add]
  refine ⟨trivial, ?_, ?_⟩
  · simp only [Flt.div, Flt.ofNat, if_neg hn0, listMean]
  · simp only [meanShiftRadicand, Flt.div, Flt.ofNat, if_neg hn0, Flt.mul, Flt.sub, Flt.neg,
      Flt.add, Flt.abs, sigmaSq]
    congr 1
    have e : (List.map (fun q => q * q) (contributingEntropies heap l)).sum +
        -(1 / ((contributingEntropies heap l).length : ℚ) *
          ((contributingEntropies heap l).sum * (contributingEntropies heap l).sum))
        = (List.map (fun q => q * q) (contributingEntropies heap l)).sum -
          (contributingEntropies heap l).sum * (contributingEntropies heap l).sum /
            ((contributingEntropies heap l).length : ℚ) := by
      field_simp
      ring
    rw [e]
    split_ifs with hneg
    · rw [abs_of_neg hneg]
    · rw [abs_of_nonneg (not_lt.mp hneg)]

end

/-- C21, the divergence: around `(3/4, 0, 0)` the query returns four nodes, none
artificial, of entropies 0, 0, 2 and 2.  Their mean is 1 and the variance `(1/4) * Sum (e_i - 1)^2` is 1, so the
standard deviation is 1; the iteration computes
`sqrt(|Sum e_i^2 - (Sum e_i)^2 / 4|) = sqrt(|8 - 4|) = 2` as
`standardDeviation` and uses `sigma^2 = 4`, four times the variance, in the
kernel. -/
theorem meanShiftDeviation_not_variance :
    meanShiftNeighbours exactRootExternals spreadEstimator
      ⟨Flt.fin (3 / 4), Flt.fin 0, Flt.fin 0⟩ = [0, 1, 2, 3] ∧
    contributingEntropies spreadEstimator.heap [0, 1, 2, 3] = [0, 0, 2, 2] ∧
    listMean [0, 0, 2, 2] = 1 ∧
    listVariance [0, 0, 2, 2] = 1 ∧
    meanShiftSums spreadEstimator.heap [0, 1, 2, 3] (Flt.fin 0, Flt.fin 0, 0)
      = (Flt.fin 4, Flt.fin 8, 4) ∧
    meanShiftRadicand (Flt.fin 4, Flt.fin 8, 4) = Flt.fin 4 ∧
    exactRootExternals.sqrtQ 4 * exactRootExternals.sqrtQ 4 = 4 ∧
    meanShiftDeviation exactRootExternals (Flt.fin 4, Flt.fin 8, 4) = Flt.fin 2 ∧
    Flt.mul (meanShiftDeviation exactRootExternals (Flt.fin 4, Flt.fin 8, 4))
      (meanShiftDeviation exactRootExternals (Flt.fin 4, Flt.fin 8, 4)) = Flt.fin 4 ∧
    Flt.mul (meanShiftDeviation exactRootExternals (Flt.fin 4, Flt.fin 8, 4))
      (meanShiftDeviation exactRootExternals (Flt.fin 4, Flt.fin 8, 4))
      ≠ Flt.fin (listVariance [0, 0, 2, 2]) := by
  decide!

/-! ## The program in binary32 -/

section
variable {H D : Type}

/-- The first loop in binary32 counts the nodes that are not artificial. -/
theorem binary32_meanShiftSums_count (heap : Heap H) (l : List Nat) :
    ∀ acc : Flt × Flt × Nat,
      (binary32.meanShiftSums heap l acc).2.2 = acc.2.2 + contributing heap l := by
  induction l with
  | nil => intro acc; rfl
  | cons i rest ih =>
    rintro ⟨s, t, c⟩
    unfold binary32.meanShiftSums contributing
    split_ifs with h
    · exact ih _
    · rw [ih]
      show c + 1 + contributing heap rest = c + (contributing heap rest + 1)
      omega

/-- The update of one iteration in binary32 keeps the position when no node of
the list contributes. -/
theorem binary32_meanShiftUpdate_no_neighbour (ext : Externals H D) (heap : Heap H)
    (l : List Nat) (point : Vector3f)
    (h : ∀ i ∈ l, (heap i).value.statusOfMaximum = NodeStatus.ARTIFICIAL) :
    binary32.meanShiftUpdate ext heap l point = point := by
  have hc : (binary32.meanShiftSums heap l (Flt.fin 0, Flt.fin 0, 0)).2.2 = 0 := by
    rw [binary32_meanShiftSums_count, contributing_zero heap l h]
  unfold binary32.meanShiftUpdate
  simp only [hc, lt_irrefl, if_false]

end

/-- C7, the code at the failing input: the level holds the three nodes at
`x = 0, 1, 2` and `pos = (2^100, 0, 0)`, a binary32 number, lies in none of them.
Each squared distance of line 202 overflows to `+INFINITY`, none is below the
initial `bestDistance = INFINITY`, and the function returns the null pointer
although the level holds three nodes; the node whose `closestPosition` has the
minimal squared Euclidean distance to `pos` is node 2, which is also what the
function returns when the distances are computed without rounding. -/
theorem getNodeFromPosition_overflow :
    Flt.binary32 (Flt.fin (2 ^ 100)) = Flt.fin (2 ^ 100) ∧
    chainEstimator.levelNodes 1 = [0, 1, 2] ∧
    (∀ i ∈ [0, 1, 2], (exampleExternals (lineQuery 3)).inRegion (chainEstimator.heap i)
      ⟨Flt.fin (2 ^ 100), Flt.fin 0, Flt.fin 0⟩ = false) ∧
    (∀ i ∈ [0, 1, 2], binary32.squaredDistance ⟨Flt.fin (2 ^ 100), Flt.fin 0, Flt.fin 0⟩
      (chainEstimator.heap i).closestPosition = Flt.pinf) ∧
    binary32.getNodeFromPosition (exampleExternals (lineQuery 3)) chainEstimator
      ⟨Flt.fin (2 ^ 100), Flt.fin 0, Flt.fin 0⟩ 1 = none ∧
    (∀ i ∈ [0, 1], Flt.lt
      (squaredDistance ⟨Flt.fin (2 ^ 100), Flt.fin 0, Flt.fin 0⟩
        (chainEstimator.heap 2).closestPosition)
      (squaredDistance ⟨Flt.fin (2 ^ 100), Flt.fin 0, Flt.fin 0⟩
        (chainEstimator.heap i).closestPosition) = true) ∧
    getNodeFromPosition (exampleExternals (lineQuery 3)) chainEstimator
      ⟨Flt.fin (2 ^ 100), Flt.fin 0, Flt.fin 0⟩ 1 = some 2 := by
  decide!

/-- C8: in an iteration of the mean shift in binary32, if the neighbour query
yields no node that is not artificial, the position of the feature is left as it
was.  With identical entropies it is not, at the failing input: three nodes at
`x = 0, 1/2, 1`, all of entropy `0.3f`, around the feature at `(1/4, 0, 0)`.
The sums of the first loop are rounded, the argument of `sqrt` in line 932 is
`2^-25` and not 0, the computed sigma is not 0, every kernel weight is
`exp(0) = 1`, and the iteration moves the feature to `(1/2, 0, 0)`. -/
theorem meanShiftIteration_identical_entropies :
    (∀ (H D : Type) (ext : Externals H D) (est : SURE_Estimator H D) (point : Vector3f),
      (∀ i ∈ binary32.meanShiftNeighbours ext est point,
        (est.heap i).value.statusOfMaximum = NodeStatus.ARTIFICIAL) →
      binary32.meanShiftIteration ext est point = point) ∧
    Flt.binary32 (Flt.fin threeTenths) = Flt.fin threeTenths ∧
    binary32.meanShiftNeighbours (roundingExternals (boxQuery [0, 1 / 2, 1]))
      equalEntropyEstimator ⟨Flt.fin (1 / 4), Flt.fin 0, Flt.fin 0⟩ = [0, 1, 2] ∧
    (∀ i ∈ [0, 1, 2],
      (equalEntropyEstimator.heap i).value.statusOfMaximum ≠ NodeStatus.ARTIFICIAL ∧
      (equalEntropyEstimator.heap i).value.entropy = Flt.fin threeTenths) ∧
    binary32.meanShiftSums equalEntropyEstimator.heap [0, 1, 2] (Flt.fin 0, Flt.fin 0, 0)
      = (Flt.fin (15099495 / 16777216), Flt.fin (9059697 / 33554432), 3) ∧
    Flt.abs (binary32.sub (Flt.fin (9059697 / 33554432))
      (binary32.mul (binary32.div (Flt.fin 1) (binary32.ofNat 3))
        (binary32.mul (Flt.fin (15099495 / 16777216)) (Flt.fin (15099495 / 16777216)))))
      = Flt.fin (1 / 33554432) ∧
    binary32.meanShiftDeviation (roundingExternals (boxQuery [0, 1 / 2, 1]))
      (Flt.fin (15099495 / 16777216), Flt.fin (9059697 / 33554432), 3)
      = Flt.fin (11863283 / 68719476736) ∧
    (∀ i ∈ [0, 1, 2], binary32.kernelWeight (roundingExternals (boxQuery [0, 1 / 2, 1]))
      (binary32.div (Flt.fin (15099495 / 16777216)) (binary32.ofNat 3))
      (Flt.fin (11863283 / 68719476736)) (equalEntropyEstimator.heap i).value.entropy
      = Flt.fin 1) ∧
    binary32.meanShiftIteration (roundingExternals (boxQuery [0, 1 / 2, 1]))
      equalEntropyEstimator ⟨Flt.fin (1 / 4), Flt.fin 0, Flt.fin 0⟩
      = ⟨Flt.fin (1 / 2), Flt.fin 0, Flt.fin 0⟩ :=
  ⟨fun _ _ ext est point h =>
      binary32_meanShiftUpdate_no_neighbour ext est.heap _ point h,
    by decide!⟩

/-- C28, the code at two failing inputs, in binary32.  First: nodes at `x = 1`
and `x = 2` of entropies 1 and `1 + 2^-22` around `(3/2, 0, 0)`.  Both contribute
and `sigma^2 = |Sum e_i^2 - (Sum e_i)^2 / n| = 2^-45 > 0`, but the sums are
rounded and the computed sigma is 0: every exponent is `-INFINITY`, every kernel
weight is 0, `summedShift` is 0, the division is not taken and the new position
is the origin, which is not between the two nodes.  Second: nodes at
`x = 0, 1, 2` of entropies 1, `1 + 7/8192` and `1 + 8/8192` around `(1, 0, 0)`.
The computed sigma is `2^-11`, and for node 0 the squared difference
`(mean - e_0)^2 = 25 * 2^-26` is above the computed `sigma^2 = 2^-22`: the
exponent of its kernel weight is `-25/32`, below `-1/2`. -/
theorem meanShiftIteration_rounded_deviation :
    binary32.meanShiftNeighbours (roundingExternals (boxQuery [1, 2]))
      nearEntropyEstimator ⟨Flt.fin (3 / 2), Flt.fin 0, Flt.fin 0⟩ = [0, 1] ∧
    contributingEntropies nearEntropyEstimator.heap [0, 1] = [1, 4194305 / 4194304] ∧
    (∀ i ∈ [0, 1], Flt.binary32 (nearEntropyEstimator.heap i).value.entropy
      = (nearEntropyEstimator.heap i).value.entropy) ∧
    sigmaSq (contributingEntropies nearEntropyEstimator.heap [0, 1]) = 1 / 35184372088832 ∧
    binary32.meanShiftSums nearEntropyEstimator.heap [0, 1] (Flt.fin 0, Flt.fin 0, 0)
      = (Flt.fin (8388609 / 4194304), Flt.fin (4194305 / 2097152), 2) ∧
    binary32.meanShiftDeviation (roundingExternals (boxQuery [1, 2]))
      (Flt.fin (8388609 / 4194304), Flt.fin (4194305 / 2097152), 2) = Flt.fin 0 ∧
    (∀ i ∈ [0, 1],
      binary32.kernelArgument (binary32.div (Flt.fin (8388609 / 4194304)) (binary32.ofNat 2))
        (Flt.fin 0) (nearEntropyEstimator.heap i).value.entropy = Flt.ninf ∧
      binary32.kernelWeight (roundingExternals (boxQuery [1, 2]))
        (binary32.div (Flt.fin (8388609 / 4194304)) (binary32.ofNat 2))
        (Flt.fin 0) (nearEntropyEstimator.heap i).value.entropy = Flt.fin 0) ∧
    (binary32.meanShiftShift (roundingExternals (boxQuery [1, 2])) nearEntropyEstimator.heap
      (binary32.div (Flt.fin (8388609 / 4194304)) (binary32.ofNat 2)) (Flt.fin 0) [0, 1]
      (Vector3f.zero, Flt.fin 0)).2 = Flt.fin 0 ∧
    binary32.meanShiftIteration (roundingExternals (boxQuery [1, 2]))
      nearEntropyEstimator ⟨Flt.fin (3 / 2), Flt.fin 0, Flt.fin 0⟩
      = ⟨Flt.fin 0, Flt.fin 0, Flt.fin 0⟩ ∧
    (∀ i ∈ [0, 1], (nearEntropyEstimator.heap i).closestPosition.x = Flt.fin 1 ∨
      (nearEntropyEstimator.heap i).closestPosition.x = Flt.fin 2) ∧
    binary32.meanShiftNeighbours (roundingExternals (boxQuery [0, 1, 2]))
      closeEntropyEstimator ⟨Flt.fin 1, Flt.fin 0, Flt.fin 0⟩ = [0, 1, 2] ∧
    contributingEntropies closeEntropyEstimator.heap [0, 1, 2]
      = [1, 8199 / 8192, 1025 / 1024] ∧
    (∀ i ∈ [0, 1, 2], Flt.binary32 (closeEntropyEstimator.heap i).value.entropy
      = (closeEntropyEstimator.heap i).value.entropy) ∧
    sigmaSq (contributingEntropies closeEntropyEstimator.heap [0, 1, 2]) = 19 / 33554432 ∧
    binary32.meanShiftSums closeEntropyEstimator.heap [0, 1, 2] (Flt.fin 0, Flt.fin 0, 0)
      = (Flt.fin (24591 / 8192), Flt.fin (12598279 / 4194304), 3) ∧
    binary32.div (Flt.fin (24591 / 8192)) (binary32.ofNat 3) = Flt.fin (8197 / 8192) ∧
    binary32.meanShiftDeviation (roundingExternals (boxQuery [0, 1, 2]))
      (Flt.fin (24591 / 8192), Flt.fin (12598279 / 4194304), 3) = Flt.fin (1 / 2048) ∧
    binary32.mul (Flt.fin (1 / 2048)) (Flt.fin (1 / 2048)) = Flt.fin (1 / 4194304) ∧
    binary32.mul (binary32.sub (Flt.fin (8197 / 8192)) (Flt.fin 1))
      (binary32.sub (Flt.fin (8197 / 8192)) (Flt.fin 1)) = Flt.fin (25 / 67108864) ∧
    binary32.kernelArgument (Flt.fin (8197 / 8192)) (Flt.fin (1 / 2048))
      (closeEntropyEstimator.heap 0).value.entropy = Flt.fin (-25 / 32) := by
  decide!

end sure
